import Mathlib

/-!
# Lifecycle and dependency propagation of `UHoudiniAssetComponent`

A shallow embedding of `Source/HoudiniEngineRuntime/Private/HoudiniAssetComponent.cpp`.

* A pointer is an `Option`: `none` is `nullptr`.
* The Parameters, Inputs and Outputs a component owns are stored inline in the
  component, each with the `pendingKill` flag that `IsPendingKill()` reads.
* Components refer to each other by address (a `Nat`) into a component store
  (`World.components`); every address holds a component object, which may be
  pending kill.
* Member functions that only touch the component itself are functions on
  `UHoudiniAssetComponent`; those that reach other components take the store
  and the address of `this`.
* A member function that dereferences an entry of an owned sequence without a
  null test returns an `Option`: `none` stands for the dereference of a null
  pointer, after which there is no state to speak of.
-/

namespace Houdini

/-! ## Enumerations -/

/-- The lifecycle states `EHoudiniAssetState`; `Undefined` stands for every
value of the underlying byte that is none of the twelve enumerators. -/
inductive EHoudiniAssetState where
  | NeedInstantiation
  | PreInstantiation
  | Instantiating
  | PreCook
  | Cooking
  | PostCook
  | PreProcess
  | Processing
  | None
  | NeedRebuild
  | NeedDelete
  | Deleting
  | Undefined
  deriving DecidableEq, Repr

/-- The outcome `EHoudiniAssetStateResult` of the last operation. -/
inductive EHoudiniAssetStateResult where
  | None
  | Success
  | Failed
  deriving DecidableEq, Repr

/-- The input types `EHoudiniInputType` that the component file names. -/
inductive EHoudiniInputType where
  | Invalid
  | Geometry
  | Curve
  | Asset
  | Landscape
  | World
  deriving DecidableEq, Repr

/-! ## Owned entities -/

/-- The part of `UHoudiniParameter` that the component reads and writes. -/
structure UHoudiniParameter where
  pendingKill : Bool := false
  parameterName : String := ""
  bHasChanged : Bool := false
  bNeedsToTriggerUpdate : Bool := false
  deriving DecidableEq, Repr

/-- What a `UObject*` held by an input object points to: a Houdini asset
component (by its address in the component store) or some other object. -/
inductive UObjectRef where
  | houdiniAssetComponent (address : Nat)
  | other (address : Nat)
  deriving DecidableEq, Repr

/-- A `UHoudiniInputObject`: `object` is what `GetObject()` returns. -/
structure UHoudiniInputObject where
  pendingKill : Bool := false
  object : Option UObjectRef := none
  deriving DecidableEq, Repr

/-- The part of `UHoudiniInput` that the component reads and writes: the
change-tracking bits, the input type and one object array per input type. -/
structure UHoudiniInput where
  pendingKill : Bool := false
  bHasChanged : Bool := false
  bNeedsToTriggerUpdate : Bool := false
  bDataUploadNeeded : Bool := false
  inputType : EHoudiniInputType := EHoudiniInputType.Geometry
  geometryInputObjects : List (Option UHoudiniInputObject) := []
  curveInputObjects : List (Option UHoudiniInputObject) := []
  assetInputObjects : List (Option UHoudiniInputObject) := []
  landscapeInputObjects : List (Option UHoudiniInputObject) := []
  worldInputObjects : List (Option UHoudiniInputObject) := []
  deriving DecidableEq, Repr

/-- The part of `UHoudiniSplineComponent` read by `NeedUpdate`. -/
structure UHoudiniSplineComponent where
  bIsOutputCurve : Bool := false
  bNeedsToTriggerUpdate : Bool := false
  deriving DecidableEq, Repr

/-- What the pointer `FHoudiniOutputObject::OutputComponent` points to: the
dynamic type decides `Cast<UHoudiniSplineComponent>`. -/
inductive OutputComponentRef where
  | spline (address : Nat) (component : UHoudiniSplineComponent)
  | other (address : Nat)
  deriving DecidableEq, Repr

/-- An `FHoudiniOutputObject` record; the three plain object pointers are
kept as addresses. -/
structure FHoudiniOutputObject where
  outputObject : Option Nat := none
  outputComponent : Option OutputComponentRef := none
  proxyObject : Option Nat := none
  proxyComponent : Option Nat := none
  deriving DecidableEq, Repr

/-- An `FHoudiniInstancedOutput` record, reduced to its `bChanged` bit. -/
structure FHoudiniInstancedOutput where
  bChanged : Bool := false
  deriving DecidableEq, Repr

/-- The part of `UHoudiniOutput` that the component reads: the two maps are
association lists keyed by an identifier, in iteration order. -/
structure UHoudiniOutput where
  pendingKill : Bool := false
  bIsEditableNode : Bool := false
  outputObjects : List (Nat × FHoudiniOutputObject) := []
  instancedOutputs : List (Nat × FHoudiniInstancedOutput) := []
  bCurveExportTypeChanged : Bool := false
  deriving DecidableEq, Repr

/-- The part of `UHoudiniHandleComponent` that the component reads: its
liveness and the name that identifies the handle. -/
structure UHoudiniHandleComponent where
  pendingKill : Bool := false
  handleName : String := ""
  deriving DecidableEq, Repr

/-- A key of the `InputPresets` map: an object handed over as input preset.
`object` is the object itself, as an input object will refer to it, and the
four flags are the results of the tests `IsA<ALandscapeProxy>()`,
`IsA<AActor>()`, `IsA<UStaticMesh>()` and `IsA<AHoudiniAssetActor>()`. -/
structure PresetObject where
  pendingKill : Bool := false
  object : UObjectRef := UObjectRef.other 0
  isLandscapeProxy : Bool := false
  isActor : Bool := false
  isStaticMesh : Bool := false
  isHoudiniAssetActor : Bool := false
  deriving DecidableEq, Repr

/-- A `UHoudiniAsset` definition object, reduced to its liveness. -/
structure UHoudiniAsset where
  pendingKill : Bool := false
  deriving DecidableEq, Repr

/-- An `FGuid`: four 32-bit words, all zero when invalid. -/
structure FGuid where
  A : Nat := 0
  B : Nat := 0
  C : Nat := 0
  D : Nat := 0
  deriving DecidableEq, Repr

/-! ## The component -/

/-- The members of `UHoudiniAssetComponent` used by the lifecycle and
dependency code. `inputPresets` lists the pairs of the `InputPresets` map in
iteration order. `hasWorld` is whether `GetWorld()` is non-null and
`refineMeshesTimerActive` whether the timer manager of that world holds a
pending `RefineMeshesTimer` for this component. -/
structure UHoudiniAssetComponent where
  pendingKill : Bool := false
  houdiniAsset : Option UHoudiniAsset := none
  bCookOnParameterChange : Bool := true
  bUploadTransformsToHoudiniEngine : Bool := true
  bCookOnTransformChange : Bool := false
  bCookOnAssetInputCook : Bool := true
  assetId : Int := -1
  hapiGUID : FGuid := {}
  assetState : EHoudiniAssetState := EHoudiniAssetState.PreInstantiation
  assetStateResult : EHoudiniAssetStateResult := EHoudiniAssetStateResult.None
  assetCookCount : Nat := 0
  bHasBeenLoaded : Bool := false
  bHasBeenDuplicated : Bool := false
  bPendingDelete : Bool := false
  bRecookRequested : Bool := false
  bRebuildRequested : Bool := false
  bEnableCooking : Bool := true
  bHasComponentTransformChanged : Bool := false
  bFullyLoaded : Bool := false
  parameters : List (Option UHoudiniParameter) := []
  inputs : List (Option UHoudiniInput) := []
  outputs : List (Option UHoudiniOutput) := []
  handleComponents : List (Option UHoudiniHandleComponent) := []
  downstreamHoudiniAssets : List (Option Nat) := []
  inputPresets : List (Option PresetObject × Int) := []
  hasWorld : Bool := true
  refineMeshesTimerActive : Bool := false
  deriving DecidableEq, Repr

/-- The component store: the object found at each address. -/
structure World where
  components : Nat → UHoudiniAssetComponent

/-- The part of the singleton `FHoudiniEngineRuntime` that the component
talks to: the registered components, by address, and the node ids marked as
pending delete. -/
structure FHoudiniEngineRuntime where
  registeredHoudiniComponents : List Nat := []
  nodeIdsPendingDelete : List Int := []
  deriving DecidableEq, Repr

/-! ## Accessors of the owned entities -/

/-- Modelled from the spec: `UHoudiniParameter::MarkChanged` is declared in
`HoudiniParameter.h`, which is not part of the sources. The spec describes the
mark as making the item dirty so that `needUpdate` later returns true, and a
dirty item only counts when its trigger bit is set, so the mark writes both
bits. -/
def UHoudiniParameter.MarkChanged (p : UHoudiniParameter) (bInChanged : Bool) :
    UHoudiniParameter :=
  { p with bHasChanged := bInChanged, bNeedsToTriggerUpdate := bInChanged }

/-- Modelled from the spec: `UHoudiniParameter::SetNeedsToTriggerUpdate` is
declared in `HoudiniParameter.h`, which is not part of the sources; it writes
the `needsTriggerUpdate` bit. -/
def UHoudiniParameter.SetNeedsToTriggerUpdate (p : UHoudiniParameter) (b : Bool) :
    UHoudiniParameter :=
  { p with bNeedsToTriggerUpdate := b }

/-- Modelled from the spec: `UHoudiniInput::MarkChanged` is declared in
`HoudiniInput.h`, which is not part of the sources. The spec says that marking
an Input dirty forces `needUpdate` to return true later, and a dirty item only
counts when its trigger bit is set, so the mark writes both bits. -/
def UHoudiniInput.MarkChanged (i : UHoudiniInput) (bInChanged : Bool) : UHoudiniInput :=
  { i with bHasChanged := bInChanged, bNeedsToTriggerUpdate := bInChanged }

/-- Modelled from the spec: `UHoudiniInput::SetNeedsToTriggerUpdate` is
declared in `HoudiniInput.h`, which is not part of the sources; it writes the
`needsTriggerUpdate` bit. -/
def UHoudiniInput.SetNeedsToTriggerUpdate (i : UHoudiniInput) (b : Bool) : UHoudiniInput :=
  { i with bNeedsToTriggerUpdate := b }

/-- Modelled from the spec: `UHoudiniInput::MarkDataUploadNeeded` is declared
in `HoudiniInput.h`, which is not part of the sources; it writes the
`needsDataUpload` bit. -/
def UHoudiniInput.MarkDataUploadNeeded (i : UHoudiniInput) (b : Bool) : UHoudiniInput :=
  { i with bDataUploadNeeded := b }

/-- Modelled from the spec: `UHoudiniInput::GetHoudiniInputObjectArray` is
declared in `HoudiniInput.h`, which is not part of the sources. An Input
carries one ordered sequence of input objects per input type; there is no
array (a null pointer) for the `Invalid` type. -/
def UHoudiniInput.GetHoudiniInputObjectArray (i : UHoudiniInput) :
    EHoudiniInputType → Option (List (Option UHoudiniInputObject))
  | EHoudiniInputType.Invalid => none
  | EHoudiniInputType.Geometry => some i.geometryInputObjects
  | EHoudiniInputType.Curve => some i.curveInputObjects
  | EHoudiniInputType.Asset => some i.assetInputObjects
  | EHoudiniInputType.Landscape => some i.landscapeInputObjects
  | EHoudiniInputType.World => some i.worldInputObjects

/-- Modelled from the spec: `UHoudiniInput::ContainsInputObject` is declared
in `HoudiniInput.h`, which is not part of the sources. The Input references
the component at address `obj` when one of its input objects of the given type
has that component as its object. -/
def UHoudiniInput.ContainsInputObject (i : UHoudiniInput) (obj : Nat)
    (ty : EHoudiniInputType) : Bool :=
  match i.GetHoudiniInputObjectArray ty with
  | none => false
  | some arr =>
    arr.any (fun o =>
      match o with
      | none => false
      | some io => decide (io.object = some (UObjectRef.houdiniAssetComponent obj)))

/-- Modelled from the spec: `UHoudiniInput::GetNumberOfInputObjects` with a
type argument is declared in `HoudiniInput.h`, which is not part of the
sources; it is the length of the object sequence of that type. -/
def UHoudiniInput.GetNumberOfInputObjects (i : UHoudiniInput) (ty : EHoudiniInputType) :
    Nat :=
  match i.GetHoudiniInputObjectArray ty with
  | none => 0
  | some arr => arr.length

/-- Modelled from the spec: the overload of `UHoudiniInput::GetNumberOfInputObjects`
without argument is declared in `HoudiniInput.h`, which is not part of the
sources; it counts the objects of the Input's current type. -/
def UHoudiniInput.GetNumberOfOwnInputObjects (i : UHoudiniInput) : Nat :=
  i.GetNumberOfInputObjects i.inputType

/-- The object sequence of one type replaced by `arr`; the counterpart of
`GetHoudiniInputObjectArray` for writing. -/
def UHoudiniInput.setHoudiniInputObjectArray (i : UHoudiniInput) (ty : EHoudiniInputType)
    (arr : List (Option UHoudiniInputObject)) : UHoudiniInput :=
  match ty with
  | EHoudiniInputType.Invalid => i
  | EHoudiniInputType.Geometry => { i with geometryInputObjects := arr }
  | EHoudiniInputType.Curve => { i with curveInputObjects := arr }
  | EHoudiniInputType.Asset => { i with assetInputObjects := arr }
  | EHoudiniInputType.Landscape => { i with landscapeInputObjects := arr }
  | EHoudiniInputType.World => { i with worldInputObjects := arr }

/-- Modelled from the spec: `UHoudiniInput::SetInputObjectAt` is declared in
`HoudiniInput.h`, which is not part of the sources. It populates the slot
`AtIndex` of the object sequence of the given type with an input object for
`InObject`, growing the sequence when the slot is past its end. -/
def UHoudiniInput.SetInputObjectAt (i : UHoudiniInput) (ty : EHoudiniInputType)
    (AtIndex : Nat) (InObject : PresetObject) : UHoudiniInput :=
  match i.GetHoudiniInputObjectArray ty with
  | none => i
  | some arr =>
    let resized := arr ++ List.replicate (AtIndex + 1 - arr.length) none
    i.setHoudiniInputObjectArray ty
      (resized.set AtIndex (some { object := some InObject.object }))

/-- Modelled from the spec: `UHoudiniInput::SetInputType` is declared in
`HoudiniInput.h`, which is not part of the sources; it changes the input type
of the Input. -/
def UHoudiniInput.SetInputType (i : UHoudiniInput) (ty : EHoudiniInputType) : UHoudiniInput :=
  { i with inputType := ty }

/-- Modelled from the spec: `UHoudiniOutput::HasCurveExportTypeChanged` is
declared in `HoudiniOutput.h`, which is not part of the sources; it is what
the Output reports about a change of its curve export type. -/
def UHoudiniOutput.HasCurveExportTypeChanged (o : UHoudiniOutput) : Bool :=
  o.bCurveExportTypeChanged

/-- The address that a pointer `FHoudiniOutputObject::OutputComponent` holds. -/
def OutputComponentRef.address : OutputComponentRef → Nat
  | OutputComponentRef.spline address _ => address
  | OutputComponentRef.other address => address

/-- The member `FGuid::Invalidate` of the host library: all words are zeroed. -/
def FGuid.Invalidate (_ : FGuid) : FGuid :=
  { A := 0, B := 0, C := 0, D := 0 }

/-- The test `FGuid::IsValid` of the host library: some word is not zero. -/
def FGuid.IsValid (g : FGuid) : Bool :=
  decide (g.A ≠ 0 ∨ g.B ≠ 0 ∨ g.C ≠ 0 ∨ g.D ≠ 0)

/-- Modelled from the spec: `FHoudiniEngineRuntime::UnRegisterHoudiniComponent`
is defined in `HoudiniEngineRuntime.cpp`, which is not part of the sources. The
registry operation `unregister(instance)` leaves the instance unregistered. -/
def FHoudiniEngineRuntime.UnRegisterHoudiniComponent (rt : FHoudiniEngineRuntime)
    (hac : Nat) : FHoudiniEngineRuntime :=
  { rt with registeredHoudiniComponents :=
      rt.registeredHoudiniComponents.filter (fun c => c != hac) }

/-- Modelled from the spec: `FHoudiniEngineRuntime::IsComponentRegistered` is
defined in `HoudiniEngineRuntime.cpp`, which is not part of the sources; it is
the registry query `isRegistered(instance)`. -/
def FHoudiniEngineRuntime.IsComponentRegistered (rt : FHoudiniEngineRuntime)
    (hac : Nat) : Bool :=
  rt.registeredHoudiniComponents.contains hac

/-- Modelled from the spec: `FHoudiniEngineRuntime::MarkNodeIdAsPendingDelete`
is defined in `HoudiniEngineRuntime.cpp`, which is not part of the sources; the
registry operation `markRemoteNodeHandlePendingDelete(handle)` records the
handle. -/
def FHoudiniEngineRuntime.MarkNodeIdAsPendingDelete (rt : FHoudiniEngineRuntime)
    (nodeId : Int) : FHoudiniEngineRuntime :=
  { rt with nodeIdsPendingDelete := rt.nodeIdsPendingDelete ++ [nodeId] }

/-! ## Change aggregation -/

namespace UHoudiniAssetComponent

/-- The Parameter loop of `NeedUpdate`: true at the first entry that is not
null, not pending kill, has changed and needs to trigger an update. -/
def parametersNeedUpdate : List (Option UHoudiniParameter) → Bool
  | [] => false
  | none :: rest => parametersNeedUpdate rest
  | some CurrentParm :: rest =>
    if CurrentParm.pendingKill then parametersNeedUpdate rest
    else if !CurrentParm.bHasChanged then parametersNeedUpdate rest
    else if !CurrentParm.bNeedsToTriggerUpdate then parametersNeedUpdate rest
    else true

/-- The Input loop of `NeedUpdate`. -/
def inputsNeedUpdate : List (Option UHoudiniInput) → Bool
  | [] => false
  | none :: rest => inputsNeedUpdate rest
  | some CurrentInput :: rest =>
    if CurrentInput.pendingKill then inputsNeedUpdate rest
    else if !CurrentInput.bHasChanged then inputsNeedUpdate rest
    else if !CurrentInput.bNeedsToTriggerUpdate then inputsNeedUpdate rest
    else true

/-- The loop of `NeedUpdate` over the output objects of one editable output:
only a spline component that is not an output curve can trigger. -/
def outputObjectsNeedUpdate : List (Nat × FHoudiniOutputObject) → Bool
  | [] => false
  | NextPair :: rest =>
    match NextPair.2.outputComponent with
    | some (OutputComponentRef.spline _ HoudiniSplineComponent) =>
      if HoudiniSplineComponent.bIsOutputCurve then outputObjectsNeedUpdate rest
      else if HoudiniSplineComponent.bNeedsToTriggerUpdate then true
      else outputObjectsNeedUpdate rest
    | _ => outputObjectsNeedUpdate rest

/-- The Output loop of `NeedUpdate`. -/
def outputsNeedUpdate : List (Option UHoudiniOutput) → Bool
  | [] => false
  | none :: rest => outputsNeedUpdate rest
  | some CurrentOutput :: rest =>
    if CurrentOutput.pendingKill then outputsNeedUpdate rest
    else if !CurrentOutput.bIsEditableNode then outputsNeedUpdate rest
    else if outputObjectsNeedUpdate CurrentOutput.outputObjects then true
    else outputsNeedUpdate rest

/-- The guard `!HoudiniAsset || HoudiniAsset->IsPendingKill()` negated. -/
def hasValidAsset (s : UHoudiniAssetComponent) : Bool :=
  match s.houdiniAsset with
  | none => false
  | some a => !a.pendingKill

/-- The member function `UHoudiniAssetComponent::NeedUpdate`. -/
def NeedUpdate (s : UHoudiniAssetComponent) : Bool :=
  if !s.hasValidAsset then false
  else if !s.bCookOnParameterChange && !s.bRecookRequested && !s.bRebuildRequested then false
  else if s.bCookOnTransformChange && s.bHasComponentTransformChanged then true
  else if parametersNeedUpdate s.parameters then true
  else if inputsNeedUpdate s.inputs then true
  else if outputsNeedUpdate s.outputs then true
  else false

/-! ## Lifecycle marks -/

/-- The member function `UHoudiniAssetComponent::ClearRefineMeshesTimer`:
without a world it only logs an error, otherwise the timer is cleared. -/
def ClearRefineMeshesTimer (s : UHoudiniAssetComponent) : UHoudiniAssetComponent :=
  if !s.hasWorld then s
  else { s with refineMeshesTimerActive := false }

/-- The Parameter loop of `MarkAsNeedInstantiation`: null entries are
skipped, every other entry is marked changed and not triggering. -/
def markParametersNeedInstantiation :
    List (Option UHoudiniParameter) → List (Option UHoudiniParameter)
  | [] => []
  | none :: rest => none :: markParametersNeedInstantiation rest
  | some CurrentParam :: rest =>
    some ((CurrentParam.MarkChanged true).SetNeedsToTriggerUpdate false)
      :: markParametersNeedInstantiation rest

/-- The Input loop of `MarkAsNeedInstantiation`. -/
def markInputsNeedInstantiation : List (Option UHoudiniInput) → List (Option UHoudiniInput)
  | [] => []
  | none :: rest => none :: markInputsNeedInstantiation rest
  | some CurrentInput :: rest =>
    some (((CurrentInput.MarkChanged true).SetNeedsToTriggerUpdate false).MarkDataUploadNeeded true)
      :: markInputsNeedInstantiation rest

/-- The member function `UHoudiniAssetComponent::MarkAsNeedInstantiation`. -/
def MarkAsNeedInstantiation (s : UHoudiniAssetComponent) : UHoudiniAssetComponent :=
  let s1 := { s with assetId := -1 }
  let s2 :=
    if s1.parameters.length ≤ 0 ∧ s1.inputs.length ≤ 0 ∧ s1.outputs.length ≤ 0 then
      { s1 with assetState := EHoudiniAssetState.PreInstantiation }
    else
      { s1 with assetState := EHoudiniAssetState.NeedInstantiation }
  let s3 := { s2 with
    assetStateResult := EHoudiniAssetStateResult.None
    assetCookCount := 0
    bHasBeenLoaded := true
    bPendingDelete := false
    bRecookRequested := false
    bRebuildRequested := false
    bFullyLoaded := false }
  let s4 := { s3 with parameters := markParametersNeedInstantiation s3.parameters }
  let s5 := { s4 with inputs := markInputsNeedInstantiation s4.inputs }
  ClearRefineMeshesTimer s5

/-! ## Upstream blocking -/

/-- The cast `Cast<UHoudiniAssetComponent>(CurrentInputObject->GetObject())`
guarded by the null test on the input object: the address of the upstream
component, or null. -/
def inputObjectAsComponent : Option UHoudiniInputObject → Option Nat
  | none => none
  | some CurrentInputObject =>
    match CurrentInputObject.object with
    | some (UObjectRef.houdiniAssetComponent address) => some address
    | _ => none

/-- The assignment `InputHAC->AssetState = st` on the component at `address`. -/
def setAssetState (w : World) (address : Nat) (st : EHoudiniAssetState) : World :=
  { w with components :=
      Function.update w.components address { w.components address with assetState := st } }

/-- The inner loop of `NeedsToWaitForInputHoudiniAssets` over the Asset input
objects of one Input, threading the store and `bNeedToWait`. -/
def waitForInputObjects :
    List (Option UHoudiniInputObject) → World × Bool → World × Bool
  | [], acc => acc
  | CurrentInputObject :: rest, (w, bNeedToWait) =>
    match inputObjectAsComponent CurrentInputObject with
    | none => waitForInputObjects rest (w, bNeedToWait)
    | some InputHAC =>
      if (w.components InputHAC).assetState = EHoudiniAssetState.NeedInstantiation then
        waitForInputObjects rest
          (setAssetState w InputHAC EHoudiniAssetState.PreInstantiation, true)
      else if (w.components InputHAC).assetState ≠ EHoudiniAssetState.None then
        waitForInputObjects rest (w, true)
      else
        waitForInputObjects rest (w, bNeedToWait)

/-- The outer loop of `NeedsToWaitForInputHoudiniAssets` over the Inputs. The
loop body writes asset states only, so the Inputs it walks are those the
component had on entry. -/
def waitForInputs : List (Option UHoudiniInput) → World × Bool → World × Bool
  | [], acc => acc
  | none :: rest, acc => waitForInputs rest acc
  | some CurrentInput :: rest, acc =>
    if CurrentInput.pendingKill || CurrentInput.inputType != EHoudiniInputType.Asset then
      waitForInputs rest acc
    else
      match CurrentInput.GetHoudiniInputObjectArray EHoudiniInputType.Asset with
      | none => waitForInputs rest acc
      | some ObjectArray => waitForInputs rest (waitForInputObjects ObjectArray acc)

/-- The member function `UHoudiniAssetComponent::NeedsToWaitForInputHoudiniAssets`
called on the component at address `this`: the store after the call and the
returned `bNeedToWait`. -/
def NeedsToWaitForInputHoudiniAssets (w : World) (this : Nat) : World × Bool :=
  waitForInputs (w.components this).inputs (w, false)

/-! ## Downstream notification -/

/-- The loop of `NotifyCookedToDownstreamAssets` over the Inputs of one
downstream component: the Inputs after the loop and `bRemoveDownstream`. -/
def notifyInputs (this : Nat) (bCookOnAssetInputCook : Bool) :
    List (Option UHoudiniInput) → Bool → List (Option UHoudiniInput) × Bool
  | [], bRemoveDownstream => ([], bRemoveDownstream)
  | none :: rest, bRemoveDownstream =>
    let r := notifyInputs this bCookOnAssetInputCook rest bRemoveDownstream
    (none :: r.1, r.2)
  | some CurrentDownstreamInput :: rest, bRemoveDownstream =>
    if CurrentDownstreamInput.pendingKill then
      let r := notifyInputs this bCookOnAssetInputCook rest bRemoveDownstream
      (some CurrentDownstreamInput :: r.1, r.2)
    else if CurrentDownstreamInput.inputType != EHoudiniInputType.Asset then
      let r := notifyInputs this bCookOnAssetInputCook rest bRemoveDownstream
      (some CurrentDownstreamInput :: r.1, r.2)
    else if !CurrentDownstreamInput.ContainsInputObject this EHoudiniInputType.Asset then
      let r := notifyInputs this bCookOnAssetInputCook rest bRemoveDownstream
      (some CurrentDownstreamInput :: r.1, r.2)
    else
      let marked :=
        if bCookOnAssetInputCook then CurrentDownstreamInput.MarkChanged true
        else CurrentDownstreamInput
      let r := notifyInputs this bCookOnAssetInputCook rest false
      (some marked :: r.1, r.2)

/-- The body of the first loop of `NotifyCookedToDownstreamAssets` for one
entry of the downstream set: the store after it and `bRemoveDownstream`. -/
def notifyConsumer (this : Nat) (w : World) : Option Nat → World × Bool
  | none => (w, true)
  | some CurrentDownstreamHAC =>
    if (w.components CurrentDownstreamHAC).pendingKill then (w, true)
    else
      let r := notifyInputs this (w.components CurrentDownstreamHAC).bCookOnAssetInputCook
        (w.components CurrentDownstreamHAC).inputs true
      let updated := { w.components CurrentDownstreamHAC with inputs := r.1 }
      ({ w with components := Function.update w.components CurrentDownstreamHAC updated }, r.2)

/-- The first loop of `NotifyCookedToDownstreamAssets` over the downstream
set, threading the store and `DownstreamToDelete`. The loop body writes Inputs
only, so the set it walks is the one the producer had on entry. -/
def notifyDownstream (this : Nat) :
    List (Option Nat) → World × List (Option Nat) → World × List (Option Nat)
  | [], acc => acc
  | CurrentDownstreamHAC :: rest, (w, DownstreamToDelete) =>
    let r := notifyConsumer this w CurrentDownstreamHAC
    notifyDownstream this rest
      (r.1, if r.2 then DownstreamToDelete ++ [CurrentDownstreamHAC] else DownstreamToDelete)

/-- The second loop of `NotifyCookedToDownstreamAssets`: `TSet::Remove` of
each entry of `DownstreamToDelete` drops every element equal to it. -/
def removeDownstream : List (Option Nat) → List (Option Nat) → List (Option Nat)
  | [], DownstreamHoudiniAssets => DownstreamHoudiniAssets
  | ToDelete :: rest, DownstreamHoudiniAssets =>
    removeDownstream rest (DownstreamHoudiniAssets.filter (fun d => d != ToDelete))

/-- The member function `UHoudiniAssetComponent::NotifyCookedToDownstreamAssets`
called on the component at address `this`: the store after the call and the
returned value. -/
def NotifyCookedToDownstreamAssets (w : World) (this : Nat) : World × Bool :=
  let r := notifyDownstream this (w.components this).downstreamHoudiniAssets (w, [])
  let w1 := r.1
  let remaining := removeDownstream r.2 (w1.components this).downstreamHoudiniAssets
  let updated := { w1.components this with downstreamHoudiniAssets := remaining }
  ({ w1 with components := Function.update w1.components this updated }, true)

/-! ## Marks for a cook and for a rebuild -/

/-- The Parameter loop shared by `MarkAsNeedCook` and `MarkAsNeedRebuild`:
every entry is dereferenced without a null test, so the loop has no outcome
(`none`) when it meets a null entry. -/
def markParametersNeedCook :
    List (Option UHoudiniParameter) → Option (List (Option UHoudiniParameter))
  | [] => some []
  | none :: _ => none
  | some CurrentParam :: rest =>
    match markParametersNeedCook rest with
    | none => none
    | some marked =>
      some (some ((CurrentParam.MarkChanged true).SetNeedsToTriggerUpdate true) :: marked)

/-- The Input loop shared by `MarkAsNeedCook` and `MarkAsNeedRebuild`; like
the Parameter loop it dereferences every entry. -/
def markInputsNeedCook : List (Option UHoudiniInput) → Option (List (Option UHoudiniInput))
  | [] => some []
  | none :: _ => none
  | some CurrentInput :: rest =>
    match markInputsNeedCook rest with
    | none => none
    | some marked =>
      some (some (((CurrentInput.MarkChanged true).SetNeedsToTriggerUpdate true).MarkDataUploadNeeded
        true) :: marked)

/-- The member function `UHoudiniAssetComponent::MarkAsNeedCook`; `none` when
one of its loops dereferences a null entry. -/
def MarkAsNeedCook (s : UHoudiniAssetComponent) : Option UHoudiniAssetComponent :=
  let s1 := { s with
    bHasBeenLoaded := true
    bPendingDelete := false
    bRecookRequested := true
    bRebuildRequested := false }
  match markParametersNeedCook s1.parameters with
  | none => none
  | some markedParameters =>
    match markInputsNeedCook s1.inputs with
    | none => none
    | some markedInputs =>
      some (ClearRefineMeshesTimer
        { s1 with parameters := markedParameters, inputs := markedInputs })

/-- The member function `UHoudiniAssetComponent::MarkAsNeedRebuild`; `none`
when one of its loops dereferences a null entry. -/
def MarkAsNeedRebuild (s : UHoudiniAssetComponent) : Option UHoudiniAssetComponent :=
  let s1 := { s with
    assetState := EHoudiniAssetState.NeedRebuild
    assetStateResult := EHoudiniAssetStateResult.None
    bHasBeenLoaded := true
    bPendingDelete := false
    bRecookRequested := false
    bRebuildRequested := true
    bFullyLoaded := false }
  match markParametersNeedCook s1.parameters with
  | none => none
  | some markedParameters =>
    match markInputsNeedCook s1.inputs with
    | none => none
    | some markedInputs =>
      some (ClearRefineMeshesTimer
        { s1 with parameters := markedParameters, inputs := markedInputs })

/-! ## Output refresh -/

/-- The loop of `NeedOutputUpdate` over the instanced outputs of one Output. -/
def instancedOutputsChanged : List (Nat × FHoudiniInstancedOutput) → Bool
  | [] => false
  | InstOutput :: rest =>
    if InstOutput.2.bChanged then true else instancedOutputsChanged rest

/-- The Output loop of `NeedOutputUpdate`. -/
def outputsNeedOutputUpdate : List (Option UHoudiniOutput) → Bool
  | [] => false
  | none :: rest => outputsNeedOutputUpdate rest
  | some CurrentOutput :: rest =>
    if CurrentOutput.pendingKill then outputsNeedOutputUpdate rest
    else if instancedOutputsChanged CurrentOutput.instancedOutputs then true
    else if CurrentOutput.HasCurveExportTypeChanged then true
    else outputsNeedOutputUpdate rest

/-- The member function `UHoudiniAssetComponent::NeedOutputUpdate`. -/
def NeedOutputUpdate (s : UHoudiniAssetComponent) : Bool :=
  outputsNeedOutputUpdate s.outputs

/-! ## Entity matching -/

/-- The loop shared by `FindMatchingParameter`, `FindMatchingInput` and
`FindMatchingHandle`: the first entry that is not null, not pending kill and
matches the other entity. `pendingKill` reads `IsPendingKill()` and `Matches`
is the `Matches` member of the entity class, which is declared outside the
sources and is taken as given. -/
def findMatchingLoop {α : Type} (pendingKill : α → Bool) (Matches : α → α → Bool)
    (InOther : α) : List (Option α) → Option α
  | [] => none
  | none :: rest => findMatchingLoop pendingKill Matches InOther rest
  | some Current :: rest =>
    if pendingKill Current then findMatchingLoop pendingKill Matches InOther rest
    else if Matches Current InOther then some Current
    else findMatchingLoop pendingKill Matches InOther rest

/-- The member function `UHoudiniAssetComponent::FindMatchingParameter`. -/
def FindMatchingParameter (Matches : UHoudiniParameter → UHoudiniParameter → Bool)
    (s : UHoudiniAssetComponent) : Option UHoudiniParameter → Option UHoudiniParameter
  | none => none
  | some InOtherParam =>
    if InOtherParam.pendingKill then none
    else findMatchingLoop UHoudiniParameter.pendingKill Matches InOtherParam s.parameters

/-- The member function `UHoudiniAssetComponent::FindMatchingInput`. -/
def FindMatchingInput (Matches : UHoudiniInput → UHoudiniInput → Bool)
    (s : UHoudiniAssetComponent) : Option UHoudiniInput → Option UHoudiniInput
  | none => none
  | some InOtherInput =>
    if InOtherInput.pendingKill then none
    else findMatchingLoop UHoudiniInput.pendingKill Matches InOtherInput s.inputs

/-- The member function `UHoudiniAssetComponent::FindMatchingHandle`. -/
def FindMatchingHandle (Matches : UHoudiniHandleComponent → UHoudiniHandleComponent → Bool)
    (s : UHoudiniAssetComponent) :
    Option UHoudiniHandleComponent → Option UHoudiniHandleComponent
  | none => none
  | some InOtherHandle =>
    if InOtherHandle.pendingKill then none
    else findMatchingLoop UHoudiniHandleComponent.pendingKill Matches InOtherHandle
      s.handleComponents

/-! ## Destruction -/

/-- The member function `UHoudiniAssetComponent::IsInstantiatingOrCooking`. -/
def IsInstantiatingOrCooking (s : UHoudiniAssetComponent) : Bool :=
  s.hapiGUID.IsValid

/-- The member function `UHoudiniAssetComponent::BeginDestroy`, called on the
component at address `this`; the call to the base class is not modelled. -/
def BeginDestroy (rt : FHoudiniEngineRuntime) (w : World) (this : Nat) :
    FHoudiniEngineRuntime × World :=
  let rt1 := rt.MarkNodeIdAsPendingDelete (w.components this).assetId
  (rt1.UnRegisterHoudiniComponent this, w)

/-- The member function `UHoudiniAssetComponent::OnComponentDestroyed`, called
on the component at address `this`. The three loops destroy the owned entities
and null the entries before each sequence is emptied, so only the emptied
sequences remain; the call to the base class is not modelled. -/
def OnComponentDestroyed (rt : FHoudiniEngineRuntime) (w : World) (this : Nat) :
    FHoudiniEngineRuntime × World :=
  let rt1 := rt.UnRegisterHoudiniComponent this
  let s1 := { w.components this with houdiniAsset := none }
  let s2 := { s1 with parameters := [] }
  let s3 := { s2 with inputs := [] }
  let s4 := { s3 with outputs := [] }
  let rt2 := rt1.MarkNodeIdAsPendingDelete s4.assetId
  let rt3 := rt2.UnRegisterHoudiniComponent this
  let s5 := ClearRefineMeshesTimer s4
  (rt3, { w with components := Function.update w.components this s5 })

/-! ## Cooked data -/

/-- The member function `UHoudiniAssetComponent::IsHoudiniCookedDataAvailable`:
the returned value, `bOutNeedsRebuildOrDelete` and `bOutInvalidState`. -/
def IsHoudiniCookedDataAvailable (s : UHoudiniAssetComponent) : Bool × Bool × Bool :=
  match s.assetState with
  | EHoudiniAssetState.NeedInstantiation => (false, false, false)
  | EHoudiniAssetState.PreInstantiation => (false, false, false)
  | EHoudiniAssetState.Instantiating => (false, false, false)
  | EHoudiniAssetState.PreCook => (false, false, false)
  | EHoudiniAssetState.Cooking => (false, false, false)
  | EHoudiniAssetState.PostCook => (false, false, false)
  | EHoudiniAssetState.PreProcess => (false, false, false)
  | EHoudiniAssetState.Processing => (false, false, false)
  | EHoudiniAssetState.None => (true, false, false)
  | EHoudiniAssetState.NeedRebuild => (false, true, false)
  | EHoudiniAssetState.NeedDelete => (false, true, false)
  | EHoudiniAssetState.Deleting => (false, true, false)
  | EHoudiniAssetState.Undefined => (false, false, true)

/-! ## Input presets

The editor build is modelled: the body of `ApplyInputPresets` between
`#if WITH_EDITOR` and `#endif` is compiled in. -/

/-- The first loop of `ApplyInputPresets`: `InputArray`, as the positions in
`Inputs` of the entries that are not null, not pending kill and not of type
Curve; `position` is the position of the head of the list. -/
def presetInputArray : List (Option UHoudiniInput) → Nat → List Nat
  | [], _ => []
  | none :: rest, position => presetInputArray rest (position + 1)
  | some CurrentInput :: rest, position =>
    if CurrentInput.pendingKill then presetInputArray rest (position + 1)
    else if CurrentInput.inputType != EHoudiniInputType.Curve then
      position :: presetInputArray rest (position + 1)
    else presetInputArray rest (position + 1)

/-- The four tests that the second loop of `ApplyInputPresets` runs for one
preset object on the Input it targets. -/
def assignPresetObject (Object : PresetObject) (i0 : UHoudiniInput) : UHoudiniInput :=
  let i1 :=
    if Object.isLandscapeProxy then
      if i0.GetNumberOfInputObjects EHoudiniInputType.Landscape = 0 then
        i0.SetInputObjectAt EHoudiniInputType.Landscape
          (i0.GetNumberOfInputObjects EHoudiniInputType.Landscape) Object
      else i0
    else i0
  let i2 :=
    if Object.isActor then
      i1.SetInputObjectAt EHoudiniInputType.World
        (i1.GetNumberOfInputObjects EHoudiniInputType.World) Object
    else i1
  let i3 :=
    if Object.isStaticMesh then
      i2.SetInputObjectAt EHoudiniInputType.Geometry
        (i2.GetNumberOfInputObjects EHoudiniInputType.Geometry) Object
    else i2
  if Object.isHoudiniAssetActor then
    if i3.GetNumberOfInputObjects EHoudiniInputType.Asset = 0 then
      i3.SetInputObjectAt EHoudiniInputType.Asset
        (i3.GetNumberOfInputObjects EHoudiniInputType.Asset) Object
    else i3
  else i3

/-- The Input at a position of `Inputs` replaced by its image under `f`; this
is how a write through a pointer of `InputArray` reaches the Input. -/
def modifyInputAt (f : UHoudiniInput → UHoudiniInput) :
    Nat → List (Option UHoudiniInput) → List (Option UHoudiniInput)
  | _, [] => []
  | 0, none :: rest => none :: rest
  | 0, some i :: rest => some (f i) :: rest
  | position + 1, hd :: rest => hd :: modifyInputAt f position rest

/-- The body of the second loop of `ApplyInputPresets` for one pair of the
preset map. -/
def applyInputPreset (InputArray : List Nat) (inputs : List (Option UHoudiniInput))
    (preset : Option PresetObject × Int) : List (Option UHoudiniInput) :=
  match preset.1 with
  | none => inputs
  | some Object =>
    if Object.pendingKill then inputs
    else if preset.2 < 0 ∨ (InputArray.length : Int) ≤ preset.2 then inputs
    else
      match InputArray[preset.2.toNat]? with
      | none => inputs
      | some position => modifyInputAt (assignPresetObject Object) position inputs

/-- The value of `NewInputType` that the third loop of `ApplyInputPresets`
computes from the four object counts of an Input. -/
def newInputType (CurrentInput : UHoudiniInput) : EHoudiniInputType :=
  let NumGeo := CurrentInput.GetNumberOfInputObjects EHoudiniInputType.Geometry
  let NumAsset := CurrentInput.GetNumberOfInputObjects EHoudiniInputType.Asset
  let NumWorld := CurrentInput.GetNumberOfInputObjects EHoudiniInputType.World
  let NumLandscape := CurrentInput.GetNumberOfInputObjects EHoudiniInputType.Landscape
  if NumLandscape > 0 ∧ NumLandscape ≥ NumGeo ∧ NumLandscape ≥ NumAsset
      ∧ NumLandscape ≥ NumWorld then
    EHoudiniInputType.Landscape
  else if NumWorld > 0 ∧ NumWorld ≥ NumGeo ∧ NumWorld ≥ NumAsset
      ∧ NumWorld ≥ NumLandscape then
    EHoudiniInputType.World
  else if NumAsset > 0 ∧ NumAsset ≥ NumGeo ∧ NumAsset ≥ NumWorld
      ∧ NumAsset ≥ NumLandscape then
    EHoudiniInputType.Asset
  else if NumGeo > 0 ∧ NumGeo ≥ NumAsset ∧ NumGeo ≥ NumWorld
      ∧ NumGeo ≥ NumLandscape then
    EHoudiniInputType.Geometry
  else EHoudiniInputType.Invalid

/-- The body of the third loop of `ApplyInputPresets` for one Input. -/
def updateInputType (CurrentInput : UHoudiniInput) : UHoudiniInput :=
  let NewInputType := newInputType CurrentInput
  if NewInputType = EHoudiniInputType.Invalid then CurrentInput
  else if CurrentInput.inputType = EHoudiniInputType.Geometry
      ∧ NewInputType ≠ EHoudiniInputType.Geometry then
    CurrentInput.SetInputType NewInputType
  else if CurrentInput.GetNumberOfOwnInputObjects ≤ 0 then
    CurrentInput.SetInputType NewInputType
  else CurrentInput

/-- The third loop of `ApplyInputPresets`: it walks `Inputs` and dereferences
every entry without a null test, so it has no outcome (`none`) when it meets a
null entry. -/
def updateInputTypes : List (Option UHoudiniInput) → Option (List (Option UHoudiniInput))
  | [] => some []
  | none :: _ => none
  | some CurrentInput :: rest =>
    match updateInputTypes rest with
    | none => none
    | some updated => some (some (updateInputType CurrentInput) :: updated)

/-- The member function `UHoudiniAssetComponent::SetInputPresets`. -/
def SetInputPresets (s : UHoudiniAssetComponent)
    (InPresets : List (Option PresetObject × Int)) : UHoudiniAssetComponent :=
  { s with inputPresets := InPresets }

/-- The member function `UHoudiniAssetComponent::ApplyInputPresets`; `none`
when its third loop dereferences a null entry. -/
def ApplyInputPresets (s : UHoudiniAssetComponent) : Option UHoudiniAssetComponent :=
  if s.inputPresets.length ≤ 0 then some s
  else
    let InputArray := presetInputArray s.inputs 0
    let assigned := s.inputPresets.foldl (applyInputPreset InputArray) s.inputs
    match updateInputTypes assigned with
    | none => none
    | some updated => some { s with inputs := updated, inputPresets := [] }

/-! ## Construction, registration and transform changes -/

/-- The constructor `UHoudiniAssetComponent::UHoudiniAssetComponent`, with the
members it assigns in the order of the source; the sequences and the timer
handle are default constructed, and `hasWorld` is what `GetWorld()` will
return for the new component. The assignment of `AssetCookCount` is commented
out in the source, so the constructor does not write that member and it keeps
its initial value. -/
def Constructor (hasWorld : Bool) : UHoudiniAssetComponent :=
  { pendingKill := false
    houdiniAsset := none
    bCookOnParameterChange := true
    bUploadTransformsToHoudiniEngine := true
    bCookOnTransformChange := false
    bCookOnAssetInputCook := true
    assetId := -1
    hapiGUID := FGuid.Invalidate {}
    assetState := EHoudiniAssetState.PreInstantiation
    assetStateResult := EHoudiniAssetStateResult.None
    bHasBeenLoaded := false
    bHasBeenDuplicated := false
    bPendingDelete := false
    bRecookRequested := false
    bRebuildRequested := false
    bEnableCooking := true
    bHasComponentTransformChanged := false
    bFullyLoaded := false
    parameters := []
    inputs := []
    outputs := []
    handleComponents := []
    downstreamHoudiniAssets := []
    inputPresets := []
    hasWorld := hasWorld
    refineMeshesTimerActive := false }

/-- The member function `UHoudiniAssetComponent::OnRegister`; the call to the
base class is not modelled. -/
def OnRegister (s : UHoudiniAssetComponent) : UHoudiniAssetComponent :=
  { s with bFullyLoaded := true }

/-- The member function `UHoudiniAssetComponent::SetHasComponentTransformChanged`. -/
def SetHasComponentTransformChanged (s : UHoudiniAssetComponent) (InHasChanged : Bool) :
    UHoudiniAssetComponent :=
  if s.bFullyLoaded then { s with bHasComponentTransformChanged := InHasChanged }
  else s

/-- The member function `UHoudiniAssetComponent::OnUpdateTransform`; the call
to the base class is not modelled. -/
def OnUpdateTransform (s : UHoudiniAssetComponent) : UHoudiniAssetComponent :=
  SetHasComponentTransformChanged s true

/-- The member function `UHoudiniAssetComponent::OnActorMoved`; `isOwner` is
the outcome of the test `GetOwner() == Actor`. -/
def OnActorMoved (s : UHoudiniAssetComponent) (isOwner : Bool) : UHoudiniAssetComponent :=
  if !isOwner then s
  else SetHasComponentTransformChanged s true

/-! ## Output queries -/

/-- The loop of `HasAnyCurrentProxyOutput` and of `HasAnyProxyOutput` over the
Outputs: every entry is dereferenced without a null test, so the loop has no
outcome (`none`) when it meets a null entry. `test` is the member of
`UHoudiniOutput` that the loop calls. -/
def anyOutput (test : UHoudiniOutput → Bool) : List (Option UHoudiniOutput) → Option Bool
  | [] => some false
  | none :: _ => none
  | some Output :: rest => if test Output then some true else anyOutput test rest

/-- The member function `UHoudiniAssetComponent::HasAnyCurrentProxyOutput`;
`HasAnyCurrentProxy` is the member of `UHoudiniOutput` of that name, which is
declared outside the sources and is taken as given. -/
def HasAnyCurrentProxyOutput (HasAnyCurrentProxy : UHoudiniOutput → Bool)
    (s : UHoudiniAssetComponent) : Option Bool :=
  anyOutput HasAnyCurrentProxy s.outputs

/-- The member function `UHoudiniAssetComponent::HasAnyProxyOutput`;
`HasAnyProxy` is the member of `UHoudiniOutput` of that name, which is
declared outside the sources and is taken as given. -/
def HasAnyProxyOutput (HasAnyProxy : UHoudiniOutput → Bool)
    (s : UHoudiniAssetComponent) : Option Bool :=
  anyOutput HasAnyProxy s.outputs

/-- The inner loop of `HasAnyOutputComponent` over the output objects of one
Output. -/
def anyOutputComponent : List (Nat × FHoudiniOutputObject) → Bool
  | [] => false
  | CurrentOutputObject :: rest =>
    if CurrentOutputObject.2.outputComponent.isSome then true else anyOutputComponent rest

/-- The member function `UHoudiniAssetComponent::HasAnyOutputComponent`; like
the proxy queries it dereferences every entry of the Outputs. -/
def HasAnyOutputComponent (s : UHoudiniAssetComponent) : Option Bool :=
  anyOutput (fun Output => anyOutputComponent Output.outputObjects) s.outputs

/-- The inner loop of `HasOutputObject` over the output objects of one Output:
the four pointers of a record are compared with the pointer looked for. -/
def anyOutputObjectIs (InOutputObjectToFind : Option Nat) :
    List (Nat × FHoudiniOutputObject) → Bool
  | [] => false
  | CurOutputObject :: rest =>
    if CurOutputObject.2.outputObject = InOutputObjectToFind then true
    else if CurOutputObject.2.outputComponent.map OutputComponentRef.address
        = InOutputObjectToFind then true
    else if CurOutputObject.2.proxyObject = InOutputObjectToFind then true
    else if CurOutputObject.2.proxyComponent = InOutputObjectToFind then true
    else anyOutputObjectIs InOutputObjectToFind rest

/-- The member function `UHoudiniAssetComponent::HasOutputObject`; like the
proxy queries it dereferences every entry of the Outputs. -/
def HasOutputObject (s : UHoudiniAssetComponent) (InOutputObjectToFind : Option Nat) :
    Option Bool :=
  anyOutput (fun CurOutput => anyOutputObjectIs InOutputObjectToFind CurOutput.outputObjects)
    s.outputs

/-! ## Predicates that state the properties, and closed forms of the loops -/

/-- The four update signals of the change aggregation, read on the entries
that are not null and not pending kill: a transform change while the transform
triggers cooks, a changed and triggering Parameter, a changed and triggering
Input, or an editable-node Output holding a spline component that is not an
output curve and needs to trigger an update. -/
def updateSignalPresent (s : UHoudiniAssetComponent) : Prop :=
  (s.bCookOnTransformChange = true ∧ s.bHasComponentTransformChanged = true)
  ∨ (∃ p : UHoudiniParameter, some p ∈ s.parameters ∧ p.pendingKill = false
      ∧ p.bHasChanged = true ∧ p.bNeedsToTriggerUpdate = true)
  ∨ (∃ i : UHoudiniInput, some i ∈ s.inputs ∧ i.pendingKill = false
      ∧ i.bHasChanged = true ∧ i.bNeedsToTriggerUpdate = true)
  ∨ (∃ o : UHoudiniOutput, some o ∈ s.outputs ∧ o.pendingKill = false
      ∧ o.bIsEditableNode = true
      ∧ ∃ pair ∈ o.outputObjects, ∃ (address : Nat) (c : UHoudiniSplineComponent),
          pair.2.outputComponent = some (OutputComponentRef.spline address c)
          ∧ c.bIsOutputCurve = false ∧ c.bNeedsToTriggerUpdate = true)

/-- The component at address `u` is referenced upstream by the Inputs `l`:
some Input that is not null, not pending kill and of type Asset holds, among
its Asset input objects, an input object whose object is that component. -/
def referencedUpstream (l : List (Option UHoudiniInput)) (u : Nat) : Prop :=
  ∃ i : UHoudiniInput, some i ∈ l ∧ i.pendingKill = false
    ∧ i.inputType = EHoudiniInputType.Asset
    ∧ ∃ io : UHoudiniInputObject, some io ∈ i.assetInputObjects
        ∧ io.object = some (UObjectRef.houdiniAssetComponent u)

/-- The addresses of the upstream components that the two loops of
`NeedsToWaitForInputHoudiniAssets` visit, in visiting order. -/
def upstreamAddresses : List (Option UHoudiniInput) → List Nat
  | [] => []
  | none :: rest => upstreamAddresses rest
  | some i :: rest =>
    if i.pendingKill || i.inputType != EHoudiniInputType.Asset then upstreamAddresses rest
    else i.assetInputObjects.filterMap inputObjectAsComponent ++ upstreamAddresses rest

/-- What `NeedsToWaitForInputHoudiniAssets` does for one upstream component. -/
def waitStep (acc : World × Bool) (InputHAC : Nat) : World × Bool :=
  if (acc.1.components InputHAC).assetState = EHoudiniAssetState.NeedInstantiation then
    (setAssetState acc.1 InputHAC EHoudiniAssetState.PreInstantiation, true)
  else if (acc.1.components InputHAC).assetState ≠ EHoudiniAssetState.None then (acc.1, true)
  else acc

/-- The Input `i` is a live Input of type Asset that references the producer
at address `this` among its Asset input objects: the three tests that the
Input loop of `NotifyCookedToDownstreamAssets` makes before it marks. -/
def referencesProducer (this : Nat) (i : UHoudiniInput) : Bool :=
  !i.pendingKill && decide (i.inputType = EHoudiniInputType.Asset)
    && i.ContainsInputObject this EHoudiniInputType.Asset

/-- The test `referencesProducer` on an entry of an Input sequence; a null
entry references nothing. -/
def entryReferencesProducer (this : Nat) : Option UHoudiniInput → Bool
  | none => false
  | some i => referencesProducer this i

/-- The entry `d` of the downstream set of the producer at address `this` is a
connected consumer: it is not null, the component is not pending kill and one
of its Inputs is a live Asset-type Input that references the producer. -/
def isConnectedConsumer (w : World) (this : Nat) : Option Nat → Bool
  | none => false
  | some c =>
    !(w.components c).pendingKill
      && (w.components c).inputs.any (entryReferencesProducer this)

/-- What the Input loop of `NotifyCookedToDownstreamAssets` leaves in place of
one entry: a referencing Input is marked changed when the consumer cooks on
upstream cooks, every other entry is kept. -/
def notifyInput (this : Nat) (bCookOnAssetInputCook : Bool) :
    Option UHoudiniInput → Option UHoudiniInput
  | none => none
  | some i =>
    if referencesProducer this i && bCookOnAssetInputCook then some (i.MarkChanged true)
    else some i

/-- What `NotifyCookedToDownstreamAssets` leaves of a consumer it visits: a
component pending kill is not touched, otherwise each Input goes through
`notifyInput`. -/
def notified (this : Nat) (c : UHoudiniAssetComponent) : UHoudiniAssetComponent :=
  if c.pendingKill then c
  else { c with inputs := c.inputs.map (notifyInput this c.bCookOnAssetInputCook) }

/-- The component found at address `x` after `NotifyCookedToDownstreamAssets`
ran on the producer at address `this`, in closed form. -/
def afterNotify (w : World) (this : Nat) (x : Nat) : UHoudiniAssetComponent :=
  let base :=
    if some x ∈ (w.components this).downstreamHoudiniAssets then notified this (w.components x)
    else w.components x
  if x = this then
    { base with downstreamHoudiniAssets :=
        (w.components this).downstreamHoudiniAssets.filter (isConnectedConsumer w this) }
  else base

/-- The entity `r` is the first live match of `other` in the sequence `l`: it
is an entry of `l`, it is not pending kill, it matches `other`, and no entry
before it that is not null and not pending kill matches `other`. -/
def firstLiveMatch {α : Type} (pendingKill : α → Bool) (Matches : α → α → Bool)
    (l : List (Option α)) (other r : α) : Prop :=
  pendingKill r = false ∧ Matches r other = true
    ∧ ∃ before after : List (Option α), l = before ++ some r :: after
        ∧ ∀ q : α, some q ∈ before → pendingKill q = false → Matches q other = false

/-- No live entry of the sequence `l` matches `other`. -/
def noLiveMatch {α : Type} (pendingKill : α → Bool) (Matches : α → α → Bool)
    (l : List (Option α)) (other : α) : Prop :=
  ∀ q : α, some q ∈ l → pendingKill q = false → Matches q other = false

/-- The type `W` holds the most objects of the Input `j` among Geometry,
Asset, World and Landscape, with equal counts resolved in the priority order
Landscape, World, Asset, Geometry: `W` holds at least one object, no type
holds more, and every type before `W` in the priority order holds fewer. -/
def isMajorityType (j : UHoudiniInput) (W : EHoudiniInputType) : Prop :=
  (W = EHoudiniInputType.Landscape
    ∧ 0 < j.landscapeInputObjects.length
    ∧ j.worldInputObjects.length ≤ j.landscapeInputObjects.length
    ∧ j.assetInputObjects.length ≤ j.landscapeInputObjects.length
    ∧ j.geometryInputObjects.length ≤ j.landscapeInputObjects.length)
  ∨ (W = EHoudiniInputType.World
    ∧ 0 < j.worldInputObjects.length
    ∧ j.landscapeInputObjects.length < j.worldInputObjects.length
    ∧ j.assetInputObjects.length ≤ j.worldInputObjects.length
    ∧ j.geometryInputObjects.length ≤ j.worldInputObjects.length)
  ∨ (W = EHoudiniInputType.Asset
    ∧ 0 < j.assetInputObjects.length
    ∧ j.landscapeInputObjects.length < j.assetInputObjects.length
    ∧ j.worldInputObjects.length < j.assetInputObjects.length
    ∧ j.geometryInputObjects.length ≤ j.assetInputObjects.length)
  ∨ (W = EHoudiniInputType.Geometry
    ∧ 0 < j.geometryInputObjects.length
    ∧ j.landscapeInputObjects.length < j.geometryInputObjects.length
    ∧ j.worldInputObjects.length < j.geometryInputObjects.length
    ∧ j.assetInputObjects.length < j.geometryInputObjects.length)

/-- What the assignment of preset objects can do to one Input `i`, giving `j`:
the input type, the liveness and the change bits are kept, the Landscape and
Asset sequences do not shrink and get at most the one object an empty sequence
lacks, and either the four sequences are those of `i` or `j` holds an
object. -/
def presetAssigned (i j : UHoudiniInput) : Prop :=
  j.inputType = i.inputType
  ∧ j.pendingKill = i.pendingKill
  ∧ i.landscapeInputObjects.length ≤ j.landscapeInputObjects.length
  ∧ j.landscapeInputObjects.length ≤ max 1 i.landscapeInputObjects.length
  ∧ i.assetInputObjects.length ≤ j.assetInputObjects.length
  ∧ j.assetInputObjects.length ≤ max 1 i.assetInputObjects.length
  ∧ j.curveInputObjects = i.curveInputObjects
  ∧ ((j.geometryInputObjects = i.geometryInputObjects
        ∧ j.assetInputObjects = i.assetInputObjects
        ∧ j.worldInputObjects = i.worldInputObjects
        ∧ j.landscapeInputObjects = i.landscapeInputObjects)
      ∨ 0 < j.geometryInputObjects.length + j.assetInputObjects.length
            + j.worldInputObjects.length + j.landscapeInputObjects.length)

/-- A relation between Inputs lifted to the entries of an Input sequence: a
null entry corresponds to a null entry only. -/
def entryRel (R : UHoudiniInput → UHoudiniInput → Prop) :
    Option UHoudiniInput → Option UHoudiniInput → Prop
  | none, none => True
  | some i, some j => R i j
  | _, _ => False

/-- The contribution of one Parameter entry to the update decision: the entry
is not null, not pending kill, has changed and needs to trigger an update. -/
def parameterSignals : Option UHoudiniParameter → Bool
  | none => false
  | some p => !p.pendingKill && p.bHasChanged && p.bNeedsToTriggerUpdate

/-- The contribution of one Input entry to the update decision. -/
def inputSignals : Option UHoudiniInput → Bool
  | none => false
  | some i => !i.pendingKill && i.bHasChanged && i.bNeedsToTriggerUpdate

/-- The contribution of one output object record: its component is a spline
component that is not an output curve and needs to trigger an update. -/
def outputObjectSignals (record : Nat × FHoudiniOutputObject) : Bool :=
  match record.2.outputComponent with
  | some (OutputComponentRef.spline _ c) => !c.bIsOutputCurve && c.bNeedsToTriggerUpdate
  | _ => false

/-- The contribution of one Output entry to the update decision: the entry is
not null, not pending kill, an editable node, and one of its records
signals. -/
def outputSignals : Option UHoudiniOutput → Bool
  | none => false
  | some o => !o.pendingKill && o.bIsEditableNode && o.outputObjects.any outputObjectSignals

/-- The assignment of preset objects only adds objects: the World and the
Geometry sequences of `j` are at least as long as those of `i`. -/
def presetGrown (i j : UHoudiniInput) : Prop :=
  i.worldInputObjects.length ≤ j.worldInputObjects.length
  ∧ i.geometryInputObjects.length ≤ j.geometryInputObjects.length

/-- The Input `j` holds the preset object `Object`: for each of the four
class tests that `Object` passes, the object sequence of the matching type
holds it. A static mesh or an actor is found as an input object of the
Geometry, respectively World, sequence; for a landscape or a Houdini asset
actor the Landscape, respectively Asset, sequence is occupied, by it or by
the object that was there before. -/
def holdsPresetObject (Object : PresetObject) (j : UHoudiniInput) : Prop :=
  (Object.isLandscapeProxy = true → j.landscapeInputObjects ≠ [])
  ∧ (Object.isActor = true →
      some ({ object := some Object.object } : UHoudiniInputObject) ∈ j.worldInputObjects)
  ∧ (Object.isStaticMesh = true →
      some ({ object := some Object.object } : UHoudiniInputObject) ∈ j.geometryInputObjects)
  ∧ (Object.isHoudiniAssetActor = true → j.assetInputObjects ≠ [])

/-- The assignment of preset objects drops nothing: every World and Geometry
object of `i` is an object of `j`, and an occupied Landscape or Asset sequence
stays occupied. -/
def presetRetained (i j : UHoudiniInput) : Prop :=
  (∀ x ∈ i.worldInputObjects, x ∈ j.worldInputObjects)
  ∧ (∀ x ∈ i.geometryInputObjects, x ∈ j.geometryInputObjects)
  ∧ (i.landscapeInputObjects ≠ [] → j.landscapeInputObjects ≠ [])
  ∧ (i.assetInputObjects ≠ [] → j.assetInputObjects ≠ [])

/-! ## Concrete states -/

/-- A component with a live asset definition and one live Parameter that has
changed and needs to trigger, while cooking on parameter change is disabled
and neither a recook nor a rebuild is requested. -/
def dirtyButCookDisabled : UHoudiniAssetComponent :=
  { houdiniAsset := some {}
    bCookOnParameterChange := false
    parameters := [some { bHasChanged := true, bNeedsToTriggerUpdate := true }] }

/-- A component that has cooked before: one Parameter with stale bits, a
pending timer, a node handle and a cook count. -/
def cookedOnce : UHoudiniAssetComponent :=
  { houdiniAsset := some {}
    assetId := 7
    assetState := EHoudiniAssetState.None
    assetStateResult := EHoudiniAssetStateResult.Success
    assetCookCount := 1
    bFullyLoaded := true
    parameters := [some { bHasChanged := false, bNeedsToTriggerUpdate := true }]
    refineMeshesTimerActive := true }

/-- A consumer with one live Asset-type Input that references the components
at addresses 1 and 2. -/
def waitingConsumer : UHoudiniAssetComponent :=
  { inputs := [some
      { inputType := EHoudiniInputType.Asset
        assetInputObjects :=
          [some { object := some (UObjectRef.houdiniAssetComponent 1) },
           some { object := some (UObjectRef.houdiniAssetComponent 2) }] }] }

/-- A store where the consumer at address 0 has an upstream component in
state `NeedInstantiation` at address 1; every other component is in `None`. -/
def staleUpstreamWorld : World :=
  { components := fun address =>
      if address = 0 then waitingConsumer
      else if address = 1 then { assetState := EHoudiniAssetState.NeedInstantiation }
      else { assetState := EHoudiniAssetState.None } }

/-- A store where every upstream component of the consumer at address 0 is in
state `None`. -/
def quietUpstreamWorld : World :=
  { components := fun address =>
      if address = 0 then waitingConsumer
      else { assetState := EHoudiniAssetState.None } }

/-- A clean, live Input of type Asset whose only Asset input object is the
component at address 0. -/
def inputFromProducer : UHoudiniInput :=
  { inputType := EHoudiniInputType.Asset
    assetInputObjects := [some { object := some (UObjectRef.houdiniAssetComponent 0) }] }

/-- A store where the producer at address 0 records the components at
addresses 1, 2 and 3 and a null entry as downstream. Consumers 1 and 2 hold an
Asset-type Input that references the producer and have a live asset
definition; consumer 1 has cook-on-upstream-cook disabled, consumer 2 has it
enabled and also owns a Geometry Input. Component 3 has no Input. -/
def notifyWorld : World :=
  { components := fun address =>
      if address = 0 then { downstreamHoudiniAssets := [some 1, some 2, some 3, none] }
      else if address = 1 then
        { houdiniAsset := some {}
          bCookOnAssetInputCook := false
          inputs := [some inputFromProducer] }
      else if address = 2 then
        { houdiniAsset := some {}
          inputs := [some inputFromProducer, some {}] }
      else {} }

/-- A component that owns one live Parameter, one live Input and a pending
refinement timer. -/
def readyToCook : UHoudiniAssetComponent :=
  { houdiniAsset := some {}
    bCookOnParameterChange := false
    assetId := 3
    assetState := EHoudiniAssetState.None
    assetStateResult := EHoudiniAssetStateResult.Success
    assetCookCount := 2
    bFullyLoaded := true
    parameters := [some { parameterName := "height" }]
    inputs := [some {}]
    refineMeshesTimerActive := true }

/-- A component whose Parameter sequence holds a live Parameter followed by a
null pointer. -/
def withNullParameter : UHoudiniAssetComponent :=
  { parameters := [some { parameterName := "height" }, none] }

/-- A component without asset definition whose only Output holds a changed
instanced output. -/
def changedInstancer : UHoudiniAssetComponent :=
  { outputs := [some { instancedOutputs := [(0, { bChanged := true })] }] }

/-- A component that owns three Parameters, the first of them pending kill,
one Input and one handle. -/
def threeParameters : UHoudiniAssetComponent :=
  { parameters :=
      [some { pendingKill := true, parameterName := "height" },
       none,
       some { parameterName := "height", bHasChanged := true },
       some { parameterName := "height" }]
    inputs := [some { inputType := EHoudiniInputType.World }]
    handleComponents := [some { handleName := "xform" }] }

/-- A `Matches` predicate on Parameters that compares the names. -/
def parameterNamesMatch (a b : UHoudiniParameter) : Bool :=
  a.parameterName == b.parameterName

/-- A `Matches` predicate on Inputs that compares the input types. -/
def inputTypesMatch (a b : UHoudiniInput) : Bool :=
  decide (a.inputType = b.inputType)

/-- A `Matches` predicate on handles that compares the names. -/
def handleNamesMatch (a b : UHoudiniHandleComponent) : Bool :=
  a.handleName == b.handleName

/-- A store where the producer at address 0 records the consumer at address 1
as downstream, and the consumer has a request in flight: its GUID is valid. -/
def cookingConsumerWorld : World :=
  { components := fun address =>
      if address = 0 then { downstreamHoudiniAssets := [some 1] }
      else if address = 1 then
        { houdiniAsset := some {}
          assetId := 5
          hapiGUID := { A := 1 }
          assetState := EHoudiniAssetState.Cooking
          parameters := [some {}]
          inputs := [some inputFromProducer] }
      else {} }

/-- A runtime where the components at addresses 0 and 1 are registered. -/
def bothRegistered : FHoudiniEngineRuntime :=
  { registeredHoudiniComponents := [0, 1] }

/-- A static mesh handed over as preset object. -/
def meshPreset (address : Nat) : PresetObject :=
  { object := UObjectRef.other address, isStaticMesh := true }

/-- A landscape handed over as preset object: a landscape proxy is an actor. -/
def landscapePreset (address : Nat) : PresetObject :=
  { object := UObjectRef.other address, isLandscapeProxy := true, isActor := true }

/-- A component whose only Input was preset to the type Asset and holds one
Asset object, with two static meshes as presets for that Input. -/
def assetInputWithMeshPresets : UHoudiniAssetComponent :=
  { inputs := [some
      { inputType := EHoudiniInputType.Asset
        assetInputObjects := [some { object := some (UObjectRef.houdiniAssetComponent 7) }] }]
    inputPresets := [(some (meshPreset 20), 0), (some (meshPreset 21), 0)] }

/-- A component with two empty Geometry Inputs; the presets hand two
landscapes and a static mesh to the first Input. -/
def geometryInputsWithPresets : UHoudiniAssetComponent :=
  { inputs := [some {}, some {}]
    inputPresets :=
      [(some (landscapePreset 30), 0), (some (landscapePreset 31), 0),
       (some (meshPreset 32), 0)] }

/-- The Input of `assetInputWithMeshPresets` after `ApplyInputPresets`: the two
meshes were added as Geometry objects and the input type is still Asset. -/
def assetInputAfterPresets : UHoudiniInput :=
  { inputType := EHoudiniInputType.Asset
    geometryInputObjects :=
      [some { object := some (UObjectRef.other 20) },
       some { object := some (UObjectRef.other 21) }]
    assetInputObjects := [some { object := some (UObjectRef.houdiniAssetComponent 7) }] }

/-- A component with a live asset definition whose Parameters are a null
entry, a Parameter pending kill that is dirty and triggering, and a clean live
Parameter, and whose only Input is dirty and triggering. -/
def dirtyInput : UHoudiniAssetComponent :=
  { houdiniAsset := some {}
    parameters :=
      [none,
       some { pendingKill := true, bHasChanged := true, bNeedsToTriggerUpdate := true },
       some { parameterName := "height" }]
    inputs := [some { bHasChanged := true, bNeedsToTriggerUpdate := true }] }

/-- A component with a live asset definition, a Parameter and an Input that
are dirty and triggering, and a transform change that does not trigger
cooks. -/
def dirtyBeforeReload : UHoudiniAssetComponent :=
  { houdiniAsset := some {}
    bHasComponentTransformChanged := true
    bRecookRequested := true
    bFullyLoaded := true
    parameters := [some { bHasChanged := true, bNeedsToTriggerUpdate := true }]
    inputs := [some { bHasChanged := true, bNeedsToTriggerUpdate := true }] }

/-- A component whose Output sequence holds a live Output followed by a null
pointer. -/
def withNullOutput : UHoudiniAssetComponent :=
  { outputs := [some {}, none] }

/-- A component whose only Output is pending kill and still records an output
object at address 4 with a component at address 9. -/
def withDestroyedOutput : UHoudiniAssetComponent :=
  { outputs := [some
      { pendingKill := true
        outputObjects :=
          [(0, { outputObject := some 4, outputComponent := some (OutputComponentRef.other 9) })] }] }

/-- A `HasAnyProxy` report that reads the proxy objects of the records. -/
def anyProxyObject (o : UHoudiniOutput) : Bool :=
  o.outputObjects.any (fun record => record.2.proxyObject.isSome)

/-- The first Input of `geometryInputsWithPresets` after `ApplyInputPresets`:
it holds the first landscape as Landscape object, both landscapes as World
objects and the static mesh as Geometry object, and is a World Input. -/
def firstInputAfterPresets : UHoudiniInput :=
  { inputType := EHoudiniInputType.World
    geometryInputObjects := [some { object := some (UObjectRef.other 32) }]
    landscapeInputObjects := [some { object := some (UObjectRef.other 30) }]
    worldInputObjects :=
      [some { object := some (UObjectRef.other 30) },
       some { object := some (UObjectRef.other 31) }] }

/-! ## Properties of the change aggregation -/

theorem parametersNeedUpdate_iff (l : List (Option UHoudiniParameter)) :
    parametersNeedUpdate l = true ↔
      ∃ p : UHoudiniParameter, some p ∈ l ∧ p.pendingKill = false
        ∧ p.bHasChanged = true ∧ p.bNeedsToTriggerUpdate = true := by
  induction l with
  | nil => simp [parametersNeedUpdate]
  | cons hd tl ih =>
    cases hd with
    | none => simp [parametersNeedUpdate, ih]
    | some q =>
      cases hk : q.pendingKill <;> cases hc : q.bHasChanged <;>
        cases ht : q.bNeedsToTriggerUpdate <;>
        simp [parametersNeedUpdate, ih, hk, hc, ht]

theorem inputsNeedUpdate_iff (l : List (Option UHoudiniInput)) :
    inputsNeedUpdate l = true ↔
      ∃ i : UHoudiniInput, some i ∈ l ∧ i.pendingKill = false
        ∧ i.bHasChanged = true ∧ i.bNeedsToTriggerUpdate = true := by
  induction l with
  | nil => simp [inputsNeedUpdate]
  | cons hd tl ih =>
    cases hd with
    | none => simp [inputsNeedUpdate, ih]
    | some q =>
      cases hk : q.pendingKill <;> cases hc : q.bHasChanged <;>
        cases ht : q.bNeedsToTriggerUpdate <;>
        simp [inputsNeedUpdate, ih, hk, hc, ht]

theorem outputObjectsNeedUpdate_iff (l : List (Nat × FHoudiniOutputObject)) :
    outputObjectsNeedUpdate l = true ↔
      ∃ pair ∈ l, ∃ (address : Nat) (c : UHoudiniSplineComponent),
        pair.2.outputComponent = some (OutputComponentRef.spline address c)
        ∧ c.bIsOutputCurve = false ∧ c.bNeedsToTriggerUpdate = true := by
  induction l with
  | nil => simp [outputObjectsNeedUpdate]
  | cons hd tl ih =>
    rcases hcomp : hd.2.outputComponent with _ | (⟨a, c⟩ | a)
    · simp [outputObjectsNeedUpdate, hcomp, ih]
    · cases hk : c.bIsOutputCurve <;> cases ht : c.bNeedsToTriggerUpdate <;>
        simp [outputObjectsNeedUpdate, hcomp, ih, hk, ht]
      exact Or.inl ⟨a, c, ⟨rfl, rfl⟩, hk, ht⟩
    · simp [outputObjectsNeedUpdate, hcomp, ih]

theorem outputsNeedUpdate_iff (l : List (Option UHoudiniOutput)) :
    outputsNeedUpdate l = true ↔
      ∃ o : UHoudiniOutput, some o ∈ l ∧ o.pendingKill = false
        ∧ o.bIsEditableNode = true
        ∧ ∃ pair ∈ o.outputObjects, ∃ (address : Nat) (c : UHoudiniSplineComponent),
            pair.2.outputComponent = some (OutputComponentRef.spline address c)
            ∧ c.bIsOutputCurve = false ∧ c.bNeedsToTriggerUpdate = true := by
  induction l with
  | nil => simp [outputsNeedUpdate]
  | cons hd tl ih =>
    cases hd with
    | none => simp [outputsNeedUpdate, ih]
    | some q =>
      have hoo := outputObjectsNeedUpdate_iff q.outputObjects
      by_cases hq : q.pendingKill = false ∧ q.bIsEditableNode = true
          ∧ outputObjectsNeedUpdate q.outputObjects = true
      · have hrun : outputsNeedUpdate (some q :: tl) = true := by
          simp [outputsNeedUpdate, hq.1, hq.2.1, hq.2.2]
        rw [hrun]
        simp only [true_iff]
        exact ⟨q, List.mem_cons_self _ _, hq.1, hq.2.1, hoo.1 hq.2.2⟩
      · have hrun : outputsNeedUpdate (some q :: tl) = outputsNeedUpdate tl := by
          cases hk : q.pendingKill <;> cases he : q.bIsEditableNode <;>
            cases ho : outputObjectsNeedUpdate q.outputObjects <;>
            simp_all [outputsNeedUpdate]
        rw [hrun, ih]
        constructor
        · rintro ⟨o, ho, h⟩
          exact ⟨o, List.mem_cons_of_mem _ ho, h⟩
        · rintro ⟨o, ho, h1, h2, h3⟩
          rcases List.mem_cons.1 ho with heq | ho
          · cases heq
            exact absurd ⟨h1, h2, hoo.2 h3⟩ hq
          · exact ⟨o, ho, h1, h2, h3⟩

theorem needUpdate_iff (s : UHoudiniAssetComponent) :
    NeedUpdate s = true ↔
      s.hasValidAsset = true
      ∧ (s.bCookOnParameterChange = true ∨ s.bRecookRequested = true
          ∨ s.bRebuildRequested = true)
      ∧ updateSignalPresent s := by
  unfold NeedUpdate updateSignalPresent
  rw [← parametersNeedUpdate_iff, ← inputsNeedUpdate_iff, ← outputsNeedUpdate_iff]
  cases s.hasValidAsset <;> cases s.bCookOnParameterChange <;> cases s.bRecookRequested <;>
    cases s.bRebuildRequested <;> cases s.bCookOnTransformChange <;>
    cases s.bHasComponentTransformChanged <;> cases parametersNeedUpdate s.parameters <;>
    cases inputsNeedUpdate s.inputs <;> cases outputsNeedUpdate s.outputs <;> simp

/-- C2, as amended: `NeedUpdate` returns true exactly when a live asset
definition is bound, at least one of cook-on-parameter-change, recook
requested and rebuild requested is set, and one of the four update signals is
present among the live entries. -/
theorem needUpdate_true_iff_guards_and_signal (s : UHoudiniAssetComponent) :
    NeedUpdate s = true ↔
      s.hasValidAsset = true
      ∧ (s.bCookOnParameterChange = true ∨ s.bRecookRequested = true
          ∨ s.bRebuildRequested = true)
      ∧ updateSignalPresent s :=
  needUpdate_iff s

/-- C2, as stated, fails: with cooking on parameter change disabled and no
recook or rebuild requested, a live changed and triggering Parameter is an
update signal, yet `NeedUpdate` returns false. -/
theorem needUpdate_not_iff_signal_alone :
    ¬ (NeedUpdate dirtyButCookDisabled = true ↔ updateSignalPresent dirtyButCookDisabled) := by
  intro h
  have hsig : updateSignalPresent dirtyButCookDisabled :=
    Or.inr (Or.inl ⟨{ bHasChanged := true, bNeedsToTriggerUpdate := true },
      by simp [dirtyButCookDisabled], rfl, rfl, rfl⟩)
  have hrun : NeedUpdate dirtyButCookDisabled = false := by decide
  rw [h.2 hsig] at hrun
  exact Bool.noConfusion hrun

/-- C3: with cook-on-parameter-change disabled and neither a recook nor a
rebuild requested, `NeedUpdate` returns false, whatever the Parameters, Inputs,
Outputs and the transform flag are. -/
theorem needUpdate_false_of_cook_disabled (s : UHoudiniAssetComponent)
    (hCook : s.bCookOnParameterChange = false) (hRecook : s.bRecookRequested = false)
    (hRebuild : s.bRebuildRequested = false) : NeedUpdate s = false := by
  unfold NeedUpdate
  simp [hCook, hRecook, hRebuild]

/-- Witness of C3 on a component whose only Parameter is dirty and triggering. -/
theorem needUpdate_false_of_cook_disabled_witness :
    dirtyButCookDisabled.bCookOnParameterChange = false
    ∧ dirtyButCookDisabled.bRecookRequested = false
    ∧ dirtyButCookDisabled.bRebuildRequested = false
    ∧ NeedUpdate dirtyButCookDisabled = false :=
  ⟨rfl, rfl, rfl, needUpdate_false_of_cook_disabled dirtyButCookDisabled rfl rfl rfl⟩

/-! ## Properties of `MarkAsNeedInstantiation` -/

theorem clearRefineMeshesTimer_assetState (s : UHoudiniAssetComponent) :
    (ClearRefineMeshesTimer s).assetState = s.assetState := by
  unfold ClearRefineMeshesTimer
  cases s.hasWorld <;> rfl

theorem markParametersNeedInstantiation_idem (l : List (Option UHoudiniParameter)) :
    markParametersNeedInstantiation (markParametersNeedInstantiation l)
      = markParametersNeedInstantiation l := by
  induction l with
  | nil => rfl
  | cons hd tl ih =>
    cases hd with
    | none => simp [markParametersNeedInstantiation, ih]
    | some q =>
      simp [markParametersNeedInstantiation, ih, UHoudiniParameter.MarkChanged,
        UHoudiniParameter.SetNeedsToTriggerUpdate]

theorem markInputsNeedInstantiation_idem (l : List (Option UHoudiniInput)) :
    markInputsNeedInstantiation (markInputsNeedInstantiation l)
      = markInputsNeedInstantiation l := by
  induction l with
  | nil => rfl
  | cons hd tl ih =>
    cases hd with
    | none => simp [markInputsNeedInstantiation, ih]
    | some q =>
      simp [markInputsNeedInstantiation, ih, UHoudiniInput.MarkChanged,
        UHoudiniInput.SetNeedsToTriggerUpdate, UHoudiniInput.MarkDataUploadNeeded]

theorem markParametersNeedInstantiation_length (l : List (Option UHoudiniParameter)) :
    (markParametersNeedInstantiation l).length = l.length := by
  induction l with
  | nil => rfl
  | cons hd tl ih => cases hd <;> simp [markParametersNeedInstantiation, ih]

theorem markInputsNeedInstantiation_length (l : List (Option UHoudiniInput)) :
    (markInputsNeedInstantiation l).length = l.length := by
  induction l with
  | nil => rfl
  | cons hd tl ih => cases hd <;> simp [markInputsNeedInstantiation, ih]

/-- The effect of `MarkAsNeedInstantiation` written as one record update. -/
theorem markAsNeedInstantiation_eq (s : UHoudiniAssetComponent) :
    MarkAsNeedInstantiation s =
      { s with
        assetId := -1
        assetState :=
          if s.parameters.length ≤ 0 ∧ s.inputs.length ≤ 0 ∧ s.outputs.length ≤ 0 then
            EHoudiniAssetState.PreInstantiation
          else EHoudiniAssetState.NeedInstantiation
        assetStateResult := EHoudiniAssetStateResult.None
        assetCookCount := 0
        bHasBeenLoaded := true
        bPendingDelete := false
        bRecookRequested := false
        bRebuildRequested := false
        bFullyLoaded := false
        parameters := markParametersNeedInstantiation s.parameters
        inputs := markInputsNeedInstantiation s.inputs
        refineMeshesTimerActive := !s.hasWorld && s.refineMeshesTimerActive } := by
  unfold MarkAsNeedInstantiation ClearRefineMeshesTimer
  by_cases hlen : s.parameters.length ≤ 0 ∧ s.inputs.length ≤ 0 ∧ s.outputs.length ≤ 0
  · simp only [if_pos hlen]
    cases hw : s.hasWorld <;> simp [hw]
  · simp only [if_neg hlen]
    cases hw : s.hasWorld <;> simp [hw]

/-- C1: after `MarkAsNeedInstantiation` the lifecycle state is
`PreInstantiation` when the Parameter, Input and Output sequences are all
empty and `NeedInstantiation` when at least one of them is non-empty, whatever
the state was before. -/
theorem markAsNeedInstantiation_assetState (s : UHoudiniAssetComponent) :
    ((s.parameters = [] ∧ s.inputs = [] ∧ s.outputs = []) →
        (MarkAsNeedInstantiation s).assetState = EHoudiniAssetState.PreInstantiation)
    ∧ ((s.parameters ≠ [] ∨ s.inputs ≠ [] ∨ s.outputs ≠ []) →
        (MarkAsNeedInstantiation s).assetState = EHoudiniAssetState.NeedInstantiation) := by
  constructor
  · rintro ⟨hp, hi, ho⟩
    simp [MarkAsNeedInstantiation, clearRefineMeshesTimer_assetState, hp, hi, ho]
  · intro h
    have hne : ¬ (s.parameters.length ≤ 0 ∧ s.inputs.length ≤ 0 ∧ s.outputs.length ≤ 0) := by
      rintro ⟨hp, hi, ho⟩
      rcases h with h | h | h
      · exact h (List.length_eq_zero.1 (Nat.le_zero.1 hp))
      · exact h (List.length_eq_zero.1 (Nat.le_zero.1 hi))
      · exact h (List.length_eq_zero.1 (Nat.le_zero.1 ho))
    simp only [MarkAsNeedInstantiation, clearRefineMeshesTimer_assetState]
    rw [if_neg hne]

/-- Witness of C1: a component without any entry goes to `PreInstantiation`,
one with a Parameter goes to `NeedInstantiation`. -/
theorem markAsNeedInstantiation_assetState_witness :
    (({} : UHoudiniAssetComponent).parameters = []
      ∧ ({} : UHoudiniAssetComponent).inputs = []
      ∧ ({} : UHoudiniAssetComponent).outputs = [])
    ∧ (MarkAsNeedInstantiation {}).assetState = EHoudiniAssetState.PreInstantiation
    ∧ (cookedOnce.parameters ≠ [] ∨ cookedOnce.inputs ≠ [] ∨ cookedOnce.outputs ≠ [])
    ∧ (MarkAsNeedInstantiation cookedOnce).assetState = EHoudiniAssetState.NeedInstantiation :=
  ⟨⟨rfl, rfl, rfl⟩,
   (markAsNeedInstantiation_assetState {}).1 ⟨rfl, rfl, rfl⟩,
   Or.inl (by decide),
   (markAsNeedInstantiation_assetState cookedOnce).2 (Or.inl (by decide))⟩

/-- C9: `MarkAsNeedInstantiation` is idempotent: a second call right after a
first one leaves every member of the component (lifecycle state, operation
result, node handle, cook count, flags, Parameters, Inputs, timer) as the first
call left it. -/
theorem markAsNeedInstantiation_idempotent (s : UHoudiniAssetComponent) :
    MarkAsNeedInstantiation (MarkAsNeedInstantiation s) = MarkAsNeedInstantiation s := by
  rw [markAsNeedInstantiation_eq (MarkAsNeedInstantiation s), markAsNeedInstantiation_eq s]
  simp only [markParametersNeedInstantiation_idem, markInputsNeedInstantiation_idem,
    markParametersNeedInstantiation_length, markInputsNeedInstantiation_length]
  cases s.hasWorld <;> simp

/-! ## Properties of `NeedsToWaitForInputHoudiniAssets` -/

theorem waitForInputObjects_eq_foldl (objs : List (Option UHoudiniInputObject))
    (acc : World × Bool) :
    waitForInputObjects objs acc
      = (objs.filterMap inputObjectAsComponent).foldl waitStep acc := by
  induction objs generalizing acc with
  | nil => rfl
  | cons hd tl ih =>
    obtain ⟨w, b⟩ := acc
    cases hcast : inputObjectAsComponent hd with
    | none => simp [waitForInputObjects, hcast, ih]
    | some u =>
      simp only [waitForInputObjects, hcast, List.filterMap_cons, List.foldl_cons, waitStep]
      split_ifs <;> exact ih _

theorem waitForInputs_eq_foldl (l : List (Option UHoudiniInput)) (acc : World × Bool) :
    waitForInputs l acc = (upstreamAddresses l).foldl waitStep acc := by
  induction l generalizing acc with
  | nil => rfl
  | cons hd tl ih =>
    cases hd with
    | none => simp [waitForInputs, upstreamAddresses, ih]
    | some i =>
      by_cases hskip : (i.pendingKill || i.inputType != EHoudiniInputType.Asset) = true
      · simp [waitForInputs, upstreamAddresses, hskip, ih]
      · simp [waitForInputs, upstreamAddresses, hskip, ih,
          UHoudiniInput.GetHoudiniInputObjectArray, waitForInputObjects_eq_foldl,
          List.foldl_append]

theorem inputObjectAsComponent_eq_some (o : Option UHoudiniInputObject) (u : Nat) :
    inputObjectAsComponent o = some u ↔
      ∃ io : UHoudiniInputObject, o = some io
        ∧ io.object = some (UObjectRef.houdiniAssetComponent u) := by
  cases o with
  | none => simp [inputObjectAsComponent]
  | some io =>
    rcases hobj : io.object with _ | (a | a) <;>
      simp [inputObjectAsComponent, hobj]

theorem mem_upstreamAddresses (l : List (Option UHoudiniInput)) (u : Nat) :
    u ∈ upstreamAddresses l ↔ referencedUpstream l u := by
  unfold referencedUpstream
  induction l with
  | nil => simp [upstreamAddresses]
  | cons hd tl ih =>
    cases hd with
    | none => simp [upstreamAddresses, ih]
    | some i =>
      by_cases hskip : (i.pendingKill || i.inputType != EHoudiniInputType.Asset) = true
      · simp only [upstreamAddresses, hskip, if_true, ih]
        constructor
        · rintro ⟨j, hj, h⟩
          exact ⟨j, List.mem_cons_of_mem _ hj, h⟩
        · rintro ⟨j, hj, hk, hty, h⟩
          rcases List.mem_cons.1 hj with heq | hj
          · cases heq
            simp [hk, hty] at hskip
          · exact ⟨j, hj, hk, hty, h⟩
      · have hlive : i.pendingKill = false ∧ i.inputType = EHoudiniInputType.Asset := by
          cases hk : i.pendingKill <;> simp_all
        have hrun : upstreamAddresses (some i :: tl)
            = i.assetInputObjects.filterMap inputObjectAsComponent ++ upstreamAddresses tl := by
          rw [upstreamAddresses, if_neg hskip]
        rw [hrun, List.mem_append, ih]
        constructor
        · rintro (h | ⟨j, hj, h⟩)
          · obtain ⟨o, ho, hcast⟩ := List.mem_filterMap.1 h
            obtain ⟨io, rfl, hobj⟩ := (inputObjectAsComponent_eq_some o u).1 hcast
            exact ⟨i, List.mem_cons_self _ _, hlive.1, hlive.2, io, ho, hobj⟩
          · exact ⟨j, List.mem_cons_of_mem _ hj, h⟩
        · rintro ⟨j, hj, hk, hty, io, hio, hobj⟩
          rcases List.mem_cons.1 hj with heq | hj
          · cases heq
            exact Or.inl (List.mem_filterMap.2
              ⟨some io, hio, (inputObjectAsComponent_eq_some _ u).2 ⟨io, rfl, hobj⟩⟩)
          · exact Or.inr ⟨j, hj, hk, hty, io, hio, hobj⟩

theorem foldl_waitStep_components (us : List Nat) (w : World) (b : Bool) (u : Nat) :
    ((us.foldl waitStep (w, b)).1.components u)
      = if u ∈ us ∧ (w.components u).assetState = EHoudiniAssetState.NeedInstantiation then
          { w.components u with assetState := EHoudiniAssetState.PreInstantiation }
        else w.components u := by
  induction us generalizing w b with
  | nil => simp
  | cons u0 tl ih =>
    rw [List.foldl_cons]
    by_cases hneed : (w.components u0).assetState = EHoudiniAssetState.NeedInstantiation
    · have hstep : waitStep (w, b) u0
          = (setAssetState w u0 EHoudiniAssetState.PreInstantiation, true) := by
        simp [waitStep, hneed]
      rw [hstep, ih]
      by_cases hu : u = u0
      · subst hu
        simp [setAssetState, hneed]
      · simp [setAssetState, Function.update_noteq hu, hu]
    · have hstep : (waitStep (w, b) u0).1 = w := by
        simp only [waitStep, hneed, if_false]
        split_ifs <;> rfl
      have hpair : waitStep (w, b) u0 = (w, (waitStep (w, b) u0).2) := Prod.ext hstep rfl
      rw [hpair, ih]
      by_cases hu : u = u0
      · subst hu
        simp [hneed]
      · simp [hu]

theorem foldl_waitStep_flag (us : List Nat) (w : World) (b : Bool) :
    (us.foldl waitStep (w, b)).2 = true ↔
      b = true ∨ ∃ u ∈ us, (w.components u).assetState ≠ EHoudiniAssetState.None := by
  induction us generalizing w b with
  | nil => simp
  | cons u0 tl ih =>
    rw [List.foldl_cons]
    by_cases hneed : (w.components u0).assetState = EHoudiniAssetState.NeedInstantiation
    · have hstep : waitStep (w, b) u0
          = (setAssetState w u0 EHoudiniAssetState.PreInstantiation, true) := by
        simp [waitStep, hneed]
      rw [hstep, ih]
      simp only [true_or, true_iff]
      exact Or.inr ⟨u0, List.mem_cons_self _ _, by rw [hneed]; decide⟩
    · by_cases hnone : (w.components u0).assetState = EHoudiniAssetState.None
      · have hstep : waitStep (w, b) u0 = (w, b) := by
          simp [waitStep, hnone]
        rw [hstep, ih]
        simp [hnone]
      · have hstep : waitStep (w, b) u0 = (w, true) := by
          simp [waitStep, hneed, hnone]
        rw [hstep, ih]
        simp only [true_or, true_iff]
        exact Or.inr ⟨u0, List.mem_cons_self _ _, hnone⟩

/-- C4: `NeedsToWaitForInputHoudiniAssets` returns true exactly when some live
Asset-type Input of the component references, among its Asset input objects,
a component whose lifecycle state before the call differs from `None`; so it
returns false when every referenced upstream component is in `None` and when
the component has no Asset-type Input. -/
theorem needsToWaitForInputHoudiniAssets_true_iff (w : World) (this : Nat) :
    ((NeedsToWaitForInputHoudiniAssets w this).2 = true ↔
      ∃ u, referencedUpstream (w.components this).inputs u
        ∧ (w.components u).assetState ≠ EHoudiniAssetState.None)
    ∧ ((∀ u, referencedUpstream (w.components this).inputs u →
          (w.components u).assetState = EHoudiniAssetState.None) →
        (NeedsToWaitForInputHoudiniAssets w this).2 = false)
    ∧ ((∀ i : UHoudiniInput, some i ∈ (w.components this).inputs →
          i.inputType ≠ EHoudiniInputType.Asset) →
        (NeedsToWaitForInputHoudiniAssets w this).2 = false) := by
  have hiff : (NeedsToWaitForInputHoudiniAssets w this).2 = true ↔
      ∃ u, referencedUpstream (w.components this).inputs u
        ∧ (w.components u).assetState ≠ EHoudiniAssetState.None := by
    unfold NeedsToWaitForInputHoudiniAssets
    rw [waitForInputs_eq_foldl, foldl_waitStep_flag]
    simp only [Bool.false_eq_true, false_or, mem_upstreamAddresses]
  refine ⟨hiff, ?_, ?_⟩
  · intro hall
    rw [← Bool.not_eq_true, hiff]
    rintro ⟨u, hu, hne⟩
    exact hne (hall u hu)
  · intro hno
    rw [← Bool.not_eq_true, hiff]
    rintro ⟨u, ⟨i, hi, _, hty, _⟩, _⟩
    exact hno i hi hty

/-- Witness of C4: the call returns true with an upstream component in
`NeedInstantiation`, and false when every upstream component is in `None`. -/
theorem needsToWaitForInputHoudiniAssets_true_iff_witness :
    (NeedsToWaitForInputHoudiniAssets staleUpstreamWorld 0).2 = true
    ∧ (NeedsToWaitForInputHoudiniAssets quietUpstreamWorld 0).2 = false := by
  refine ⟨(needsToWaitForInputHoudiniAssets_true_iff staleUpstreamWorld 0).1.2
      ⟨1, ⟨_, List.mem_cons_self _ _, rfl, rfl, _, List.mem_cons_self _ _, rfl⟩, by decide⟩,
    (needsToWaitForInputHoudiniAssets_true_iff quietUpstreamWorld 0).2.1 ?_⟩
  rintro u ⟨i, hi, _, _, io, hio, hobj⟩
  simp [quietUpstreamWorld, waitingConsumer] at hi
  subst hi
  simp at hio
  rcases hio with rfl | rfl <;> simp at hobj <;> subst hobj <;> rfl

/-- C5: after `NeedsToWaitForInputHoudiniAssets`, every upstream component
referenced by a live Asset-type Input that was in `NeedInstantiation` is in
`PreInstantiation` (its other members unchanged), and every other component,
referenced in another state or not referenced, is exactly as before. -/
theorem needsToWaitForInputHoudiniAssets_frame (w : World) (this u : Nat) :
    (referencedUpstream (w.components this).inputs u →
      (w.components u).assetState = EHoudiniAssetState.NeedInstantiation →
        ((NeedsToWaitForInputHoudiniAssets w this).1.components u).assetState
            = EHoudiniAssetState.PreInstantiation
        ∧ (NeedsToWaitForInputHoudiniAssets w this).1.components u
            = { w.components u with assetState := EHoudiniAssetState.PreInstantiation })
    ∧ (¬ (referencedUpstream (w.components this).inputs u
          ∧ (w.components u).assetState = EHoudiniAssetState.NeedInstantiation) →
        (NeedsToWaitForInputHoudiniAssets w this).1.components u = w.components u) := by
  have hrun := foldl_waitStep_components (upstreamAddresses (w.components this).inputs)
    w false u
  rw [← waitForInputs_eq_foldl] at hrun
  have hmem := mem_upstreamAddresses (w.components this).inputs u
  constructor
  · intro href hneed
    have hafter : (NeedsToWaitForInputHoudiniAssets w this).1.components u
        = { w.components u with assetState := EHoudiniAssetState.PreInstantiation } := by
      unfold NeedsToWaitForInputHoudiniAssets
      rw [hrun, if_pos ⟨hmem.2 href, hneed⟩]
    exact ⟨by rw [hafter], hafter⟩
  · intro hnot
    unfold NeedsToWaitForInputHoudiniAssets
    rw [hrun, if_neg (fun h => hnot ⟨hmem.1 h.1, h.2⟩)]

/-- Witness of C5: the upstream component at address 1 is promoted from
`NeedInstantiation` to `PreInstantiation`, the one at address 2 keeps `None`. -/
theorem needsToWaitForInputHoudiniAssets_frame_witness :
    ((NeedsToWaitForInputHoudiniAssets staleUpstreamWorld 0).1.components 1).assetState
        = EHoudiniAssetState.PreInstantiation
    ∧ (NeedsToWaitForInputHoudiniAssets staleUpstreamWorld 0).1.components 2
        = staleUpstreamWorld.components 2 :=
  ⟨((needsToWaitForInputHoudiniAssets_frame staleUpstreamWorld 0 1).1
      ⟨_, List.mem_cons_self _ _, rfl, rfl, _, List.mem_cons_self _ _, rfl⟩ rfl).1,
   (needsToWaitForInputHoudiniAssets_frame staleUpstreamWorld 0 2).2
      (fun h => absurd h.2 (by decide))⟩

/-! ## Properties of `NotifyCookedToDownstreamAssets` -/

theorem notifyInputs_eq (this : Nat) (bCook : Bool) (l : List (Option UHoudiniInput))
    (b : Bool) :
    notifyInputs this bCook l b
      = (l.map (notifyInput this bCook), b && !(l.any (entryReferencesProducer this))) := by
  induction l generalizing b with
  | nil => simp [notifyInputs]
  | cons hd tl ih =>
    cases hd with
    | none => simp [notifyInputs, ih, notifyInput, entryReferencesProducer]
    | some i =>
      cases hk : i.pendingKill <;>
        by_cases hty : i.inputType = EHoudiniInputType.Asset <;>
        cases hc : i.ContainsInputObject this EHoudiniInputType.Asset <;>
        cases bCook <;>
        simp [notifyInputs, ih, notifyInput, entryReferencesProducer, referencesProducer,
          hk, hty, hc]

theorem referencesProducer_markChanged (this : Nat) (i : UHoudiniInput) (b : Bool) :
    referencesProducer this (i.MarkChanged b) = referencesProducer this i := rfl

theorem entryReferencesProducer_notifyInput (this : Nat) (bCook : Bool)
    (o : Option UHoudiniInput) :
    entryReferencesProducer this (notifyInput this bCook o) = entryReferencesProducer this o := by
  cases o with
  | none => rfl
  | some i =>
    simp only [notifyInput]
    split_ifs <;> rfl

theorem notifyInput_idem (this : Nat) (bCook : Bool) (o : Option UHoudiniInput) :
    notifyInput this bCook (notifyInput this bCook o) = notifyInput this bCook o := by
  cases o with
  | none => rfl
  | some i =>
    by_cases h : (referencesProducer this i && bCook) = true
    · simp [notifyInput, h, referencesProducer_markChanged, UHoudiniInput.MarkChanged]
    · simp [notifyInput, h]

theorem notified_pendingKill (this : Nat) (c : UHoudiniAssetComponent) :
    (notified this c).pendingKill = c.pendingKill := by
  unfold notified
  split_ifs <;> rfl

theorem notified_downstream (this : Nat) (c : UHoudiniAssetComponent) :
    (notified this c).downstreamHoudiniAssets = c.downstreamHoudiniAssets := by
  unfold notified
  split_ifs <;> rfl

theorem notified_any_references (this : Nat) (c : UHoudiniAssetComponent) :
    (notified this c).inputs.any (entryReferencesProducer this)
      = c.inputs.any (entryReferencesProducer this) := by
  unfold notified
  split_ifs
  · rfl
  · simp [List.any_map, Function.comp_def, entryReferencesProducer_notifyInput]

theorem notified_idem (this : Nat) (c : UHoudiniAssetComponent) :
    notified this (notified this c) = notified this c := by
  unfold notified
  cases hk : c.pendingKill
  · simp [hk, List.map_map, Function.comp_def, notifyInput_idem]
  · simp [hk]

theorem notifyConsumer_flag (this : Nat) (w : World) (d : Option Nat) :
    (notifyConsumer this w d).2 = !isConnectedConsumer w this d := by
  cases d with
  | none => rfl
  | some c =>
    cases hk : (w.components c).pendingKill <;>
      simp [notifyConsumer, isConnectedConsumer, hk, notifyInputs_eq]

theorem notifyConsumer_components (this : Nat) (w : World) (d : Option Nat) (x : Nat) :
    (notifyConsumer this w d).1.components x
      = if d = some x then notified this (w.components x) else w.components x := by
  cases d with
  | none => simp [notifyConsumer]
  | some c =>
    by_cases hx : c = x
    · subst hx
      cases hk : (w.components c).pendingKill <;>
        simp [notifyConsumer, notified, hk, notifyInputs_eq]
    · have hx' : x ≠ c := fun h => hx h.symm
      cases hk : (w.components c).pendingKill <;>
        simp [notifyConsumer, hk, hx, Function.update_noteq hx']

theorem isConnectedConsumer_congr (w w' : World) (this : Nat)
    (hk : ∀ x, (w'.components x).pendingKill = (w.components x).pendingKill)
    (hi : ∀ x, (w'.components x).inputs.any (entryReferencesProducer this)
      = (w.components x).inputs.any (entryReferencesProducer this))
    (d : Option Nat) :
    isConnectedConsumer w' this d = isConnectedConsumer w this d := by
  cases d with
  | none => rfl
  | some c => simp only [isConnectedConsumer, hk c, hi c]

theorem isConnectedConsumer_notifyConsumer (this : Nat) (w : World) (d d' : Option Nat) :
    isConnectedConsumer (notifyConsumer this w d).1 this d' = isConnectedConsumer w this d' := by
  apply isConnectedConsumer_congr
  · intro x
    rw [notifyConsumer_components]
    split_ifs
    · exact notified_pendingKill this _
    · rfl
  · intro x
    rw [notifyConsumer_components]
    split_ifs
    · exact notified_any_references this _
    · rfl

theorem notifyDownstream_toDelete (this : Nat) (ds : List (Option Nat)) (w : World)
    (del : List (Option Nat)) :
    (notifyDownstream this ds (w, del)).2
      = del ++ ds.filter (fun d => !isConnectedConsumer w this d) := by
  induction ds generalizing w del with
  | nil => simp [notifyDownstream]
  | cons d tl ih =>
    simp only [notifyDownstream]
    rw [ih, notifyConsumer_flag]
    simp only [isConnectedConsumer_notifyConsumer]
    cases hconn : isConnectedConsumer w this d <;> simp [List.filter_cons, hconn]

theorem notifyDownstream_components (this : Nat) (ds : List (Option Nat)) (w : World)
    (del : List (Option Nat)) (x : Nat) :
    (notifyDownstream this ds (w, del)).1.components x
      = if some x ∈ ds then notified this (w.components x) else w.components x := by
  induction ds generalizing w del with
  | nil => simp [notifyDownstream]
  | cons d tl ih =>
    simp only [notifyDownstream]
    rw [ih, notifyConsumer_components]
    by_cases hd : d = some x
    · subst hd
      simp [notified_idem]
    · have hd' : ¬ some x = d := fun h => hd h.symm
      simp [hd, hd']

theorem removeDownstream_eq (del ds : List (Option Nat)) :
    removeDownstream del ds = ds.filter (fun d => decide (d ∉ del)) := by
  induction del generalizing ds with
  | nil => simp [removeDownstream]
  | cons t rest ih =>
    simp only [removeDownstream]
    rw [ih, List.filter_filter]
    congr 1
    funext d
    by_cases h1 : d = t <;> by_cases h2 : d ∈ rest <;> simp [h1, h2]

theorem remaining_eq (w : World) (this : Nat) (ds : List (Option Nat)) :
    removeDownstream (notifyDownstream this ds (w, [])).2 ds
      = ds.filter (isConnectedConsumer w this) := by
  rw [notifyDownstream_toDelete, removeDownstream_eq]
  apply List.filter_congr
  intro d hd
  cases hconn : isConnectedConsumer w this d <;> simp [List.mem_filter, hd, hconn]

theorem notifyCooked_components (w : World) (this x : Nat) :
    (NotifyCookedToDownstreamAssets w this).1.components x = afterNotify w this x := by
  have hds : ((notifyDownstream this (w.components this).downstreamHoudiniAssets
      (w, [])).1.components this).downstreamHoudiniAssets
        = (w.components this).downstreamHoudiniAssets := by
    rw [notifyDownstream_components]
    split_ifs
    · exact notified_downstream this _
    · rfl
  simp only [NotifyCookedToDownstreamAssets, afterNotify]
  rw [hds, remaining_eq]
  by_cases hx : x = this
  · subst hx
    simp [notifyDownstream_components]
  · simp [Function.update_noteq hx, hx, notifyDownstream_components]

theorem isConnectedConsumer_iff (w : World) (this : Nat) (d : Option Nat) :
    isConnectedConsumer w this d = true ↔
      ∃ c, d = some c ∧ (w.components c).pendingKill = false
        ∧ ∃ i : UHoudiniInput, some i ∈ (w.components c).inputs ∧ i.pendingKill = false
            ∧ i.inputType = EHoudiniInputType.Asset
            ∧ i.ContainsInputObject this EHoudiniInputType.Asset = true := by
  cases d with
  | none => simp [isConnectedConsumer]
  | some c =>
    simp only [isConnectedConsumer, Bool.and_eq_true, Bool.not_eq_true', List.any_eq_true,
      Option.some.injEq, exists_eq_left']
    constructor
    · rintro ⟨hk, o, ho, href⟩
      cases o with
      | none => simp [entryReferencesProducer] at href
      | some i =>
        simp only [entryReferencesProducer, referencesProducer, Bool.and_eq_true,
          Bool.not_eq_true', decide_eq_true_eq] at href
        exact ⟨hk, i, ho, href.1.1, href.1.2, href.2⟩
    · rintro ⟨hk, i, hi, hik, hty, href⟩
      refine ⟨hk, some i, hi, ?_⟩
      simp [entryReferencesProducer, referencesProducer, hik, hty, href]

theorem afterNotify_inputs (w : World) (this x : Nat) :
    (afterNotify w this x).inputs
      = if some x ∈ (w.components this).downstreamHoudiniAssets then
          (notified this (w.components x)).inputs
        else (w.components x).inputs := by
  unfold afterNotify
  by_cases hm : some x ∈ (w.components this).downstreamHoudiniAssets <;>
    simp only [hm, if_true, if_false] <;> split_ifs <;> rfl

theorem afterNotify_pendingKill (w : World) (this x : Nat) :
    (afterNotify w this x).pendingKill = (w.components x).pendingKill := by
  unfold afterNotify
  by_cases hm : some x ∈ (w.components this).downstreamHoudiniAssets <;>
    simp only [hm, if_true, if_false] <;> split_ifs <;> simp [notified_pendingKill]

theorem afterNotify_guards (w : World) (this x : Nat) :
    (afterNotify w this x).hasValidAsset = (w.components x).hasValidAsset
    ∧ (afterNotify w this x).bCookOnParameterChange = (w.components x).bCookOnParameterChange
    ∧ (afterNotify w this x).bRecookRequested = (w.components x).bRecookRequested
    ∧ (afterNotify w this x).bRebuildRequested = (w.components x).bRebuildRequested := by
  unfold afterNotify notified hasValidAsset
  by_cases hm : some x ∈ (w.components this).downstreamHoudiniAssets <;>
    simp only [hm, if_true, if_false] <;> split_ifs <;> simp

theorem afterNotify_downstream (w : World) (this : Nat) :
    (afterNotify w this this).downstreamHoudiniAssets
      = (w.components this).downstreamHoudiniAssets.filter (isConnectedConsumer w this) := by
  simp [afterNotify]

theorem downstream_after_notifyCooked (w : World) (this : Nat) :
    ((NotifyCookedToDownstreamAssets w this).1.components this).downstreamHoudiniAssets
        = (w.components this).downstreamHoudiniAssets.filter (isConnectedConsumer w this) := by
  rw [notifyCooked_components, afterNotify_downstream]

/-- C6: after `NotifyCookedToDownstreamAssets` on a producer, its downstream
set is its previous downstream set restricted to the connected consumers: the
entries that are not null, not pending kill and own at least one live
Asset-type Input that references the producer. Every other entry is removed
and no entry is added. -/
theorem notifyCooked_downstream_pruned (w : World) (this : Nat) :
    ((NotifyCookedToDownstreamAssets w this).1.components this).downstreamHoudiniAssets
        = (w.components this).downstreamHoudiniAssets.filter (isConnectedConsumer w this)
    ∧ ∀ d : Option Nat,
        d ∈ ((NotifyCookedToDownstreamAssets w this).1.components this).downstreamHoudiniAssets ↔
          d ∈ (w.components this).downstreamHoudiniAssets
          ∧ ∃ c, d = some c ∧ (w.components c).pendingKill = false
            ∧ ∃ i : UHoudiniInput, some i ∈ (w.components c).inputs ∧ i.pendingKill = false
                ∧ i.inputType = EHoudiniInputType.Asset
                ∧ i.ContainsInputObject this EHoudiniInputType.Asset = true := by
  have hlist := downstream_after_notifyCooked w this
  refine ⟨hlist, ?_⟩
  intro d
  rw [hlist, List.mem_filter, isConnectedConsumer_iff]

/-- C7, as stated, fails: consumer 1 is in the downstream set of producer 0
and owns a live Asset-type Input that references it, but it has
cook-on-upstream-cook disabled; after the notification that Input is still
clean and the consumer's `NeedUpdate` returns false. -/
theorem notifyCooked_optOut_consumer_not_dirtied :
    some 1 ∈ (notifyWorld.components 0).downstreamHoudiniAssets
    ∧ (notifyWorld.components 1).inputs[0]? = some (some inputFromProducer)
    ∧ inputFromProducer.inputType = EHoudiniInputType.Asset
    ∧ inputFromProducer.ContainsInputObject 0 EHoudiniInputType.Asset = true
    ∧ ((NotifyCookedToDownstreamAssets notifyWorld 0).1.components 1).inputs[0]?
        = some (some inputFromProducer)
    ∧ inputFromProducer.bHasChanged = false
    ∧ NeedUpdate ((NotifyCookedToDownstreamAssets notifyWorld 0).1.components 1) = false := by
  decide

theorem afterNotify_input_at (w : World) (this c k : Nat) (i : UHoudiniInput)
    (hk : (w.components c).inputs[k]? = some (some i)) :
    (afterNotify w this c).inputs[k]?
      = if some c ∈ (w.components this).downstreamHoudiniAssets
            ∧ (w.components c).pendingKill = false
            ∧ (w.components c).bCookOnAssetInputCook = true
            ∧ i.pendingKill = false ∧ i.inputType = EHoudiniInputType.Asset
            ∧ i.ContainsInputObject this EHoudiniInputType.Asset = true then
          some (some (i.MarkChanged true))
        else some (some i) := by
  rw [afterNotify_inputs]
  by_cases hm : some c ∈ (w.components this).downstreamHoudiniAssets
  · cases hpk : (w.components c).pendingKill
    · cases hcook : (w.components c).bCookOnAssetInputCook <;>
        cases hik : i.pendingKill <;>
        by_cases hty : i.inputType = EHoudiniInputType.Asset <;>
        cases href : i.ContainsInputObject this EHoudiniInputType.Asset <;>
        simp [hm, notified, hpk, hcook, List.getElem?_map, hk, notifyInput,
          referencesProducer, hik, hty, href]
    · simp [hm, notified, hpk, hk]
  · simp [hm, hk]

/-- C7, as amended: when consumer `b` is in the downstream set of producer
`a`, is not pending kill, has cook-on-upstream-cook enabled, has a live asset
definition and at least one of cook-on-parameter-change, recook requested and
rebuild requested set, and its `k`-th Input is a live Asset-type Input that
references `a`, then after `NotifyCookedToDownstreamAssets` on `a` that Input
is changed and triggering and `NeedUpdate` of `b` returns true. -/
theorem notifyCooked_dirties_cooking_consumer (w : World) (a b k : Nat) (i : UHoudiniInput)
    (hdown : some b ∈ (w.components a).downstreamHoudiniAssets)
    (hlive : (w.components b).pendingKill = false)
    (hcook : (w.components b).bCookOnAssetInputCook = true)
    (hasset : (w.components b).hasValidAsset = true)
    (hflags : (w.components b).bCookOnParameterChange = true
      ∨ (w.components b).bRecookRequested = true ∨ (w.components b).bRebuildRequested = true)
    (hk : (w.components b).inputs[k]? = some (some i))
    (hik : i.pendingKill = false) (hty : i.inputType = EHoudiniInputType.Asset)
    (href : i.ContainsInputObject a EHoudiniInputType.Asset = true) :
    ∃ j : UHoudiniInput,
      ((NotifyCookedToDownstreamAssets w a).1.components b).inputs[k]? = some (some j)
      ∧ j.bHasChanged = true ∧ j.bNeedsToTriggerUpdate = true
      ∧ NeedUpdate ((NotifyCookedToDownstreamAssets w a).1.components b) = true := by
  have hat : ((NotifyCookedToDownstreamAssets w a).1.components b).inputs[k]?
      = some (some (i.MarkChanged true)) := by
    rw [notifyCooked_components, afterNotify_input_at w a b k i hk,
      if_pos ⟨hdown, hlive, hcook, hik, hty, href⟩]
  refine ⟨i.MarkChanged true, hat, rfl, rfl, ?_⟩
  rw [needUpdate_iff]
  rw [notifyCooked_components] at hat ⊢
  obtain ⟨h1, h2, h3, h4⟩ := afterNotify_guards w a b
  refine ⟨by rw [h1]; exact hasset, by rw [h2, h3, h4]; exact hflags, ?_⟩
  exact Or.inr (Or.inr (Or.inl ⟨i.MarkChanged true, List.getElem?_mem hat, hik, rfl, rfl⟩))

/-- Witness of C7 as amended: consumer 2 of the producer at address 0. -/
theorem notifyCooked_dirties_cooking_consumer_witness :
    ∃ j : UHoudiniInput,
      ((NotifyCookedToDownstreamAssets notifyWorld 0).1.components 2).inputs[0]? = some (some j)
      ∧ j.bHasChanged = true ∧ j.bNeedsToTriggerUpdate = true
      ∧ NeedUpdate ((NotifyCookedToDownstreamAssets notifyWorld 0).1.components 2) = true :=
  notifyCooked_dirties_cooking_consumer notifyWorld 0 2 0 inputFromProducer
    (by decide) (by decide) (by decide) (by decide) (Or.inl (by decide)) (by decide)
    (by decide) (by decide) (by decide)

/-- C8: `NotifyCookedToDownstreamAssets` on a producer leaves in place of the
`k`-th Input of a component that Input marked changed when the component is
in the downstream set and not pending kill, has cook-on-upstream-cook enabled,
and the Input is live, of type Asset and references the producer; in every
other case the Input is left exactly as it was. A live downstream consumer
with the option disabled keeps all its Inputs, and stays in the downstream
set when one of its live Asset-type Inputs references the producer. -/
theorem notifyCooked_marks_exactly (w : World) (this c : Nat) :
    (∀ (k : Nat) (i : UHoudiniInput), (w.components c).inputs[k]? = some (some i) →
      ((some c ∈ (w.components this).downstreamHoudiniAssets
            ∧ (w.components c).pendingKill = false
            ∧ (w.components c).bCookOnAssetInputCook = true
            ∧ i.pendingKill = false ∧ i.inputType = EHoudiniInputType.Asset
            ∧ i.ContainsInputObject this EHoudiniInputType.Asset = true) →
          ((NotifyCookedToDownstreamAssets w this).1.components c).inputs[k]?
            = some (some (i.MarkChanged true)))
      ∧ (¬ (some c ∈ (w.components this).downstreamHoudiniAssets
            ∧ (w.components c).pendingKill = false
            ∧ (w.components c).bCookOnAssetInputCook = true
            ∧ i.pendingKill = false ∧ i.inputType = EHoudiniInputType.Asset
            ∧ i.ContainsInputObject this EHoudiniInputType.Asset = true) →
          ((NotifyCookedToDownstreamAssets w this).1.components c).inputs[k]?
            = some (some i)))
    ∧ (some c ∈ (w.components this).downstreamHoudiniAssets →
        (w.components c).pendingKill = false →
        (w.components c).bCookOnAssetInputCook = false →
          ((NotifyCookedToDownstreamAssets w this).1.components c).inputs
              = (w.components c).inputs
          ∧ ((∃ i : UHoudiniInput, some i ∈ (w.components c).inputs ∧ i.pendingKill = false
                ∧ i.inputType = EHoudiniInputType.Asset
                ∧ i.ContainsInputObject this EHoudiniInputType.Asset = true) →
              some c ∈ ((NotifyCookedToDownstreamAssets w this).1.components
                this).downstreamHoudiniAssets)) := by
  refine ⟨?_, ?_⟩
  · intro k i hk
    rw [notifyCooked_components, afterNotify_input_at w this c k i hk]
    exact ⟨fun h => by rw [if_pos h], fun h => by rw [if_neg h]⟩
  · intro hdown hlive hcook
    refine ⟨?_, ?_⟩
    · rw [notifyCooked_components, afterNotify_inputs, if_pos hdown]
      unfold notified
      rw [hlive, hcook]
      simp only [Bool.false_eq_true, if_false]
      have hid : ∀ o : Option UHoudiniInput, notifyInput this false o = o := by
        intro o
        cases o <;> simp [notifyInput]
      rw [List.map_congr_left (fun o _ => hid o), List.map_id']
    · intro href
      rw [(downstream_after_notifyCooked w this), List.mem_filter, isConnectedConsumer_iff]
      exact ⟨hdown, c, rfl, hlive, href⟩

/-- Witness of C8: Input 0 of consumer 2 is marked, its Geometry Input is
kept, and consumer 1, which has the option disabled, keeps its Inputs and its
place in the downstream set. -/
theorem notifyCooked_marks_exactly_witness :
    ((NotifyCookedToDownstreamAssets notifyWorld 0).1.components 2).inputs[0]?
        = some (some (inputFromProducer.MarkChanged true))
    ∧ ((NotifyCookedToDownstreamAssets notifyWorld 0).1.components 2).inputs[1]?
        = some (some ({} : UHoudiniInput))
    ∧ ((NotifyCookedToDownstreamAssets notifyWorld 0).1.components 1).inputs
        = (notifyWorld.components 1).inputs
    ∧ some 1 ∈ ((NotifyCookedToDownstreamAssets notifyWorld 0).1.components
        0).downstreamHoudiniAssets :=
  ⟨((notifyCooked_marks_exactly notifyWorld 0 2).1 0 inputFromProducer (by decide)).1
      (by decide),
   ((notifyCooked_marks_exactly notifyWorld 0 2).1 1 {} (by decide)).2 (by decide),
   ((notifyCooked_marks_exactly notifyWorld 0 1).2 (by decide) (by decide) (by decide)).1,
   ((notifyCooked_marks_exactly notifyWorld 0 1).2 (by decide) (by decide) (by decide)).2
      ⟨inputFromProducer, by decide, by decide, by decide, by decide⟩⟩

theorem notified_with_downstream (this : Nat) (c : UHoudiniAssetComponent)
    (l : List (Option Nat)) :
    notified this { c with downstreamHoudiniAssets := l }
      = { notified this c with downstreamHoudiniAssets := l } := by
  unfold notified
  split_ifs <;> rfl

theorem notified_afterNotify (w : World) (this x : Nat)
    (hm : some x ∈ (w.components this).downstreamHoudiniAssets) :
    notified this (afterNotify w this x) = afterNotify w this x := by
  unfold afterNotify
  simp only [hm, if_true]
  split_ifs
  · rw [notified_with_downstream, notified_idem]
  · exact notified_idem this _

theorem isConnectedConsumer_afterNotify (w w' : World) (this : Nat)
    (h : ∀ y, w'.components y = afterNotify w this y) (d : Option Nat) :
    isConnectedConsumer w' this d = isConnectedConsumer w this d := by
  apply isConnectedConsumer_congr
  · intro x
    rw [h x, afterNotify_pendingKill]
  · intro x
    rw [h x, afterNotify_inputs]
    split_ifs
    · exact notified_any_references this _
    · rfl

theorem afterNotify_fixed (w w' : World) (this : Nat)
    (h : ∀ y, w'.components y = afterNotify w this y) (x : Nat) :
    afterNotify w' this x = w'.components x := by
  have hds : (w'.components this).downstreamHoudiniAssets
      = (w.components this).downstreamHoudiniAssets.filter (isConnectedConsumer w this) := by
    rw [h this, afterNotify_downstream]
  have hconn : isConnectedConsumer w' this = isConnectedConsumer w this :=
    funext (isConnectedConsumer_afterNotify w w' this h)
  have hbase : (if some x ∈ (w'.components this).downstreamHoudiniAssets then
        notified this (w'.components x) else w'.components x) = w'.components x := by
    split_ifs with hm
    · rw [hds] at hm
      rw [h x]
      exact notified_afterNotify w this x (List.mem_filter.1 hm).1
    · rfl
  unfold afterNotify
  simp only [hbase]
  split_ifs with hx
  · subst hx
    rw [hconn, hds, List.filter_filter]
    simp only [Bool.and_self]
    rw [← hds]
  · rfl

/-- C10: `NotifyCookedToDownstreamAssets` is idempotent: it returns success,
and a second call right after a first one returns success and leaves the whole
store, so the producer's downstream set and every Input of every consumer, as
the first call left it. -/
theorem notifyCooked_idempotent (w : World) (this : Nat) :
    (NotifyCookedToDownstreamAssets w this).2 = true
    ∧ NotifyCookedToDownstreamAssets (NotifyCookedToDownstreamAssets w this).1 this
        = ((NotifyCookedToDownstreamAssets w this).1, true) := by
  refine ⟨rfl, Prod.ext ?_ rfl⟩
  have hfun : (NotifyCookedToDownstreamAssets (NotifyCookedToDownstreamAssets w this).1
      this).1.components = (NotifyCookedToDownstreamAssets w this).1.components := by
    funext x
    rw [notifyCooked_components]
    exact afterNotify_fixed w _ this (fun y => notifyCooked_components w this y) x
  cases hw2 : (NotifyCookedToDownstreamAssets (NotifyCookedToDownstreamAssets w this).1 this).1
  cases hw1 : (NotifyCookedToDownstreamAssets w this).1
  rw [hw2, hw1] at hfun
  simp only at hfun
  simp [hfun]

/-! ## Properties of the lifecycle marks -/

theorem markParametersNeedInstantiation_eq_map (l : List (Option UHoudiniParameter)) :
    markParametersNeedInstantiation l
      = l.map (Option.map (fun p => (p.MarkChanged true).SetNeedsToTriggerUpdate false)) := by
  induction l with
  | nil => rfl
  | cons hd tl ih => cases hd <;> simp [markParametersNeedInstantiation, ih]

theorem markInputsNeedInstantiation_eq_map (l : List (Option UHoudiniInput)) :
    markInputsNeedInstantiation l
      = l.map (Option.map (fun i =>
          ((i.MarkChanged true).SetNeedsToTriggerUpdate false).MarkDataUploadNeeded true)) := by
  induction l with
  | nil => rfl
  | cons hd tl ih => cases hd <;> simp [markInputsNeedInstantiation, ih]

/-- C11: after `MarkAsNeedInstantiation` the node handle is -1, the operation
result is `None`, the cook count is 0, `bHasBeenLoaded` is true,
`bPendingDelete`, `bRecookRequested`, `bRebuildRequested` and `bFullyLoaded`
are false, and every non-null Parameter and Input, at the position it had
before, has changed and does not trigger an update; null entries stay null. -/
theorem markAsNeedInstantiation_resets (s : UHoudiniAssetComponent) :
    (MarkAsNeedInstantiation s).assetId = -1
    ∧ (MarkAsNeedInstantiation s).assetStateResult = EHoudiniAssetStateResult.None
    ∧ (MarkAsNeedInstantiation s).assetCookCount = 0
    ∧ (MarkAsNeedInstantiation s).bHasBeenLoaded = true
    ∧ (MarkAsNeedInstantiation s).bPendingDelete = false
    ∧ (MarkAsNeedInstantiation s).bRecookRequested = false
    ∧ (MarkAsNeedInstantiation s).bRebuildRequested = false
    ∧ (MarkAsNeedInstantiation s).bFullyLoaded = false
    ∧ (∀ p : UHoudiniParameter, some p ∈ (MarkAsNeedInstantiation s).parameters →
        p.bHasChanged = true ∧ p.bNeedsToTriggerUpdate = false)
    ∧ (∀ i : UHoudiniInput, some i ∈ (MarkAsNeedInstantiation s).inputs →
        i.bHasChanged = true ∧ i.bNeedsToTriggerUpdate = false)
    ∧ (∀ k : Nat, (MarkAsNeedInstantiation s).parameters[k]?
        = (s.parameters[k]?).map (Option.map (fun p =>
            { p with bHasChanged := true, bNeedsToTriggerUpdate := false })))
    ∧ (∀ k : Nat, (MarkAsNeedInstantiation s).inputs[k]?
        = (s.inputs[k]?).map (Option.map (fun i =>
            { i with bHasChanged := true, bNeedsToTriggerUpdate := false,
                     bDataUploadNeeded := true }))) := by
  rw [markAsNeedInstantiation_eq]
  refine ⟨rfl, rfl, rfl, rfl, rfl, rfl, rfl, rfl, ?_, ?_, ?_, ?_⟩
  · intro p hp
    simp only [markParametersNeedInstantiation_eq_map, List.mem_map] at hp
    obtain ⟨o, _, ho⟩ := hp
    cases o with
    | none => simp at ho
    | some q =>
      simp only [Option.map_some', Option.some.injEq] at ho
      subst ho
      exact ⟨rfl, rfl⟩
  · intro i hi
    simp only [markInputsNeedInstantiation_eq_map, List.mem_map] at hi
    obtain ⟨o, _, ho⟩ := hi
    cases o with
    | none => simp at ho
    | some q =>
      simp only [Option.map_some', Option.some.injEq] at ho
      subst ho
      exact ⟨rfl, rfl⟩
  · intro k
    simp only [markParametersNeedInstantiation_eq_map, List.getElem?_map]
    rfl
  · intro k
    simp only [markInputsNeedInstantiation_eq_map, List.getElem?_map]
    rfl

theorem markParametersNeedCook_of_no_null (l : List (Option UHoudiniParameter))
    (h : ∀ o ∈ l, o ≠ none) :
    markParametersNeedCook l
      = some (l.map (Option.map (fun p =>
          (p.MarkChanged true).SetNeedsToTriggerUpdate true))) := by
  induction l with
  | nil => rfl
  | cons hd tl ih =>
    cases hd with
    | none => exact absurd rfl (h none (List.mem_cons_self _ _))
    | some q =>
      simp [markParametersNeedCook, ih (fun o ho => h o (List.mem_cons_of_mem _ ho))]

theorem markInputsNeedCook_of_no_null (l : List (Option UHoudiniInput))
    (h : ∀ o ∈ l, o ≠ none) :
    markInputsNeedCook l
      = some (l.map (Option.map (fun i =>
          ((i.MarkChanged true).SetNeedsToTriggerUpdate true).MarkDataUploadNeeded true))) := by
  induction l with
  | nil => rfl
  | cons hd tl ih =>
    cases hd with
    | none => exact absurd rfl (h none (List.mem_cons_self _ _))
    | some q =>
      simp [markInputsNeedCook, ih (fun o ho => h o (List.mem_cons_of_mem _ ho))]

theorem markParametersNeedCook_eq_none_iff (l : List (Option UHoudiniParameter)) :
    markParametersNeedCook l = none ↔ none ∈ l := by
  induction l with
  | nil => simp [markParametersNeedCook]
  | cons hd tl ih =>
    cases hd with
    | none => simp [markParametersNeedCook]
    | some q =>
      cases hrest : markParametersNeedCook tl <;> simp_all [markParametersNeedCook]

theorem markInputsNeedCook_eq_none_iff (l : List (Option UHoudiniInput)) :
    markInputsNeedCook l = none ↔ none ∈ l := by
  induction l with
  | nil => simp [markInputsNeedCook]
  | cons hd tl ih =>
    cases hd with
    | none => simp [markInputsNeedCook]
    | some q =>
      cases hrest : markInputsNeedCook tl <;> simp_all [markInputsNeedCook]

/-- The outcome of `MarkAsNeedCook` on a component without null entries,
written as one record update. -/
theorem markAsNeedCook_eq (s : UHoudiniAssetComponent)
    (hp : ∀ o ∈ s.parameters, o ≠ none) (hi : ∀ o ∈ s.inputs, o ≠ none) :
    MarkAsNeedCook s = some
      { s with
        bHasBeenLoaded := true
        bPendingDelete := false
        bRecookRequested := true
        bRebuildRequested := false
        parameters := s.parameters.map (Option.map (fun p =>
          (p.MarkChanged true).SetNeedsToTriggerUpdate true))
        inputs := s.inputs.map (Option.map (fun i =>
          ((i.MarkChanged true).SetNeedsToTriggerUpdate true).MarkDataUploadNeeded true))
        refineMeshesTimerActive := !s.hasWorld && s.refineMeshesTimerActive } := by
  unfold MarkAsNeedCook ClearRefineMeshesTimer
  simp only [markParametersNeedCook_of_no_null s.parameters hp,
    markInputsNeedCook_of_no_null s.inputs hi]
  cases hw : s.hasWorld <;> simp [hw]

/-- The outcome of `MarkAsNeedRebuild` on a component without null entries,
written as one record update. -/
theorem markAsNeedRebuild_eq (s : UHoudiniAssetComponent)
    (hp : ∀ o ∈ s.parameters, o ≠ none) (hi : ∀ o ∈ s.inputs, o ≠ none) :
    MarkAsNeedRebuild s = some
      { s with
        assetState := EHoudiniAssetState.NeedRebuild
        assetStateResult := EHoudiniAssetStateResult.None
        bHasBeenLoaded := true
        bPendingDelete := false
        bRecookRequested := false
        bRebuildRequested := true
        bFullyLoaded := false
        parameters := s.parameters.map (Option.map (fun p =>
          (p.MarkChanged true).SetNeedsToTriggerUpdate true))
        inputs := s.inputs.map (Option.map (fun i =>
          ((i.MarkChanged true).SetNeedsToTriggerUpdate true).MarkDataUploadNeeded true))
        refineMeshesTimerActive := !s.hasWorld && s.refineMeshesTimerActive } := by
  unfold MarkAsNeedRebuild ClearRefineMeshesTimer
  simp only [markParametersNeedCook_of_no_null s.parameters hp,
    markInputsNeedCook_of_no_null s.inputs hi]
  cases hw : s.hasWorld <;> simp [hw]

/-- C12: on a component whose Parameter and Input sequences hold no null
pointer, `MarkAsNeedCook` completes and leaves the lifecycle state, the
operation result, the cook count, the node handle and `bFullyLoaded`
unchanged, sets `bHasBeenLoaded`, clears `bPendingDelete`, sets
`bRecookRequested`, clears `bRebuildRequested`, and leaves every Parameter
changed and triggering and every Input changed, triggering and needing a data
upload, each at the position it had. -/
theorem markAsNeedCook_effect (s : UHoudiniAssetComponent)
    (hp : ∀ o ∈ s.parameters, o ≠ none) (hi : ∀ o ∈ s.inputs, o ≠ none) :
    ∃ s' : UHoudiniAssetComponent, MarkAsNeedCook s = some s'
      ∧ s'.assetState = s.assetState
      ∧ s'.assetStateResult = s.assetStateResult
      ∧ s'.assetCookCount = s.assetCookCount
      ∧ s'.assetId = s.assetId
      ∧ s'.bFullyLoaded = s.bFullyLoaded
      ∧ s'.bHasBeenLoaded = true
      ∧ s'.bPendingDelete = false
      ∧ s'.bRecookRequested = true
      ∧ s'.bRebuildRequested = false
      ∧ (∀ k : Nat, s'.parameters[k]?
          = (s.parameters[k]?).map (Option.map (fun p =>
              { p with bHasChanged := true, bNeedsToTriggerUpdate := true })))
      ∧ (∀ k : Nat, s'.inputs[k]?
          = (s.inputs[k]?).map (Option.map (fun i =>
              { i with bHasChanged := true, bNeedsToTriggerUpdate := true,
                       bDataUploadNeeded := true }))) := by
  refine ⟨_, markAsNeedCook_eq s hp hi, rfl, rfl, rfl, rfl, rfl, rfl, rfl, rfl, rfl, ?_, ?_⟩
  · intro k
    simp only [List.getElem?_map]
    rfl
  · intro k
    simp only [List.getElem?_map]
    rfl

/-- Witness of C12 on a component that was up to date, with cooking on
parameter change disabled. -/
theorem markAsNeedCook_effect_witness :
    ∃ s' : UHoudiniAssetComponent, MarkAsNeedCook readyToCook = some s'
      ∧ s'.assetState = readyToCook.assetState
      ∧ s'.assetStateResult = readyToCook.assetStateResult
      ∧ s'.assetCookCount = readyToCook.assetCookCount
      ∧ s'.assetId = readyToCook.assetId
      ∧ s'.bFullyLoaded = readyToCook.bFullyLoaded
      ∧ s'.bHasBeenLoaded = true
      ∧ s'.bPendingDelete = false
      ∧ s'.bRecookRequested = true
      ∧ s'.bRebuildRequested = false
      ∧ (∀ k : Nat, s'.parameters[k]?
          = (readyToCook.parameters[k]?).map (Option.map (fun p =>
              { p with bHasChanged := true, bNeedsToTriggerUpdate := true })))
      ∧ (∀ k : Nat, s'.inputs[k]?
          = (readyToCook.inputs[k]?).map (Option.map (fun i =>
              { i with bHasChanged := true, bNeedsToTriggerUpdate := true,
                       bDataUploadNeeded := true }))) :=
  markAsNeedCook_effect readyToCook (by decide) (by decide)

/-- C13: on a component whose Parameter and Input sequences hold no null
pointer, `MarkAsNeedRebuild` completes with the lifecycle state `NeedRebuild`,
the operation result `None`, `bHasBeenLoaded` set, `bPendingDelete` cleared,
`bRebuildRequested` set, `bRecookRequested` and `bFullyLoaded` cleared, every
Parameter changed and triggering and every Input changed, triggering and
needing a data upload; the node handle and the cook count are unchanged. -/
theorem markAsNeedRebuild_effect (s : UHoudiniAssetComponent)
    (hp : ∀ o ∈ s.parameters, o ≠ none) (hi : ∀ o ∈ s.inputs, o ≠ none) :
    ∃ s' : UHoudiniAssetComponent, MarkAsNeedRebuild s = some s'
      ∧ s'.assetState = EHoudiniAssetState.NeedRebuild
      ∧ s'.assetStateResult = EHoudiniAssetStateResult.None
      ∧ s'.bHasBeenLoaded = true
      ∧ s'.bPendingDelete = false
      ∧ s'.bRebuildRequested = true
      ∧ s'.bRecookRequested = false
      ∧ s'.bFullyLoaded = false
      ∧ s'.assetId = s.assetId
      ∧ s'.assetCookCount = s.assetCookCount
      ∧ (∀ k : Nat, s'.parameters[k]?
          = (s.parameters[k]?).map (Option.map (fun p =>
              { p with bHasChanged := true, bNeedsToTriggerUpdate := true })))
      ∧ (∀ k : Nat, s'.inputs[k]?
          = (s.inputs[k]?).map (Option.map (fun i =>
              { i with bHasChanged := true, bNeedsToTriggerUpdate := true,
                       bDataUploadNeeded := true }))) := by
  refine ⟨_, markAsNeedRebuild_eq s hp hi, rfl, rfl, rfl, rfl, rfl, rfl, rfl, rfl, rfl, ?_, ?_⟩
  · intro k
    simp only [List.getElem?_map]
    rfl
  · intro k
    simp only [List.getElem?_map]
    rfl

/-- Witness of C13 on a component that was up to date. -/
theorem markAsNeedRebuild_effect_witness :
    ∃ s' : UHoudiniAssetComponent, MarkAsNeedRebuild readyToCook = some s'
      ∧ s'.assetState = EHoudiniAssetState.NeedRebuild
      ∧ s'.assetStateResult = EHoudiniAssetStateResult.None
      ∧ s'.bHasBeenLoaded = true
      ∧ s'.bPendingDelete = false
      ∧ s'.bRebuildRequested = true
      ∧ s'.bRecookRequested = false
      ∧ s'.bFullyLoaded = false
      ∧ s'.assetId = readyToCook.assetId
      ∧ s'.assetCookCount = readyToCook.assetCookCount
      ∧ (∀ k : Nat, s'.parameters[k]?
          = (readyToCook.parameters[k]?).map (Option.map (fun p =>
              { p with bHasChanged := true, bNeedsToTriggerUpdate := true })))
      ∧ (∀ k : Nat, s'.inputs[k]?
          = (readyToCook.inputs[k]?).map (Option.map (fun i =>
              { i with bHasChanged := true, bNeedsToTriggerUpdate := true,
                       bDataUploadNeeded := true }))) :=
  markAsNeedRebuild_effect readyToCook (by decide) (by decide)

/-- C14, evaluated on a Parameter sequence with a null entry:
`MarkAsNeedInstantiation` skips the null entry and marks the live Parameter,
while `MarkAsNeedCook` and `MarkAsNeedRebuild` dereference the null entry and
have no outcome. -/
theorem markAsNeedCook_null_entry_no_outcome :
    (MarkAsNeedInstantiation withNullParameter).parameters
        = [some { parameterName := "height", bHasChanged := true }, none]
    ∧ MarkAsNeedCook withNullParameter = none
    ∧ MarkAsNeedRebuild withNullParameter = none := by
  decide

theorem markAsNeedCook_eq_none_iff (s : UHoudiniAssetComponent) :
    MarkAsNeedCook s = none ↔ none ∈ s.parameters ∨ none ∈ s.inputs := by
  constructor
  · intro h
    by_contra hno
    rw [not_or] at hno
    rw [markAsNeedCook_eq s (fun o ho hnone => hno.1 (hnone ▸ ho))
      (fun o ho hnone => hno.2 (hnone ▸ ho))] at h
    cases h
  · rintro (h | h)
    · have hloop := (markParametersNeedCook_eq_none_iff _).2 h
      simp [MarkAsNeedCook, hloop]
    · have hloop := (markInputsNeedCook_eq_none_iff _).2 h
      simp only [MarkAsNeedCook, hloop]
      cases markParametersNeedCook s.parameters <;> rfl

theorem markAsNeedRebuild_eq_none_iff (s : UHoudiniAssetComponent) :
    MarkAsNeedRebuild s = none ↔ none ∈ s.parameters ∨ none ∈ s.inputs := by
  constructor
  · intro h
    by_contra hno
    rw [not_or] at hno
    rw [markAsNeedRebuild_eq s (fun o ho hnone => hno.1 (hnone ▸ ho))
      (fun o ho hnone => hno.2 (hnone ▸ ho))] at h
    cases h
  · rintro (h | h)
    · have hloop := (markParametersNeedCook_eq_none_iff _).2 h
      simp [MarkAsNeedRebuild, hloop]
    · have hloop := (markInputsNeedCook_eq_none_iff _).2 h
      simp only [MarkAsNeedRebuild, hloop]
      cases markParametersNeedCook s.parameters <;> rfl

/-! ## Properties of `NeedOutputUpdate` -/

theorem instancedOutputsChanged_iff (l : List (Nat × FHoudiniInstancedOutput)) :
    instancedOutputsChanged l = true ↔ ∃ record ∈ l, record.2.bChanged = true := by
  induction l with
  | nil => simp [instancedOutputsChanged]
  | cons hd tl ih =>
    cases hc : hd.2.bChanged <;> simp [instancedOutputsChanged, hc, ih]

theorem outputsNeedOutputUpdate_iff (l : List (Option UHoudiniOutput)) :
    outputsNeedOutputUpdate l = true ↔
      ∃ o : UHoudiniOutput, some o ∈ l ∧ o.pendingKill = false
        ∧ ((∃ record ∈ o.instancedOutputs, record.2.bChanged = true)
            ∨ o.HasCurveExportTypeChanged = true) := by
  induction l with
  | nil => simp [outputsNeedOutputUpdate]
  | cons hd tl ih =>
    cases hd with
    | none => simp [outputsNeedOutputUpdate, ih]
    | some q =>
      have hinst := instancedOutputsChanged_iff q.instancedOutputs
      by_cases hq : q.pendingKill = false
          ∧ (instancedOutputsChanged q.instancedOutputs = true
              ∨ q.HasCurveExportTypeChanged = true)
      · have hrun : outputsNeedOutputUpdate (some q :: tl) = true := by
          rcases hq with ⟨hk, hc | hc⟩
          · simp [outputsNeedOutputUpdate, hk, hc]
          · simp [outputsNeedOutputUpdate, hk, hc]
        rw [hrun]
        simp only [true_iff]
        exact ⟨q, List.mem_cons_self _ _, hq.1, hq.2.imp hinst.1 id⟩
      · have hrun : outputsNeedOutputUpdate (some q :: tl) = outputsNeedOutputUpdate tl := by
          cases hk : q.pendingKill <;> cases hc : instancedOutputsChanged q.instancedOutputs <;>
            cases he : q.HasCurveExportTypeChanged <;>
            simp_all [outputsNeedOutputUpdate]
        rw [hrun, ih]
        constructor
        · rintro ⟨o, ho, h⟩
          exact ⟨o, List.mem_cons_of_mem _ ho, h⟩
        · rintro ⟨o, ho, h1, h2⟩
          rcases List.mem_cons.1 ho with heq | ho
          · cases heq
            exact absurd ⟨h1, h2.imp hinst.2 id⟩ hq
          · exact ⟨o, ho, h1, h2⟩

/-- C15: `NeedOutputUpdate` returns true exactly when some live Output has an
instanced-output record with `bChanged` set or reports that its curve export
type changed; two components with the same Outputs give the same answer,
whatever their asset binding, cook flags, Parameters and Inputs; and there is
a component on which `NeedOutputUpdate` is true while `NeedUpdate` is false. -/
theorem needOutputUpdate_true_iff_output_signal :
    (∀ s : UHoudiniAssetComponent, NeedOutputUpdate s = true ↔
      ∃ o : UHoudiniOutput, some o ∈ s.outputs ∧ o.pendingKill = false
        ∧ ((∃ record ∈ o.instancedOutputs, record.2.bChanged = true)
            ∨ o.HasCurveExportTypeChanged = true))
    ∧ (∀ s t : UHoudiniAssetComponent, s.outputs = t.outputs →
        NeedOutputUpdate s = NeedOutputUpdate t)
    ∧ (∃ s : UHoudiniAssetComponent, NeedOutputUpdate s = true ∧ NeedUpdate s = false) := by
  refine ⟨fun s => outputsNeedOutputUpdate_iff s.outputs, ?_, ⟨changedInstancer, ?_, ?_⟩⟩
  · intro s t h
    unfold NeedOutputUpdate
    rw [h]
  · decide
  · decide

/-- Witness of C15: a component without asset definition and with a changed
instanced output needs an output update and no cook, and binding an asset or
dirtying a Parameter does not change the output answer. -/
theorem needOutputUpdate_true_iff_output_signal_witness :
    NeedOutputUpdate changedInstancer = true
    ∧ NeedUpdate changedInstancer = false
    ∧ NeedOutputUpdate { changedInstancer with
        houdiniAsset := some {}
        parameters := [some { bHasChanged := true, bNeedsToTriggerUpdate := true }] }
      = NeedOutputUpdate changedInstancer :=
  ⟨(needOutputUpdate_true_iff_output_signal.1 changedInstancer).2
      ⟨_, List.mem_cons_self _ _, rfl, Or.inl ⟨_, List.mem_cons_self _ _, rfl⟩⟩,
   by decide,
   needOutputUpdate_true_iff_output_signal.2.1 _ _ rfl⟩

/-! ## Properties of the entity matching -/

theorem findMatchingLoop_eq_some_iff {α : Type} (pk : α → Bool) (M : α → α → Bool)
    (other : α) (l : List (Option α)) (r : α) :
    findMatchingLoop pk M other l = some r ↔ firstLiveMatch pk M l other r := by
  unfold firstLiveMatch
  induction l with
  | nil => simp [findMatchingLoop]
  | cons hd tl ih =>
    by_cases hhit : ∃ c, hd = some c ∧ pk c = false ∧ M c other = true
    · obtain ⟨c, rfl, hk, hm⟩ := hhit
      have hrun : findMatchingLoop pk M other (some c :: tl) = some c := by
        simp [findMatchingLoop, hk, hm]
      rw [hrun]
      constructor
      · intro h
        cases h
        exact ⟨hk, hm, [], tl, rfl, by simp⟩
      · rintro ⟨_, _, before, after, hsplit, hfirst⟩
        cases before with
        | nil =>
          simp only [List.nil_append, List.cons.injEq] at hsplit
          exact hsplit.1
        | cons b bs =>
          simp only [List.cons_append, List.cons.injEq] at hsplit
          have hfalse := hfirst c (by rw [← hsplit.1]; exact List.mem_cons_self _ _) hk
          rw [hm] at hfalse
          cases hfalse
    · have hrun : findMatchingLoop pk M other (hd :: tl) = findMatchingLoop pk M other tl := by
        cases hd with
        | none => rfl
        | some c =>
          cases hk : pk c <;> cases hm : M c other <;> simp [findMatchingLoop, hk, hm]
          exact (hhit ⟨c, rfl, hk, hm⟩).elim
      rw [hrun, ih]
      constructor
      · rintro ⟨hk, hm, before, after, hsplit, hfirst⟩
        refine ⟨hk, hm, hd :: before, after, by rw [hsplit]; rfl, ?_⟩
        intro q hq hqk
        rcases List.mem_cons.1 hq with heq | hq
        · cases hmq : M q other
          · rfl
          · exact absurd ⟨q, heq.symm, hqk, hmq⟩ hhit
        · exact hfirst q hq hqk
      · rintro ⟨hk, hm, before, after, hsplit, hfirst⟩
        cases before with
        | nil =>
          simp only [List.nil_append, List.cons.injEq] at hsplit
          exact absurd ⟨r, hsplit.1, hk, hm⟩ hhit
        | cons b bs =>
          simp only [List.cons_append, List.cons.injEq] at hsplit
          exact ⟨hk, hm, bs, after, hsplit.2,
            fun q hq hqk => hfirst q (List.mem_cons_of_mem _ hq) hqk⟩

theorem findMatchingLoop_eq_none_iff {α : Type} (pk : α → Bool) (M : α → α → Bool)
    (other : α) (l : List (Option α)) :
    findMatchingLoop pk M other l = none ↔ noLiveMatch pk M l other := by
  unfold noLiveMatch
  induction l with
  | nil => simp [findMatchingLoop]
  | cons hd tl ih =>
    cases hd with
    | none => simp [findMatchingLoop, ih]
    | some c =>
      cases hk : pk c <;> cases hm : M c other <;> simp [findMatchingLoop, hk, hm, ih]

/-- C16: `FindMatchingParameter`, `FindMatchingInput` and `FindMatchingHandle`
return an entity exactly when the candidate is not null and not pending kill
and that entity is the first live entry of the owned sequence, in sequence
order, that matches the candidate; they return null exactly when the candidate
is null or pending kill or no live entry matches it. -/
theorem findMatching_first_live_match (s : UHoudiniAssetComponent)
    (MatchesParameter : UHoudiniParameter → UHoudiniParameter → Bool)
    (MatchesInput : UHoudiniInput → UHoudiniInput → Bool)
    (MatchesHandle : UHoudiniHandleComponent → UHoudiniHandleComponent → Bool) :
    (∀ (candidate : Option UHoudiniParameter) (r : UHoudiniParameter),
      FindMatchingParameter MatchesParameter s candidate = some r ↔
        ∃ other, candidate = some other ∧ other.pendingKill = false
          ∧ firstLiveMatch UHoudiniParameter.pendingKill MatchesParameter s.parameters other r)
    ∧ (∀ candidate : Option UHoudiniParameter,
      FindMatchingParameter MatchesParameter s candidate = none ↔
        candidate = none ∨ ∃ other, candidate = some other
          ∧ (other.pendingKill = true
            ∨ noLiveMatch UHoudiniParameter.pendingKill MatchesParameter s.parameters other))
    ∧ (∀ (candidate : Option UHoudiniInput) (r : UHoudiniInput),
      FindMatchingInput MatchesInput s candidate = some r ↔
        ∃ other, candidate = some other ∧ other.pendingKill = false
          ∧ firstLiveMatch UHoudiniInput.pendingKill MatchesInput s.inputs other r)
    ∧ (∀ candidate : Option UHoudiniInput,
      FindMatchingInput MatchesInput s candidate = none ↔
        candidate = none ∨ ∃ other, candidate = some other
          ∧ (other.pendingKill = true
            ∨ noLiveMatch UHoudiniInput.pendingKill MatchesInput s.inputs other))
    ∧ (∀ (candidate : Option UHoudiniHandleComponent) (r : UHoudiniHandleComponent),
      FindMatchingHandle MatchesHandle s candidate = some r ↔
        ∃ other, candidate = some other ∧ other.pendingKill = false
          ∧ firstLiveMatch UHoudiniHandleComponent.pendingKill MatchesHandle
              s.handleComponents other r)
    ∧ (∀ candidate : Option UHoudiniHandleComponent,
      FindMatchingHandle MatchesHandle s candidate = none ↔
        candidate = none ∨ ∃ other, candidate = some other
          ∧ (other.pendingKill = true
            ∨ noLiveMatch UHoudiniHandleComponent.pendingKill MatchesHandle
                s.handleComponents other)) := by
  refine ⟨?_, ?_, ?_, ?_, ?_, ?_⟩
  · intro candidate r
    cases candidate with
    | none => simp [FindMatchingParameter]
    | some other =>
      cases hk : other.pendingKill <;>
        simp [FindMatchingParameter, hk, findMatchingLoop_eq_some_iff]
  · intro candidate
    cases candidate with
    | none => simp [FindMatchingParameter]
    | some other =>
      cases hk : other.pendingKill <;>
        simp [FindMatchingParameter, hk, findMatchingLoop_eq_none_iff]
  · intro candidate r
    cases candidate with
    | none => simp [FindMatchingInput]
    | some other =>
      cases hk : other.pendingKill <;>
        simp [FindMatchingInput, hk, findMatchingLoop_eq_some_iff]
  · intro candidate
    cases candidate with
    | none => simp [FindMatchingInput]
    | some other =>
      cases hk : other.pendingKill <;>
        simp [FindMatchingInput, hk, findMatchingLoop_eq_none_iff]
  · intro candidate r
    cases candidate with
    | none => simp [FindMatchingHandle]
    | some other =>
      cases hk : other.pendingKill <;>
        simp [FindMatchingHandle, hk, findMatchingLoop_eq_some_iff]
  · intro candidate
    cases candidate with
    | none => simp [FindMatchingHandle]
    | some other =>
      cases hk : other.pendingKill <;>
        simp [FindMatchingHandle, hk, findMatchingLoop_eq_none_iff]

/-- Witness of C16: the first Parameter named like the candidate is pending
kill and the second entry is null, so the third entry is returned; a null
candidate and a candidate that matches no Input give null. -/
theorem findMatching_first_live_match_witness :
    (∃ other, some ({ parameterName := "height" } : UHoudiniParameter) = some other
      ∧ other.pendingKill = false
      ∧ firstLiveMatch UHoudiniParameter.pendingKill parameterNamesMatch
          threeParameters.parameters other { parameterName := "height", bHasChanged := true })
    ∧ FindMatchingParameter parameterNamesMatch threeParameters none = none
    ∧ FindMatchingInput inputTypesMatch threeParameters
        (some { inputType := EHoudiniInputType.Asset }) = none :=
  ⟨((findMatching_first_live_match threeParameters parameterNamesMatch inputTypesMatch
      handleNamesMatch).1 _ _).1 (by decide),
   ((findMatching_first_live_match threeParameters parameterNamesMatch inputTypesMatch
      handleNamesMatch).2.1 none).2 (Or.inl rfl),
   ((findMatching_first_live_match threeParameters parameterNamesMatch inputTypesMatch
      handleNamesMatch).2.2.2.1 _).2
      (Or.inr ⟨_, rfl, Or.inr (fun q hq _ => by
        simp [threeParameters] at hq
        subst hq
        rfl)⟩)⟩

/-! ## Properties of the destruction -/

theorem not_registered_after_unregister (rt : FHoudiniEngineRuntime) (hac : Nat) :
    (rt.UnRegisterHoudiniComponent hac).IsComponentRegistered hac = false := by
  simp [FHoudiniEngineRuntime.UnRegisterHoudiniComponent,
    FHoudiniEngineRuntime.IsComponentRegistered, List.contains_eq_any_beq, List.any_filter]

/-- C17, as stated, fails: the consumer at address 1 has a request in flight
and is in the downstream set of the producer at address 0; after
`OnComponentDestroyed`, and also after `BeginDestroy`, it is unregistered, but
`IsInstantiatingOrCooking` still returns true and the producer's downstream
set still contains it. -/
theorem destroyed_component_keeps_token_and_edge :
    (OnComponentDestroyed bothRegistered cookingConsumerWorld 1).1.IsComponentRegistered 1 = false
    ∧ IsInstantiatingOrCooking
        ((OnComponentDestroyed bothRegistered cookingConsumerWorld 1).2.components 1) = true
    ∧ some 1 ∈ ((OnComponentDestroyed bothRegistered cookingConsumerWorld 1).2.components
        0).downstreamHoudiniAssets
    ∧ IsInstantiatingOrCooking
        ((BeginDestroy bothRegistered cookingConsumerWorld 1).2.components 1) = true
    ∧ some 1 ∈ ((BeginDestroy bothRegistered cookingConsumerWorld 1).2.components
        0).downstreamHoudiniAssets := by
  decide

/-- C17, as amended: after `OnComponentDestroyed`, and after `BeginDestroy`,
the component is no longer registered in the runtime; its GUID, and so the
answer of `IsInstantiatingOrCooking`, is what it was before, and every other
component, with its downstream set, is unchanged. -/
theorem destroyed_component_unregistered (rt : FHoudiniEngineRuntime) (w : World)
    (this : Nat) :
    (OnComponentDestroyed rt w this).1.IsComponentRegistered this = false
    ∧ IsInstantiatingOrCooking ((OnComponentDestroyed rt w this).2.components this)
        = IsInstantiatingOrCooking (w.components this)
    ∧ (∀ x : Nat, x ≠ this → (OnComponentDestroyed rt w this).2.components x = w.components x)
    ∧ (BeginDestroy rt w this).1.IsComponentRegistered this = false
    ∧ (BeginDestroy rt w this).2 = w := by
  refine ⟨not_registered_after_unregister _ this, ?_, ?_,
    not_registered_after_unregister _ this, rfl⟩
  · simp only [OnComponentDestroyed, Function.update_same, IsInstantiatingOrCooking,
      ClearRefineMeshesTimer]
    split_ifs <;> rfl
  · intro x hx
    simp only [OnComponentDestroyed, Function.update_noteq hx]

/-! ## Properties of `IsHoudiniCookedDataAvailable` -/

/-- C18: `IsHoudiniCookedDataAvailable` returns true exactly in the state
`None`, sets `bOutNeedsRebuildOrDelete` exactly in the states `NeedRebuild`,
`NeedDelete` and `Deleting`, sets `bOutInvalidState` exactly when the state is
none of the twelve enumerators, and at most one of the three is true. -/
theorem isHoudiniCookedDataAvailable_signals (s : UHoudiniAssetComponent) :
    ((IsHoudiniCookedDataAvailable s).1 = true ↔ s.assetState = EHoudiniAssetState.None)
    ∧ ((IsHoudiniCookedDataAvailable s).2.1 = true ↔
        s.assetState = EHoudiniAssetState.NeedRebuild
        ∨ s.assetState = EHoudiniAssetState.NeedDelete
        ∨ s.assetState = EHoudiniAssetState.Deleting)
    ∧ ((IsHoudiniCookedDataAvailable s).2.2 = true ↔
        s.assetState ≠ EHoudiniAssetState.NeedInstantiation
        ∧ s.assetState ≠ EHoudiniAssetState.PreInstantiation
        ∧ s.assetState ≠ EHoudiniAssetState.Instantiating
        ∧ s.assetState ≠ EHoudiniAssetState.PreCook
        ∧ s.assetState ≠ EHoudiniAssetState.Cooking
        ∧ s.assetState ≠ EHoudiniAssetState.PostCook
        ∧ s.assetState ≠ EHoudiniAssetState.PreProcess
        ∧ s.assetState ≠ EHoudiniAssetState.Processing
        ∧ s.assetState ≠ EHoudiniAssetState.None
        ∧ s.assetState ≠ EHoudiniAssetState.NeedRebuild
        ∧ s.assetState ≠ EHoudiniAssetState.NeedDelete
        ∧ s.assetState ≠ EHoudiniAssetState.Deleting)
    ∧ ¬ ((IsHoudiniCookedDataAvailable s).1 = true
          ∧ (IsHoudiniCookedDataAvailable s).2.1 = true)
    ∧ ¬ ((IsHoudiniCookedDataAvailable s).1 = true
          ∧ (IsHoudiniCookedDataAvailable s).2.2 = true)
    ∧ ¬ ((IsHoudiniCookedDataAvailable s).2.1 = true
          ∧ (IsHoudiniCookedDataAvailable s).2.2 = true) := by
  unfold IsHoudiniCookedDataAvailable
  cases s.assetState <;> simp

/-! ## Properties of `ApplyInputPresets` -/

theorem set_length_after_resize (arr : List (Option UHoudiniInputObject))
    (x : Option UHoudiniInputObject) :
    (arr ++ List.replicate (arr.length + 1 - arr.length) none).set arr.length x
      = arr ++ [x] := by
  have h1 : arr.length + 1 - arr.length = 1 := by omega
  rw [h1]
  induction arr with
  | nil => rfl
  | cons hd tl ih => simp

theorem presetAssigned_refl (i : UHoudiniInput) : presetAssigned i i := by
  unfold presetAssigned
  refine ⟨rfl, rfl, le_refl _, le_max_right _ _, le_refl _, le_max_right _ _, rfl,
    Or.inl ⟨rfl, rfl, rfl, rfl⟩⟩

theorem presetAssigned_trans (i j k : UHoudiniInput) (h1 : presetAssigned i j)
    (h2 : presetAssigned j k) : presetAssigned i k := by
  unfold presetAssigned at *
  obtain ⟨a1, a2, a3, a4, a5, a6, a7, a8⟩ := h1
  obtain ⟨b1, b2, b3, b4, b5, b6, b7, b8⟩ := h2
  refine ⟨b1.trans a1, b2.trans a2, le_trans a3 b3, ?_, le_trans a5 b5, ?_, b7.trans a7, ?_⟩
  · omega
  · omega
  · rcases b8 with ⟨c1, c2, c3, c4⟩ | hpos
    · rcases a8 with ⟨d1, d2, d3, d4⟩ | hpos
      · exact Or.inl ⟨c1.trans d1, c2.trans d2, c3.trans d3, c4.trans d4⟩
      · right
        rw [c1, c2, c3, c4]
        exact hpos
    · exact Or.inr hpos

theorem assignPresetObject_presetAssigned (Object : PresetObject) (i : UHoudiniInput) :
    presetAssigned i (assignPresetObject Object i) := by
  unfold presetAssigned assignPresetObject
  cases Object.isLandscapeProxy <;> cases Object.isActor <;> cases Object.isStaticMesh <;>
    cases Object.isHoudiniAssetActor <;>
    by_cases hl : i.landscapeInputObjects.length = 0 <;>
    by_cases ha : i.assetInputObjects.length = 0 <;>
    simp [UHoudiniInput.SetInputObjectAt, UHoudiniInput.GetNumberOfInputObjects,
      UHoudiniInput.GetHoudiniInputObjectArray, UHoudiniInput.setHoudiniInputObjectArray,
      set_length_after_resize, hl, ha]

theorem entryRel_refl (R : UHoudiniInput → UHoudiniInput → Prop) (hrefl : ∀ i, R i i)
    (o : Option UHoudiniInput) : entryRel R o o := by
  cases o with
  | none => trivial
  | some i => exact hrefl i

theorem forall₂_entryRel_refl (R : UHoudiniInput → UHoudiniInput → Prop)
    (hrefl : ∀ i, R i i) (l : List (Option UHoudiniInput)) :
    List.Forall₂ (entryRel R) l l := by
  induction l with
  | nil => exact List.Forall₂.nil
  | cons hd tl ih => exact List.Forall₂.cons (entryRel_refl R hrefl hd) ih

theorem forall₂_entryRel_trans (R : UHoudiniInput → UHoudiniInput → Prop)
    (htrans : ∀ i j k, R i j → R j k → R i k) (l1 l2 l3 : List (Option UHoudiniInput))
    (h12 : List.Forall₂ (entryRel R) l1 l2) (h23 : List.Forall₂ (entryRel R) l2 l3) :
    List.Forall₂ (entryRel R) l1 l3 := by
  induction h12 generalizing l3 with
  | nil =>
    cases h23
    exact List.Forall₂.nil
  | @cons a b t1 t2 hab _ ih =>
    cases h23 with
    | @cons _ c _ t3 hbc hrest =>
      refine List.Forall₂.cons ?_ (ih _ hrest)
      cases a <;> cases b <;> cases c <;> simp_all [entryRel]
      exact htrans _ _ _ hab hbc

theorem forall₂_entryRel_getElem? (R : UHoudiniInput → UHoudiniInput → Prop)
    (l1 l2 : List (Option UHoudiniInput)) (h : List.Forall₂ (entryRel R) l1 l2)
    (k : Nat) (i : UHoudiniInput) (hk : l1[k]? = some (some i)) :
    ∃ j, l2[k]? = some (some j) ∧ R i j := by
  induction h generalizing k with
  | nil => simp at hk
  | @cons a b t1 t2 hab _ ih =>
    cases k with
    | zero =>
      simp only [List.getElem?_cons_zero, Option.some.injEq] at hk
      subst hk
      cases b with
      | none => exact hab.elim
      | some j => exact ⟨j, by simp, hab⟩
    | succ k =>
      simp only [List.getElem?_cons_succ] at hk ⊢
      exact ih k hk

theorem forall₂_entryRel_no_null (R : UHoudiniInput → UHoudiniInput → Prop)
    (l1 l2 : List (Option UHoudiniInput)) (h : List.Forall₂ (entryRel R) l1 l2)
    (hnull : ∀ o ∈ l1, o ≠ none) : ∀ o ∈ l2, o ≠ none := by
  induction h with
  | nil => simp
  | @cons a b t1 t2 hab _ ih =>
    intro o ho
    rcases List.mem_cons.1 ho with rfl | ho
    · intro hb
      subst hb
      cases a with
      | none => exact hnull none (List.mem_cons_self _ _) rfl
      | some i => exact hab.elim
    · exact ih (fun o ho => hnull o (List.mem_cons_of_mem _ ho)) o ho

theorem modifyInputAt_entryRel (R : UHoudiniInput → UHoudiniInput → Prop)
    (hrefl : ∀ i, R i i) (f : UHoudiniInput → UHoudiniInput) (hf : ∀ i, R i (f i))
    (position : Nat) (l : List (Option UHoudiniInput)) :
    List.Forall₂ (entryRel R) l (modifyInputAt f position l) := by
  induction l generalizing position with
  | nil => cases position <;> exact List.Forall₂.nil
  | cons hd tl ih =>
    cases position with
    | zero =>
      cases hd with
      | none => exact forall₂_entryRel_refl R hrefl _
      | some i => exact List.Forall₂.cons (hf i) (forall₂_entryRel_refl R hrefl tl)
    | succ position => exact List.Forall₂.cons (entryRel_refl R hrefl hd) (ih position)

theorem applyInputPreset_presetAssigned (InputArray : List Nat)
    (l : List (Option UHoudiniInput)) (preset : Option PresetObject × Int) :
    List.Forall₂ (entryRel presetAssigned) l (applyInputPreset InputArray l preset) := by
  unfold applyInputPreset
  have hsame := forall₂_entryRel_refl presetAssigned presetAssigned_refl l
  split
  · exact hsame
  · split_ifs
    · exact hsame
    · exact hsame
    · split
      · exact hsame
      · exact modifyInputAt_entryRel presetAssigned presetAssigned_refl _
          (assignPresetObject_presetAssigned _) _ l

theorem foldl_applyInputPreset_presetAssigned (InputArray : List Nat)
    (presets : List (Option PresetObject × Int)) (l : List (Option UHoudiniInput)) :
    List.Forall₂ (entryRel presetAssigned) l
      (presets.foldl (applyInputPreset InputArray) l) := by
  induction presets generalizing l with
  | nil => exact forall₂_entryRel_refl presetAssigned presetAssigned_refl l
  | cons preset rest ih =>
    rw [List.foldl_cons]
    exact forall₂_entryRel_trans presetAssigned presetAssigned_trans _ _ _
      (applyInputPreset_presetAssigned InputArray l preset) (ih _)

theorem updateInputTypes_of_no_null (l : List (Option UHoudiniInput))
    (h : ∀ o ∈ l, o ≠ none) :
    updateInputTypes l = some (l.map (Option.map updateInputType)) := by
  induction l with
  | nil => rfl
  | cons hd tl ih =>
    cases hd with
    | none => exact absurd rfl (h none (List.mem_cons_self _ _))
    | some q =>
      simp [updateInputTypes, ih (fun o ho => h o (List.mem_cons_of_mem _ ho))]

/-- The outcome of `ApplyInputPresets` on a component with presets and
without null Input: every Input is the image under the type update of an Input
related to the original one by the assignment. -/
theorem applyInputPresets_outcome (s : UHoudiniAssetComponent)
    (hpresets : s.inputPresets ≠ []) (hnull : ∀ o ∈ s.inputs, o ≠ none) :
    ∃ s' : UHoudiniAssetComponent, ApplyInputPresets s = some s'
      ∧ s'.inputPresets = []
      ∧ ∀ (k : Nat) (i : UHoudiniInput), s.inputs[k]? = some (some i) →
          ∃ i1 : UHoudiniInput, presetAssigned i i1
            ∧ s'.inputs[k]? = some (some (updateInputType i1)) := by
  have hlen : ¬ s.inputPresets.length ≤ 0 := by
    intro h
    exact hpresets (List.length_eq_zero.1 (Nat.le_zero.1 h))
  have hrel := foldl_applyInputPreset_presetAssigned (presetInputArray s.inputs 0)
    s.inputPresets s.inputs
  have hno := forall₂_entryRel_no_null presetAssigned _ _ hrel hnull
  refine ⟨{ s with
      inputs := (s.inputPresets.foldl (applyInputPreset (presetInputArray s.inputs 0))
        s.inputs).map (Option.map updateInputType)
      inputPresets := [] }, ?_, rfl, ?_⟩
  · unfold ApplyInputPresets
    rw [if_neg hlen]
    simp only [updateInputTypes_of_no_null _ hno]
  · intro k i hk
    obtain ⟨i1, hi1, hR⟩ := forall₂_entryRel_getElem? presetAssigned _ _ hrel k i hk
    exact ⟨i1, hR, by simp [List.getElem?_map, hi1]⟩

theorem newInputType_eq_iff (j : UHoudiniInput) (W : EHoudiniInputType) :
    isMajorityType j W ↔ newInputType j = W ∧ W ≠ EHoudiniInputType.Invalid := by
  unfold isMajorityType newInputType
  simp only [UHoudiniInput.GetNumberOfInputObjects, UHoudiniInput.GetHoudiniInputObjectArray]
  constructor
  · rintro (⟨rfl, h⟩ | ⟨rfl, h⟩ | ⟨rfl, h⟩ | ⟨rfl, h⟩)
    · refine ⟨?_, by decide⟩
      rw [if_pos (by omega)]
    · refine ⟨?_, by decide⟩
      rw [if_neg (by omega), if_pos (by omega)]
    · refine ⟨?_, by decide⟩
      rw [if_neg (by omega), if_neg (by omega), if_pos (by omega)]
    · refine ⟨?_, by decide⟩
      rw [if_neg (by omega), if_neg (by omega), if_neg (by omega), if_pos (by omega)]
  · rintro ⟨h, hW⟩
    split_ifs at h with h1 h2 h3 h4
    · subst h
      exact Or.inl ⟨rfl, by omega⟩
    · subst h
      exact Or.inr (Or.inl ⟨rfl, by omega⟩)
    · subst h
      exact Or.inr (Or.inr (Or.inl ⟨rfl, by omega⟩))
    · subst h
      exact Or.inr (Or.inr (Or.inr ⟨rfl, by omega⟩))
    · exact absurd h.symm hW

theorem newInputType_ne_invalid (j : UHoudiniInput)
    (hpos : 0 < j.geometryInputObjects.length + j.assetInputObjects.length
      + j.worldInputObjects.length + j.landscapeInputObjects.length) :
    newInputType j ≠ EHoudiniInputType.Invalid := by
  unfold newInputType
  simp only [UHoudiniInput.GetNumberOfInputObjects, UHoudiniInput.GetHoudiniInputObjectArray]
  split_ifs with h1 h2 h3 h4
  · decide
  · decide
  · decide
  · decide
  · omega

theorem updateInputType_objects (i : UHoudiniInput) :
    (updateInputType i).geometryInputObjects = i.geometryInputObjects
    ∧ (updateInputType i).assetInputObjects = i.assetInputObjects
    ∧ (updateInputType i).worldInputObjects = i.worldInputObjects
    ∧ (updateInputType i).landscapeInputObjects = i.landscapeInputObjects
    ∧ (updateInputType i).curveInputObjects = i.curveInputObjects := by
  unfold updateInputType
  simp only [UHoudiniInput.SetInputType]
  split_ifs <;> exact ⟨rfl, rfl, rfl, rfl, rfl⟩

theorem numberOfInputObjects_updateInputType (i : UHoudiniInput) (ty : EHoudiniInputType) :
    (updateInputType i).GetNumberOfInputObjects ty = i.GetNumberOfInputObjects ty := by
  obtain ⟨h1, h2, h3, h4, h5⟩ := updateInputType_objects i
  cases ty <;>
    simp [UHoudiniInput.GetNumberOfInputObjects, UHoudiniInput.GetHoudiniInputObjectArray,
      h1, h2, h3, h4, h5]

theorem isMajorityType_updateInputType (i : UHoudiniInput) (W : EHoudiniInputType) :
    isMajorityType (updateInputType i) W ↔ isMajorityType i W := by
  obtain ⟨h1, h2, h3, h4, _⟩ := updateInputType_objects i
  unfold isMajorityType
  rw [h1, h2, h3, h4]

theorem updateInputType_inputType (i : UHoudiniInput) (W : EHoudiniInputType)
    (hW : isMajorityType i W) :
    ((i.inputType = EHoudiniInputType.Geometry ∨ i.GetNumberOfOwnInputObjects = 0) →
        (updateInputType i).inputType = W)
    ∧ (¬ (i.inputType = EHoudiniInputType.Geometry ∨ i.GetNumberOfOwnInputObjects = 0) →
        (updateInputType i).inputType = i.inputType) := by
  obtain ⟨hnew, hvalid⟩ := (newInputType_eq_iff i W).1 hW
  unfold updateInputType
  simp only [hnew, if_neg hvalid, UHoudiniInput.SetInputType, Nat.le_zero]
  constructor
  · rintro (hgeo | hzero)
    · by_cases hWg : W = EHoudiniInputType.Geometry
      · subst hWg
        simp only [ne_eq, not_true_eq_false, and_false, if_false]
        split_ifs
        · rfl
        · exact hgeo
      · rw [if_pos ⟨hgeo, hWg⟩]
    · split_ifs <;> rfl
  · intro hnot
    rw [not_or] at hnot
    rw [if_neg (fun h => hnot.1 h.1), if_neg hnot.2]

/-- C19, as stated, fails: the Input was preset to the type Asset and holds an
Asset object; two static meshes are assigned to it, so Geometry holds the most
objects, yet the input type after `ApplyInputPresets` is still Asset. -/
theorem applyInputPresets_keeps_preset_type :
    (ApplyInputPresets assetInputWithMeshPresets).map (fun s' => s'.inputs)
        = some [some assetInputAfterPresets]
    ∧ isMajorityType assetInputAfterPresets EHoudiniInputType.Geometry
    ∧ assetInputAfterPresets.inputType = EHoudiniInputType.Asset
    ∧ assetInputAfterPresets.inputType ≠ EHoudiniInputType.Geometry := by
  refine ⟨by decide, ?_, rfl, by decide⟩
  unfold isMajorityType
  decide

/-- C19, as amended: on a component with presets and without null Input,
`ApplyInputPresets` completes, and for every Input: when a preset object was
assigned to it, some type holds the most of its objects among Geometry, Asset,
World and Landscape (ties in the order Landscape, World, Asset, Geometry);
when such a type `W` exists, the input type becomes `W` if the Input was of
type Geometry or holds no object of the type it had, and stays what it was
otherwise. -/
theorem applyInputPresets_majority_type (s : UHoudiniAssetComponent)
    (hpresets : s.inputPresets ≠ []) (hnull : ∀ o ∈ s.inputs, o ≠ none) :
    ∃ s' : UHoudiniAssetComponent, ApplyInputPresets s = some s'
      ∧ ∀ (k : Nat) (i : UHoudiniInput), s.inputs[k]? = some (some i) →
          ∃ j : UHoudiniInput, s'.inputs[k]? = some (some j)
            ∧ ((j.geometryInputObjects ≠ i.geometryInputObjects
                  ∨ j.assetInputObjects ≠ i.assetInputObjects
                  ∨ j.worldInputObjects ≠ i.worldInputObjects
                  ∨ j.landscapeInputObjects ≠ i.landscapeInputObjects) →
                ∃ W, isMajorityType j W)
            ∧ ∀ W, isMajorityType j W →
                ((i.inputType = EHoudiniInputType.Geometry
                    ∨ j.GetNumberOfInputObjects i.inputType = 0) → j.inputType = W)
                ∧ (¬ (i.inputType = EHoudiniInputType.Geometry
                    ∨ j.GetNumberOfInputObjects i.inputType = 0) →
                  j.inputType = i.inputType) := by
  obtain ⟨s', hrun, _, hinputs⟩ := applyInputPresets_outcome s hpresets hnull
  refine ⟨s', hrun, ?_⟩
  intro k i hk
  obtain ⟨i1, hrel, hj⟩ := hinputs k i hk
  obtain ⟨hty, _, _, _, _, _, _, hassigned⟩ := hrel
  obtain ⟨h1, h2, h3, h4, _⟩ := updateInputType_objects i1
  refine ⟨updateInputType i1, hj, ?_, ?_⟩
  · intro hdiff
    rw [h1, h2, h3, h4] at hdiff
    rcases hassigned with ⟨e1, e2, e3, e4⟩ | hpos
    · rcases hdiff with h | h | h | h
      · exact absurd e1 h
      · exact absurd e2 h
      · exact absurd e3 h
      · exact absurd e4 h
    · exact ⟨newInputType i1, (isMajorityType_updateInputType i1 _).2
        ((newInputType_eq_iff i1 _).2 ⟨rfl, newInputType_ne_invalid i1 hpos⟩)⟩
  · intro W hW
    have hW1 := (isMajorityType_updateInputType i1 W).1 hW
    have hcount : (updateInputType i1).GetNumberOfInputObjects i.inputType
        = i1.GetNumberOfOwnInputObjects := by
      rw [numberOfInputObjects_updateInputType, ← hty]
      rfl
    rw [hcount, ← hty]
    exact updateInputType_inputType i1 W hW1

/-- Witness of C19 as amended: a Geometry Input that receives two landscapes
and a static mesh holds one Landscape, two World and one Geometry object and
becomes a World Input. -/
theorem applyInputPresets_majority_type_witness :
    (ApplyInputPresets geometryInputsWithPresets).map
        (fun s' => s'.inputs.map (Option.map (fun j =>
          (j.inputType, j.landscapeInputObjects.length, j.worldInputObjects.length,
            j.geometryInputObjects.length))))
      = some [some (EHoudiniInputType.World, 1, 2, 1),
              some (EHoudiniInputType.Geometry, 0, 0, 0)]
    ∧ ∃ s' : UHoudiniAssetComponent, ApplyInputPresets geometryInputsWithPresets = some s'
      ∧ ∀ (k : Nat) (i : UHoudiniInput),
          geometryInputsWithPresets.inputs[k]? = some (some i) →
          ∃ j : UHoudiniInput, s'.inputs[k]? = some (some j)
            ∧ ((j.geometryInputObjects ≠ i.geometryInputObjects
                  ∨ j.assetInputObjects ≠ i.assetInputObjects
                  ∨ j.worldInputObjects ≠ i.worldInputObjects
                  ∨ j.landscapeInputObjects ≠ i.landscapeInputObjects) →
                ∃ W, isMajorityType j W)
            ∧ ∀ W, isMajorityType j W →
                ((i.inputType = EHoudiniInputType.Geometry
                    ∨ j.GetNumberOfInputObjects i.inputType = 0) → j.inputType = W)
                ∧ (¬ (i.inputType = EHoudiniInputType.Geometry
                    ∨ j.GetNumberOfInputObjects i.inputType = 0) →
                  j.inputType = i.inputType) :=
  ⟨by decide,
   applyInputPresets_majority_type geometryInputsWithPresets (by decide) (by decide)⟩

/-- C20: a preset object is put into the Landscape, respectively Asset,
sequence of an Input only while that sequence is empty; so on a component
without null Input `ApplyInputPresets` completes, and for every Input the
Landscape and the Asset object counts after the call are at least the counts
before and at most the larger of 1 and the count before. -/
theorem applyInputPresets_singleton_slots (s : UHoudiniAssetComponent)
    (hnull : ∀ o ∈ s.inputs, o ≠ none) :
    (∀ (Object : PresetObject) (i : UHoudiniInput), i.landscapeInputObjects ≠ [] →
        (assignPresetObject Object i).landscapeInputObjects = i.landscapeInputObjects)
    ∧ (∀ (Object : PresetObject) (i : UHoudiniInput), i.assetInputObjects ≠ [] →
        (assignPresetObject Object i).assetInputObjects = i.assetInputObjects)
    ∧ ∃ s' : UHoudiniAssetComponent, ApplyInputPresets s = some s'
        ∧ ∀ (k : Nat) (i : UHoudiniInput), s.inputs[k]? = some (some i) →
            ∃ j : UHoudiniInput, s'.inputs[k]? = some (some j)
              ∧ i.landscapeInputObjects.length ≤ j.landscapeInputObjects.length
              ∧ j.landscapeInputObjects.length ≤ max 1 i.landscapeInputObjects.length
              ∧ i.assetInputObjects.length ≤ j.assetInputObjects.length
              ∧ j.assetInputObjects.length ≤ max 1 i.assetInputObjects.length := by
  refine ⟨?_, ?_, ?_⟩
  · intro Object i hne
    unfold assignPresetObject
    cases Object.isLandscapeProxy <;> cases Object.isActor <;> cases Object.isStaticMesh <;>
      cases Object.isHoudiniAssetActor <;>
      by_cases ha : i.assetInputObjects.length = 0 <;>
      simp [UHoudiniInput.SetInputObjectAt, UHoudiniInput.GetNumberOfInputObjects,
        UHoudiniInput.GetHoudiniInputObjectArray, UHoudiniInput.setHoudiniInputObjectArray,
        hne, ha]
  · intro Object i hne
    unfold assignPresetObject
    cases Object.isLandscapeProxy <;> cases Object.isActor <;> cases Object.isStaticMesh <;>
      cases Object.isHoudiniAssetActor <;>
      by_cases hl : i.landscapeInputObjects.length = 0 <;>
      simp [UHoudiniInput.SetInputObjectAt, UHoudiniInput.GetNumberOfInputObjects,
        UHoudiniInput.GetHoudiniInputObjectArray, UHoudiniInput.setHoudiniInputObjectArray,
        hne, hl]
  · by_cases hpresets : s.inputPresets = []
    · refine ⟨s, by simp [ApplyInputPresets, hpresets], ?_⟩
      intro k i hk
      exact ⟨i, hk, le_refl _, le_max_right _ _, le_refl _, le_max_right _ _⟩
    · obtain ⟨s', hrun, _, hinputs⟩ := applyInputPresets_outcome s hpresets hnull
      refine ⟨s', hrun, ?_⟩
      intro k i hk
      obtain ⟨i1, hrel, hj⟩ := hinputs k i hk
      obtain ⟨_, _, l1, l2, a1, a2, _, _⟩ := hrel
      obtain ⟨_, h2, _, h4, _⟩ := updateInputType_objects i1
      exact ⟨updateInputType i1, hj, by rw [h4]; exact l1, by rw [h4]; exact l2,
        by rw [h2]; exact a1, by rw [h2]; exact a2⟩

/-- Witness of C20: two landscapes are handed to the first Input; after the
call it holds one Landscape object. -/
theorem applyInputPresets_singleton_slots_witness :
    (ApplyInputPresets geometryInputsWithPresets).map
        (fun s' => s'.inputs.map (Option.map (fun j => j.landscapeInputObjects.length)))
      = some [some 1, some 0]
    ∧ ∃ s' : UHoudiniAssetComponent, ApplyInputPresets geometryInputsWithPresets = some s'
        ∧ ∀ (k : Nat) (i : UHoudiniInput),
            geometryInputsWithPresets.inputs[k]? = some (some i) →
            ∃ j : UHoudiniInput, s'.inputs[k]? = some (some j)
              ∧ i.landscapeInputObjects.length ≤ j.landscapeInputObjects.length
              ∧ j.landscapeInputObjects.length ≤ max 1 i.landscapeInputObjects.length
              ∧ i.assetInputObjects.length ≤ j.assetInputObjects.length
              ∧ j.assetInputObjects.length ≤ max 1 i.assetInputObjects.length :=
  ⟨by decide, (applyInputPresets_singleton_slots geometryInputsWithPresets (by decide)).2.2⟩

/-! ## Properties of the refinement timer -/

theorem markAsNeedCook_timer (s s' : UHoudiniAssetComponent)
    (hrun : MarkAsNeedCook s = some s') :
    s'.refineMeshesTimerActive = (!s.hasWorld && s.refineMeshesTimerActive) := by
  unfold MarkAsNeedCook ClearRefineMeshesTimer at hrun
  simp only at hrun
  split at hrun
  · cases hrun
  · split at hrun
    · cases hrun
    · cases hw : s.hasWorld <;> simp [hw] at hrun <;> subst hrun <;> simp

theorem markAsNeedRebuild_timer (s s' : UHoudiniAssetComponent)
    (hrun : MarkAsNeedRebuild s = some s') :
    s'.refineMeshesTimerActive = (!s.hasWorld && s.refineMeshesTimerActive) := by
  unfold MarkAsNeedRebuild ClearRefineMeshesTimer at hrun
  simp only at hrun
  split at hrun
  · cases hrun
  · split at hrun
    · cases hrun
    · cases hw : s.hasWorld <;> simp [hw] at hrun <;> subst hrun <;> simp

theorem markAsNeedRebuild_fullyLoaded (s s' : UHoudiniAssetComponent)
    (hrun : MarkAsNeedRebuild s = some s') : s'.bFullyLoaded = false := by
  unfold MarkAsNeedRebuild ClearRefineMeshesTimer at hrun
  simp only at hrun
  split at hrun
  · cases hrun
  · split at hrun
    · cases hrun
    · cases hw : s.hasWorld <;> simp [hw] at hrun <;> subst hrun <;> rfl

/-- C22: when the component has a world, no refinement timer is pending after
`MarkAsNeedInstantiation`, after `MarkAsNeedCook` and after
`MarkAsNeedRebuild`, whatever timer was pending before; the last two complete
when the Parameter and Input sequences hold no null pointer. -/
theorem marks_clear_refine_timer (s : UHoudiniAssetComponent) (hworld : s.hasWorld = true) :
    (MarkAsNeedInstantiation s).refineMeshesTimerActive = false
    ∧ (∀ s', MarkAsNeedCook s = some s' → s'.refineMeshesTimerActive = false)
    ∧ (∀ s', MarkAsNeedRebuild s = some s' → s'.refineMeshesTimerActive = false)
    ∧ ((∀ o ∈ s.parameters, o ≠ none) → (∀ o ∈ s.inputs, o ≠ none) →
        (∃ s', MarkAsNeedCook s = some s' ∧ s'.refineMeshesTimerActive = false)
        ∧ (∃ s', MarkAsNeedRebuild s = some s' ∧ s'.refineMeshesTimerActive = false)) := by
  refine ⟨?_, ?_, ?_, ?_⟩
  · rw [markAsNeedInstantiation_eq]
    simp [hworld]
  · intro s' hrun
    rw [markAsNeedCook_timer s s' hrun, hworld]
    rfl
  · intro s' hrun
    rw [markAsNeedRebuild_timer s s' hrun, hworld]
    rfl
  · intro hp hi
    refine ⟨⟨_, markAsNeedCook_eq s hp hi, ?_⟩, ⟨_, markAsNeedRebuild_eq s hp hi, ?_⟩⟩
    · simp [hworld]
    · simp [hworld]

/-- Witness of C22 on a component with a pending timer. -/
theorem marks_clear_refine_timer_witness :
    readyToCook.refineMeshesTimerActive = true
    ∧ (MarkAsNeedInstantiation readyToCook).refineMeshesTimerActive = false
    ∧ (∃ s', MarkAsNeedCook readyToCook = some s' ∧ s'.refineMeshesTimerActive = false)
    ∧ (∃ s', MarkAsNeedRebuild readyToCook = some s' ∧ s'.refineMeshesTimerActive = false) :=
  ⟨rfl, (marks_clear_refine_timer readyToCook rfl).1,
   ((marks_clear_refine_timer readyToCook rfl).2.2.2 (by decide) (by decide)).1,
   ((marks_clear_refine_timer readyToCook rfl).2.2.2 (by decide) (by decide)).2⟩

/-! ## Properties of the constructor -/

/-- C23: a newly constructed component is in state `PreInstantiation` with
operation result `None`, node handle -1 and an invalid GUID, so
`IsInstantiatingOrCooking` is false; `bHasBeenLoaded`, `bHasBeenDuplicated`,
`bPendingDelete`, `bRecookRequested`, `bRebuildRequested`, `bFullyLoaded` and
`bHasComponentTransformChanged` are false; no asset definition is bound and
`NeedUpdate` returns false. -/
theorem constructor_initial_state (hasWorld : Bool) :
    (Constructor hasWorld).assetState = EHoudiniAssetState.PreInstantiation
    ∧ (Constructor hasWorld).assetStateResult = EHoudiniAssetStateResult.None
    ∧ (Constructor hasWorld).assetId = -1
    ∧ IsInstantiatingOrCooking (Constructor hasWorld) = false
    ∧ (Constructor hasWorld).bHasBeenLoaded = false
    ∧ (Constructor hasWorld).bHasBeenDuplicated = false
    ∧ (Constructor hasWorld).bPendingDelete = false
    ∧ (Constructor hasWorld).bRecookRequested = false
    ∧ (Constructor hasWorld).bRebuildRequested = false
    ∧ (Constructor hasWorld).bFullyLoaded = false
    ∧ (Constructor hasWorld).bHasComponentTransformChanged = false
    ∧ (Constructor hasWorld).houdiniAsset = none
    ∧ NeedUpdate (Constructor hasWorld) = false := by
  cases hasWorld <;> decide

/-! ## Further properties of the change aggregation -/

theorem parametersNeedUpdate_eq_any (l : List (Option UHoudiniParameter)) :
    parametersNeedUpdate l = l.any parameterSignals := by
  induction l with
  | nil => rfl
  | cons hd tl ih =>
    cases hd with
    | none => simp [parametersNeedUpdate, parameterSignals, ih]
    | some q =>
      cases hk : q.pendingKill <;> cases hc : q.bHasChanged <;>
        cases ht : q.bNeedsToTriggerUpdate <;>
        simp [parametersNeedUpdate, parameterSignals, ih, hk, hc, ht]

theorem inputsNeedUpdate_eq_any (l : List (Option UHoudiniInput)) :
    inputsNeedUpdate l = l.any inputSignals := by
  induction l with
  | nil => rfl
  | cons hd tl ih =>
    cases hd with
    | none => simp [inputsNeedUpdate, inputSignals, ih]
    | some q =>
      cases hk : q.pendingKill <;> cases hc : q.bHasChanged <;>
        cases ht : q.bNeedsToTriggerUpdate <;>
        simp [inputsNeedUpdate, inputSignals, ih, hk, hc, ht]

theorem outputObjectsNeedUpdate_eq_any (l : List (Nat × FHoudiniOutputObject)) :
    outputObjectsNeedUpdate l = l.any outputObjectSignals := by
  induction l with
  | nil => rfl
  | cons hd tl ih =>
    rcases hcomp : hd.2.outputComponent with _ | (⟨a, c⟩ | a)
    · simp [outputObjectsNeedUpdate, outputObjectSignals, hcomp, ih]
    · cases hk : c.bIsOutputCurve <;> cases ht : c.bNeedsToTriggerUpdate <;>
        simp [outputObjectsNeedUpdate, outputObjectSignals, hcomp, ih, hk, ht]
    · simp [outputObjectsNeedUpdate, outputObjectSignals, hcomp, ih]

theorem outputsNeedUpdate_eq_any (l : List (Option UHoudiniOutput)) :
    outputsNeedUpdate l = l.any outputSignals := by
  induction l with
  | nil => rfl
  | cons hd tl ih =>
    cases hd with
    | none => simp [outputsNeedUpdate, outputSignals, ih]
    | some q =>
      cases hk : q.pendingKill <;> cases he : q.bIsEditableNode <;>
        cases ho : q.outputObjects.any outputObjectSignals <;>
        simp [outputsNeedUpdate, outputSignals, ih, hk, he, ho,
          outputObjectsNeedUpdate_eq_any]

theorem updateSignalPresent_perm (s t : UHoudiniAssetComponent)
    (hct : t.bCookOnTransformChange = s.bCookOnTransformChange)
    (hch : t.bHasComponentTransformChanged = s.bHasComponentTransformChanged)
    (hp : t.parameters.Perm s.parameters) (hi : t.inputs.Perm s.inputs)
    (ho : t.outputs.Perm s.outputs) :
    updateSignalPresent t ↔ updateSignalPresent s := by
  unfold updateSignalPresent
  rw [hct, hch]
  simp only [hp.mem_iff, hi.mem_iff, ho.mem_iff]

/-- C24: `NeedUpdate` does not depend on the order of the owned sequences:
replacing the Parameters, the Inputs and the Outputs of a component by
permutations of them leaves the value of `NeedUpdate` unchanged. -/
theorem needUpdate_perm (s : UHoudiniAssetComponent)
    (ps : List (Option UHoudiniParameter)) (is : List (Option UHoudiniInput))
    (os : List (Option UHoudiniOutput))
    (hp : ps.Perm s.parameters) (hi : is.Perm s.inputs) (ho : os.Perm s.outputs) :
    NeedUpdate { s with parameters := ps, inputs := is, outputs := os } = NeedUpdate s := by
  rw [Bool.eq_iff_iff, needUpdate_iff, needUpdate_iff,
    updateSignalPresent_perm s { s with parameters := ps, inputs := is, outputs := os }
      rfl rfl hp hi ho]
  rfl

/-- Witness of C24: the three Parameters of a component in reverse order. -/
theorem needUpdate_perm_witness :
    NeedUpdate { dirtyInput with
        parameters := dirtyInput.parameters.reverse
        inputs := dirtyInput.inputs
        outputs := dirtyInput.outputs }
      = NeedUpdate dirtyInput :=
  needUpdate_perm dirtyInput _ _ _ (List.reverse_perm _) (List.Perm.refl _) (List.Perm.refl _)

/-- C26: on a component with a live asset definition and with
cook-on-parameter-change, a recook request or a rebuild request set,
`NeedUpdate` is the boolean OR of the transform signal, of the Parameter
signals, of the Input signals and of the Output signals; null entries and
entries pending kill contribute `false`. -/
theorem needUpdate_eq_or_of_guards (s : UHoudiniAssetComponent)
    (hasset : s.hasValidAsset = true)
    (hflags : s.bCookOnParameterChange = true ∨ s.bRecookRequested = true
      ∨ s.bRebuildRequested = true) :
    NeedUpdate s
      = ((s.bCookOnTransformChange && s.bHasComponentTransformChanged)
          || s.parameters.any parameterSignals
          || s.inputs.any inputSignals
          || s.outputs.any outputSignals)
    ∧ parameterSignals none = false ∧ inputSignals none = false ∧ outputSignals none = false
    ∧ (∀ p : UHoudiniParameter, p.pendingKill = true → parameterSignals (some p) = false)
    ∧ (∀ i : UHoudiniInput, i.pendingKill = true → inputSignals (some i) = false)
    ∧ (∀ o : UHoudiniOutput, o.pendingKill = true → outputSignals (some o) = false) := by
  refine ⟨?_, rfl, rfl, rfl, ?_, ?_, ?_⟩
  · unfold NeedUpdate
    rw [parametersNeedUpdate_eq_any, inputsNeedUpdate_eq_any, outputsNeedUpdate_eq_any, hasset]
    have hguard : (!s.bCookOnParameterChange && !s.bRecookRequested
        && !s.bRebuildRequested) = false := by
      rcases hflags with h | h | h <;> simp [h]
    rw [hguard]
    cases s.bCookOnTransformChange <;>
      cases s.bHasComponentTransformChanged <;> cases s.parameters.any parameterSignals <;>
      cases s.inputs.any inputSignals <;> cases s.outputs.any outputSignals <;> simp
  · intro p hk
    simp [parameterSignals, hk]
  · intro i hk
    simp [inputSignals, hk]
  · intro o hk
    simp [outputSignals, hk]

/-- Witness of C26: the Parameter that is pending kill does not count, the
dirty Input does. -/
theorem needUpdate_eq_or_of_guards_witness :
    dirtyInput.parameters.any parameterSignals = false
    ∧ dirtyInput.inputs.any inputSignals = true
    ∧ NeedUpdate dirtyInput = true
    ∧ NeedUpdate dirtyInput
      = ((dirtyInput.bCookOnTransformChange && dirtyInput.bHasComponentTransformChanged)
          || dirtyInput.parameters.any parameterSignals
          || dirtyInput.inputs.any inputSignals
          || dirtyInput.outputs.any outputSignals) :=
  ⟨by decide, by decide, by decide,
   (needUpdate_eq_or_of_guards dirtyInput (by decide) (Or.inl (by decide))).1⟩

theorem markParametersNeedInstantiation_no_signal (l : List (Option UHoudiniParameter)) :
    (markParametersNeedInstantiation l).any parameterSignals = false := by
  induction l with
  | nil => rfl
  | cons hd tl ih =>
    cases hd with
    | none => simpa [markParametersNeedInstantiation, parameterSignals] using ih
    | some q =>
      simpa [markParametersNeedInstantiation, parameterSignals,
        UHoudiniParameter.SetNeedsToTriggerUpdate] using ih

theorem markInputsNeedInstantiation_no_signal (l : List (Option UHoudiniInput)) :
    (markInputsNeedInstantiation l).any inputSignals = false := by
  induction l with
  | nil => rfl
  | cons hd tl ih =>
    cases hd with
    | none => simpa [markInputsNeedInstantiation, inputSignals] using ih
    | some q =>
      simpa [markInputsNeedInstantiation, inputSignals,
        UHoudiniInput.SetNeedsToTriggerUpdate, UHoudiniInput.MarkDataUploadNeeded] using ih

/-- The value of `NeedUpdate` right after `MarkAsNeedInstantiation`. -/
theorem needUpdate_markAsNeedInstantiation_eq (s : UHoudiniAssetComponent) :
    NeedUpdate (MarkAsNeedInstantiation s)
      = (s.hasValidAsset && s.bCookOnParameterChange
          && ((s.bCookOnTransformChange && s.bHasComponentTransformChanged)
              || s.outputs.any outputSignals)) := by
  rw [markAsNeedInstantiation_eq]
  unfold NeedUpdate
  simp only [parametersNeedUpdate_eq_any, inputsNeedUpdate_eq_any, outputsNeedUpdate_eq_any,
    markParametersNeedInstantiation_no_signal, markInputsNeedInstantiation_no_signal,
    hasValidAsset]
  cases s.houdiniAsset with
  | none => simp
  | some a =>
    cases a.pendingKill <;> cases s.bCookOnParameterChange <;>
      cases s.bCookOnTransformChange <;> cases s.bHasComponentTransformChanged <;>
      cases s.outputs.any outputSignals <;> simp

/-- C27: right after `MarkAsNeedInstantiation` no Parameter and no Input
signals; `NeedUpdate` after the call is true only if the transform triggers
cooks and has changed, or an editable-node Output holds a spline component
that is not an output curve and needs to trigger; when neither holds it is
false, whatever the bits of the Parameters and Inputs were before. -/
theorem needUpdate_after_markAsNeedInstantiation (s : UHoudiniAssetComponent) :
    (MarkAsNeedInstantiation s).parameters.any parameterSignals = false
    ∧ (MarkAsNeedInstantiation s).inputs.any inputSignals = false
    ∧ (NeedUpdate (MarkAsNeedInstantiation s) = true →
        (s.bCookOnTransformChange = true ∧ s.bHasComponentTransformChanged = true)
        ∨ ∃ o : UHoudiniOutput, some o ∈ s.outputs ∧ o.pendingKill = false
            ∧ o.bIsEditableNode = true
            ∧ ∃ record ∈ o.outputObjects, ∃ (address : Nat) (c : UHoudiniSplineComponent),
                record.2.outputComponent = some (OutputComponentRef.spline address c)
                ∧ c.bIsOutputCurve = false ∧ c.bNeedsToTriggerUpdate = true)
    ∧ (¬ (s.bCookOnTransformChange = true ∧ s.bHasComponentTransformChanged = true) →
        s.outputs.any outputSignals = false →
        NeedUpdate (MarkAsNeedInstantiation s) = false) := by
  refine ⟨?_, ?_, ?_, ?_⟩
  · rw [markAsNeedInstantiation_eq]
    exact markParametersNeedInstantiation_no_signal _
  · rw [markAsNeedInstantiation_eq]
    exact markInputsNeedInstantiation_no_signal _
  · intro h
    rw [needUpdate_markAsNeedInstantiation_eq] at h
    simp only [Bool.and_eq_true, Bool.or_eq_true] at h
    rcases h.2 with ht | ho
    · exact Or.inl ht
    · right
      rw [← outputsNeedUpdate_eq_any, outputsNeedUpdate_iff] at ho
      exact ho
  · intro hnt hno
    rw [needUpdate_markAsNeedInstantiation_eq, hno]
    cases hc : s.bCookOnTransformChange <;> cases hh : s.bHasComponentTransformChanged <;>
      simp_all

/-- Witness of C27: a Parameter and an Input that were dirty and triggering,
with a recook requested, do not make `NeedUpdate` true after the call. -/
theorem needUpdate_after_markAsNeedInstantiation_witness :
    NeedUpdate dirtyBeforeReload = true
    ∧ NeedUpdate (MarkAsNeedInstantiation dirtyBeforeReload) = false :=
  ⟨by decide,
   (needUpdate_after_markAsNeedInstantiation dirtyBeforeReload).2.2.2 (by decide) (by decide)⟩

/-- C28: on a component with a live asset definition, without null Parameter
or Input, and with at least one live Parameter or live Input,
`MarkAsNeedCook` completes and `NeedUpdate` returns true right after it, also
when cook-on-parameter-change is disabled and nothing was dirty before. -/
theorem needUpdate_after_markAsNeedCook (s : UHoudiniAssetComponent)
    (hasset : s.hasValidAsset = true)
    (hp : ∀ o ∈ s.parameters, o ≠ none) (hi : ∀ o ∈ s.inputs, o ≠ none)
    (hlive : (∃ p : UHoudiniParameter, some p ∈ s.parameters ∧ p.pendingKill = false)
      ∨ (∃ i : UHoudiniInput, some i ∈ s.inputs ∧ i.pendingKill = false)) :
    ∃ s' : UHoudiniAssetComponent, MarkAsNeedCook s = some s' ∧ NeedUpdate s' = true := by
  refine ⟨_, markAsNeedCook_eq s hp hi, ?_⟩
  rw [needUpdate_iff]
  refine ⟨hasset, Or.inr (Or.inl rfl), ?_⟩
  rcases hlive with ⟨p, hmem, hk⟩ | ⟨i, hmem, hk⟩
  · refine Or.inr (Or.inl ⟨(p.MarkChanged true).SetNeedsToTriggerUpdate true, ?_, hk, rfl, rfl⟩)
    exact List.mem_map.2 ⟨some p, hmem, rfl⟩
  · refine Or.inr (Or.inr (Or.inl
      ⟨((i.MarkChanged true).SetNeedsToTriggerUpdate true).MarkDataUploadNeeded true,
        ?_, hk, rfl, rfl⟩))
    exact List.mem_map.2 ⟨some i, hmem, rfl⟩

/-- Witness of C28: cook-on-parameter-change is disabled and nothing is dirty,
so `NeedUpdate` is false before the call and true after it. -/
theorem needUpdate_after_markAsNeedCook_witness :
    readyToCook.bCookOnParameterChange = false
    ∧ NeedUpdate readyToCook = false
    ∧ ∃ s' : UHoudiniAssetComponent, MarkAsNeedCook readyToCook = some s'
        ∧ NeedUpdate s' = true :=
  ⟨rfl, by decide,
   needUpdate_after_markAsNeedCook readyToCook (by decide) (by decide) (by decide)
    (Or.inl ⟨{ parameterName := "height" }, by decide, rfl⟩)⟩

/-! ## Properties of the output queries -/

theorem anyOutput_of_no_null (test : UHoudiniOutput → Bool) (l : List (Option UHoudiniOutput))
    (h : ∀ o ∈ l, o ≠ none) :
    anyOutput test l = some (l.any (fun o => match o with
      | some Output => test Output
      | none => false)) := by
  induction l with
  | nil => rfl
  | cons hd tl ih =>
    cases hd with
    | none => exact absurd rfl (h none (List.mem_cons_self _ _))
    | some q =>
      cases ht : test q <;>
        simp [anyOutput, ht, ih (fun o ho => h o (List.mem_cons_of_mem _ ho))]

/-- C25, evaluated on Output sequences with a null entry and with an entry
pending kill: the four queries do not skip the null entry, they dereference it
and have no outcome; and they do not skip the entry pending kill, whose
records make `HasAnyOutputComponent` and `HasOutputObject` return true. -/
theorem output_queries_do_not_skip :
    HasAnyCurrentProxyOutput anyProxyObject withNullOutput = none
    ∧ HasAnyProxyOutput anyProxyObject withNullOutput = none
    ∧ HasAnyOutputComponent withNullOutput = none
    ∧ HasOutputObject withNullOutput (some 4) = none
    ∧ HasAnyOutputComponent withDestroyedOutput = some true
    ∧ HasOutputObject withDestroyedOutput (some 4) = some true := by
  decide

/-! ## Properties of the transform flag -/

/-- C30: `SetHasComponentTransformChanged` writes the flag when the component
is fully loaded and changes nothing otherwise; `MarkAsNeedInstantiation` and
`MarkAsNeedRebuild` clear `bFullyLoaded`, so right after them
`OnUpdateTransform` and `OnActorMoved` leave the component, and with it the
value of `NeedUpdate`, as it is; after `OnRegister` the flag can be set
again. -/
theorem transform_change_needs_fully_loaded (s : UHoudiniAssetComponent) (v isOwner : Bool) :
    (s.bFullyLoaded = true →
      SetHasComponentTransformChanged s v = { s with bHasComponentTransformChanged := v })
    ∧ (s.bFullyLoaded = false → SetHasComponentTransformChanged s v = s)
    ∧ (MarkAsNeedInstantiation s).bFullyLoaded = false
    ∧ OnUpdateTransform (MarkAsNeedInstantiation s) = MarkAsNeedInstantiation s
    ∧ OnActorMoved (MarkAsNeedInstantiation s) isOwner = MarkAsNeedInstantiation s
    ∧ NeedUpdate (OnUpdateTransform (MarkAsNeedInstantiation s))
        = NeedUpdate (MarkAsNeedInstantiation s)
    ∧ (∀ s', MarkAsNeedRebuild s = some s' →
        s'.bFullyLoaded = false ∧ OnUpdateTransform s' = s' ∧ OnActorMoved s' isOwner = s'
        ∧ NeedUpdate (OnUpdateTransform s') = NeedUpdate s')
    ∧ ((∀ o ∈ s.parameters, o ≠ none) → (∀ o ∈ s.inputs, o ≠ none) →
        ∃ s', MarkAsNeedRebuild s = some s')
    ∧ (OnRegister s).bFullyLoaded = true
    ∧ (OnUpdateTransform (OnRegister s)).bHasComponentTransformChanged = true := by
  have hoff : ∀ t : UHoudiniAssetComponent, t.bFullyLoaded = false → ∀ b : Bool,
      SetHasComponentTransformChanged t b = t := by
    intro t ht b
    simp [SetHasComponentTransformChanged, ht]
  have hinst : (MarkAsNeedInstantiation s).bFullyLoaded = false := by
    rw [markAsNeedInstantiation_eq]
  have hupd : OnUpdateTransform (MarkAsNeedInstantiation s) = MarkAsNeedInstantiation s :=
    hoff _ hinst true
  refine ⟨?_, fun h => hoff s h v, hinst, hupd, ?_, by rw [hupd], ?_, ?_, rfl, rfl⟩
  · intro h
    simp [SetHasComponentTransformChanged, h]
  · unfold OnActorMoved
    cases isOwner
    · rfl
    · exact hoff _ hinst true
  · intro s' hrun
    have hfl : s'.bFullyLoaded = false := markAsNeedRebuild_fullyLoaded s s' hrun
    have hupd' : OnUpdateTransform s' = s' := hoff _ hfl true
    refine ⟨hfl, hupd', ?_, by rw [hupd']⟩
    unfold OnActorMoved
    cases isOwner
    · rfl
    · exact hoff _ hfl true
  · intro hp hi
    exact ⟨_, markAsNeedRebuild_eq s hp hi⟩

/-- Witness of C30: a transform update sets the flag on a fully loaded
component and does not set it right after `MarkAsNeedInstantiation`. -/
theorem transform_change_needs_fully_loaded_witness :
    readyToCook.bFullyLoaded = true
    ∧ (SetHasComponentTransformChanged readyToCook true).bHasComponentTransformChanged = true
    ∧ (OnUpdateTransform (MarkAsNeedInstantiation readyToCook)).bHasComponentTransformChanged
        = false := by
  refine ⟨rfl, ?_, ?_⟩
  · rw [(transform_change_needs_fully_loaded readyToCook true true).1 rfl]
  · rw [(transform_change_needs_fully_loaded readyToCook true true).2.2.2.1]
    decide

/-! ## Conditions of the input type change -/

theorem assignPresetObject_presetGrown (Object : PresetObject) (i : UHoudiniInput) :
    presetGrown i (assignPresetObject Object i) := by
  unfold presetGrown assignPresetObject
  cases Object.isLandscapeProxy <;> cases Object.isActor <;> cases Object.isStaticMesh <;>
    cases Object.isHoudiniAssetActor <;>
    by_cases hl : i.landscapeInputObjects.length = 0 <;>
    by_cases ha : i.assetInputObjects.length = 0 <;>
    simp [UHoudiniInput.SetInputObjectAt, UHoudiniInput.GetNumberOfInputObjects,
      UHoudiniInput.GetHoudiniInputObjectArray, UHoudiniInput.setHoudiniInputObjectArray,
      set_length_after_resize, hl, ha]

theorem applyInputPreset_entryRel (R : UHoudiniInput → UHoudiniInput → Prop)
    (hrefl : ∀ i, R i i) (hstep : ∀ Object i, R i (assignPresetObject Object i))
    (InputArray : List Nat) (l : List (Option UHoudiniInput))
    (preset : Option PresetObject × Int) :
    List.Forall₂ (entryRel R) l (applyInputPreset InputArray l preset) := by
  unfold applyInputPreset
  have hsame := forall₂_entryRel_refl R hrefl l
  split
  · exact hsame
  · split_ifs
    · exact hsame
    · exact hsame
    · split
      · exact hsame
      · exact modifyInputAt_entryRel R hrefl _ (hstep _) _ l

theorem foldl_applyInputPreset_entryRel (R : UHoudiniInput → UHoudiniInput → Prop)
    (hrefl : ∀ i, R i i) (htrans : ∀ i j k, R i j → R j k → R i k)
    (hstep : ∀ Object i, R i (assignPresetObject Object i))
    (InputArray : List Nat) (presets : List (Option PresetObject × Int))
    (l : List (Option UHoudiniInput)) :
    List.Forall₂ (entryRel R) l (presets.foldl (applyInputPreset InputArray) l) := by
  induction presets generalizing l with
  | nil => exact forall₂_entryRel_refl R hrefl l
  | cons preset rest ih =>
    rw [List.foldl_cons]
    exact forall₂_entryRel_trans R htrans _ _ _
      (applyInputPreset_entryRel R hrefl hstep InputArray l preset) (ih _)

/-- The outcome of `ApplyInputPresets` as in `applyInputPresets_outcome`, with
the growth of the World and Geometry sequences. -/
theorem applyInputPresets_outcome_grown (s : UHoudiniAssetComponent)
    (hpresets : s.inputPresets ≠ []) (hnull : ∀ o ∈ s.inputs, o ≠ none) :
    ∃ s' : UHoudiniAssetComponent, ApplyInputPresets s = some s'
      ∧ ∀ (k : Nat) (i : UHoudiniInput), s.inputs[k]? = some (some i) →
          ∃ i1 : UHoudiniInput, presetAssigned i i1 ∧ presetGrown i i1
            ∧ s'.inputs[k]? = some (some (updateInputType i1)) := by
  have hlen : ¬ s.inputPresets.length ≤ 0 := by
    intro h
    exact hpresets (List.length_eq_zero.1 (Nat.le_zero.1 h))
  have hrel := foldl_applyInputPreset_entryRel
    (fun i j => presetAssigned i j ∧ presetGrown i j)
    (fun i => ⟨presetAssigned_refl i, le_refl _, le_refl _⟩)
    (fun i j k h1 h2 => ⟨presetAssigned_trans i j k h1.1 h2.1,
      le_trans h1.2.1 h2.2.1, le_trans h1.2.2 h2.2.2⟩)
    (fun Object i => ⟨assignPresetObject_presetAssigned Object i,
      assignPresetObject_presetGrown Object i⟩)
    (presetInputArray s.inputs 0) s.inputPresets s.inputs
  have hno := forall₂_entryRel_no_null _ _ _ hrel hnull
  refine ⟨{ s with
      inputs := (s.inputPresets.foldl (applyInputPreset (presetInputArray s.inputs 0))
        s.inputs).map (Option.map updateInputType)
      inputPresets := [] }, ?_, ?_⟩
  · unfold ApplyInputPresets
    rw [if_neg hlen]
    simp only [updateInputTypes_of_no_null _ hno]
  · intro k i hk
    obtain ⟨i1, hi1, hR⟩ := forall₂_entryRel_getElem? _ _ _ hrel k i hk
    exact ⟨i1, hR.1, hR.2, by simp [List.getElem?_map, hi1]⟩

theorem updateInputType_of_invalid (i : UHoudiniInput)
    (h : newInputType i = EHoudiniInputType.Invalid) : updateInputType i = i := by
  unfold updateInputType
  simp [h]

theorem newInputType_invalid_of_no_object (i : UHoudiniInput)
    (hg : i.geometryInputObjects = []) (ha : i.assetInputObjects = [])
    (hw : i.worldInputObjects = []) (hl : i.landscapeInputObjects = []) :
    newInputType i = EHoudiniInputType.Invalid := by
  unfold newInputType
  simp [UHoudiniInput.GetNumberOfInputObjects, UHoudiniInput.GetHoudiniInputObjectArray,
    hg, ha, hw, hl]

/-- What a change of type by the third loop of `ApplyInputPresets` implies. -/
theorem updateInputType_changed (i : UHoudiniInput)
    (hchanged : (updateInputType i).inputType ≠ i.inputType) :
    ∃ W, isMajorityType i W ∧ (updateInputType i).inputType = W
      ∧ ((i.inputType = EHoudiniInputType.Geometry ∧ W ≠ EHoudiniInputType.Geometry)
          ∨ i.GetNumberOfOwnInputObjects = 0) := by
  by_cases hinv : newInputType i = EHoudiniInputType.Invalid
  · rw [updateInputType_of_invalid i hinv] at hchanged
    exact absurd rfl hchanged
  · have hW : isMajorityType i (newInputType i) := (newInputType_eq_iff i _).2 ⟨rfl, hinv⟩
    obtain ⟨hyes, hno⟩ := updateInputType_inputType i _ hW
    by_cases hcond : i.inputType = EHoudiniInputType.Geometry ∨ i.GetNumberOfOwnInputObjects = 0
    · refine ⟨newInputType i, hW, hyes hcond, ?_⟩
      rcases hcond with hgeo | hzero
      · left
        refine ⟨hgeo, ?_⟩
        intro hWg
        apply hchanged
        rw [hyes (Or.inl hgeo), hWg, hgeo]
      · exact Or.inr hzero
    · exact absurd (hno hcond) hchanged

/-- C29: on a component with presets and without null Input, for every Input
`i` and the Input `j` that `ApplyInputPresets` leaves in its place: if the
input type changed, then a winning type `W` exists, the new type is `W`, and
either `i` was of type Geometry and `W` is not Geometry or the Input holds no
object of the type it had; the type is unchanged when all four counts are
zero, and a type other than Geometry that has objects, at the time of the
update or already before the call, is never overridden. -/
theorem applyInputPresets_type_change_conditions (s : UHoudiniAssetComponent)
    (hpresets : s.inputPresets ≠ []) (hnull : ∀ o ∈ s.inputs, o ≠ none) :
    ∃ s' : UHoudiniAssetComponent, ApplyInputPresets s = some s'
      ∧ ∀ (k : Nat) (i : UHoudiniInput), s.inputs[k]? = some (some i) →
          ∃ j : UHoudiniInput, s'.inputs[k]? = some (some j)
            ∧ (j.inputType ≠ i.inputType →
                ∃ W, isMajorityType j W ∧ j.inputType = W
                  ∧ ((i.inputType = EHoudiniInputType.Geometry
                        ∧ W ≠ EHoudiniInputType.Geometry)
                      ∨ j.GetNumberOfInputObjects i.inputType = 0))
            ∧ ((j.geometryInputObjects = [] ∧ j.assetInputObjects = []
                  ∧ j.worldInputObjects = [] ∧ j.landscapeInputObjects = []) →
                j.inputType = i.inputType)
            ∧ (i.inputType ≠ EHoudiniInputType.Geometry →
                0 < j.GetNumberOfInputObjects i.inputType → j.inputType = i.inputType)
            ∧ (i.inputType ≠ EHoudiniInputType.Geometry →
                0 < i.GetNumberOfOwnInputObjects → j.inputType = i.inputType) := by
  obtain ⟨s', hrun, hinputs⟩ := applyInputPresets_outcome_grown s hpresets hnull
  refine ⟨s', hrun, ?_⟩
  intro k i hk
  obtain ⟨i1, hrel, hgrown, hj⟩ := hinputs k i hk
  obtain ⟨hty, _, l1, _, a1, _, hcurve, _⟩ := hrel
  obtain ⟨h1, h2, h3, h4, _⟩ := updateInputType_objects i1
  have hcount : (updateInputType i1).GetNumberOfInputObjects i.inputType
      = i1.GetNumberOfOwnInputObjects := by
    rw [numberOfInputObjects_updateInputType, ← hty]
    rfl
  have hchange : (updateInputType i1).inputType ≠ i.inputType →
      ∃ W, isMajorityType (updateInputType i1) W ∧ (updateInputType i1).inputType = W
        ∧ ((i.inputType = EHoudiniInputType.Geometry ∧ W ≠ EHoudiniInputType.Geometry)
            ∨ (updateInputType i1).GetNumberOfInputObjects i.inputType = 0) := by
    intro hne
    rw [← hty] at hne
    obtain ⟨W, hW, hnew, hwhy⟩ := updateInputType_changed i1 hne
    rw [hcount, ← hty]
    exact ⟨W, (isMajorityType_updateInputType i1 W).2 hW, hnew, hwhy⟩
  have hkeep : i.inputType ≠ EHoudiniInputType.Geometry →
      0 < (updateInputType i1).GetNumberOfInputObjects i.inputType →
      (updateInputType i1).inputType = i.inputType := by
    intro hnotgeo hpos
    by_contra hne
    obtain ⟨W, _, _, hwhy⟩ := hchange hne
    rcases hwhy with ⟨hgeo, _⟩ | hzero
    · exact hnotgeo hgeo
    · omega
  refine ⟨updateInputType i1, hj, hchange, ?_, hkeep, ?_⟩
  · rintro ⟨e1, e2, e3, e4⟩
    rw [h1] at e1
    rw [h2] at e2
    rw [h3] at e3
    rw [h4] at e4
    rw [updateInputType_of_invalid i1 (newInputType_invalid_of_no_object i1 e1 e2 e3 e4)]
    exact hty
  · intro hnotgeo hpos
    apply hkeep hnotgeo
    rw [hcount]
    have hmono : i.GetNumberOfOwnInputObjects ≤ i1.GetNumberOfOwnInputObjects := by
      unfold UHoudiniInput.GetNumberOfOwnInputObjects
      rw [hty]
      cases hT : i.inputType <;>
        simp only [UHoudiniInput.GetNumberOfInputObjects,
          UHoudiniInput.GetHoudiniInputObjectArray, le_refl]
      · exact hgrown.2
      · rw [hcurve]
      · exact a1
      · exact l1
      · exact hgrown.1
    omega

/-- Witness of C29: the Input preset to Asset holds an Asset object, so the
two static meshes assigned to it do not change its type. -/
theorem applyInputPresets_type_change_conditions_witness :
    (ApplyInputPresets assetInputWithMeshPresets).map
        (fun s' => s'.inputs.map (Option.map (fun j => j.inputType)))
      = some [some EHoudiniInputType.Asset]
    ∧ ∃ s' : UHoudiniAssetComponent, ApplyInputPresets assetInputWithMeshPresets = some s'
      ∧ ∀ (k : Nat) (i : UHoudiniInput),
          assetInputWithMeshPresets.inputs[k]? = some (some i) →
          ∃ j : UHoudiniInput, s'.inputs[k]? = some (some j)
            ∧ (j.inputType ≠ i.inputType →
                ∃ W, isMajorityType j W ∧ j.inputType = W
                  ∧ ((i.inputType = EHoudiniInputType.Geometry
                        ∧ W ≠ EHoudiniInputType.Geometry)
                      ∨ j.GetNumberOfInputObjects i.inputType = 0))
            ∧ ((j.geometryInputObjects = [] ∧ j.assetInputObjects = []
                  ∧ j.worldInputObjects = [] ∧ j.landscapeInputObjects = []) →
                j.inputType = i.inputType)
            ∧ (i.inputType ≠ EHoudiniInputType.Geometry →
                0 < j.GetNumberOfInputObjects i.inputType → j.inputType = i.inputType)
            ∧ (i.inputType ≠ EHoudiniInputType.Geometry →
                0 < i.GetNumberOfOwnInputObjects → j.inputType = i.inputType) :=
  ⟨by decide,
   applyInputPresets_type_change_conditions assetInputWithMeshPresets (by decide) (by decide)⟩

/-! ## Consumption of the input presets -/

theorem presetRetained_refl (i : UHoudiniInput) : presetRetained i i :=
  ⟨fun _ h => h, fun _ h => h, fun h => h, fun h => h⟩

theorem presetRetained_trans (i j k : UHoudiniInput) (h1 : presetRetained i j)
    (h2 : presetRetained j k) : presetRetained i k :=
  ⟨fun x hx => h2.1 x (h1.1 x hx), fun x hx => h2.2.1 x (h1.2.1 x hx),
   fun h => h2.2.2.1 (h1.2.2.1 h), fun h => h2.2.2.2 (h1.2.2.2 h)⟩

theorem assignPresetObject_presetRetained (Object : PresetObject) (i : UHoudiniInput) :
    presetRetained i (assignPresetObject Object i) := by
  unfold presetRetained assignPresetObject
  cases Object.isLandscapeProxy <;> cases Object.isActor <;> cases Object.isStaticMesh <;>
    cases Object.isHoudiniAssetActor <;>
    by_cases hl : i.landscapeInputObjects.length = 0 <;>
    by_cases ha : i.assetInputObjects.length = 0 <;>
    simp [UHoudiniInput.SetInputObjectAt, UHoudiniInput.GetNumberOfInputObjects,
      UHoudiniInput.GetHoudiniInputObjectArray, UHoudiniInput.setHoudiniInputObjectArray,
      set_length_after_resize, hl, ha] <;>
    first
      | done
      | (intro x hx; exact Or.inl hx)
      | (refine ⟨?_, ?_⟩ <;> intro x hx <;> exact Or.inl hx)

theorem assignPresetObject_holds (Object : PresetObject) (i : UHoudiniInput) :
    holdsPresetObject Object (assignPresetObject Object i) := by
  unfold holdsPresetObject assignPresetObject
  cases Object.isLandscapeProxy <;> cases Object.isActor <;> cases Object.isStaticMesh <;>
    cases Object.isHoudiniAssetActor <;>
    by_cases hl : i.landscapeInputObjects.length = 0 <;>
    by_cases ha : i.assetInputObjects.length = 0 <;>
    simp [UHoudiniInput.SetInputObjectAt, UHoudiniInput.GetNumberOfInputObjects,
      UHoudiniInput.GetHoudiniInputObjectArray, UHoudiniInput.setHoudiniInputObjectArray,
      set_length_after_resize, hl, ha] <;>
    simp_all

theorem holdsPresetObject_of_retained (Object : PresetObject) (i j : UHoudiniInput)
    (hholds : holdsPresetObject Object i) (hkept : presetRetained i j) :
    holdsPresetObject Object j :=
  ⟨fun h => hkept.2.2.1 (hholds.1 h), fun h => hkept.1 _ (hholds.2.1 h),
   fun h => hkept.2.1 _ (hholds.2.2.1 h), fun h => hkept.2.2.2 (hholds.2.2.2 h)⟩

theorem holdsPresetObject_updateInputType (Object : PresetObject) (i : UHoudiniInput)
    (hholds : holdsPresetObject Object i) :
    holdsPresetObject Object (updateInputType i) := by
  obtain ⟨h1, h2, h3, h4, _⟩ := updateInputType_objects i
  unfold holdsPresetObject
  rw [h1, h2, h3, h4]
  exact hholds

theorem presetInputArray_entry (l : List (Option UHoudiniInput)) (start position : Nat)
    (hmem : position ∈ presetInputArray l start) :
    start ≤ position ∧ ∃ i : UHoudiniInput, l[position - start]? = some (some i)
      ∧ i.pendingKill = false ∧ i.inputType ≠ EHoudiniInputType.Curve := by
  induction l generalizing start with
  | nil => simp [presetInputArray] at hmem
  | cons hd tl ih =>
    have hrest : position ∈ presetInputArray tl (start + 1) →
        start ≤ position ∧ ∃ i : UHoudiniInput, (hd :: tl)[position - start]? = some (some i)
          ∧ i.pendingKill = false ∧ i.inputType ≠ EHoudiniInputType.Curve := by
      intro h
      obtain ⟨hle, i, hi, hk, hc⟩ := ih (start + 1) h
      refine ⟨by omega, i, ?_, hk, hc⟩
      have hsub : position - start = (position - (start + 1)) + 1 := by omega
      rw [hsub, List.getElem?_cons_succ]
      exact hi
    cases hd with
    | none => exact hrest (by simpa [presetInputArray] using hmem)
    | some q =>
      cases hk : q.pendingKill
      · by_cases hc : q.inputType = EHoudiniInputType.Curve
        · exact hrest (by simpa [presetInputArray, hk, hc] using hmem)
        · simp only [presetInputArray, hk, Bool.false_eq_true, if_false, bne_iff_ne, ne_eq, hc,
            not_false_eq_true, if_true, List.mem_cons] at hmem
          rcases hmem with heq | hmem
          · subst heq
            exact ⟨le_refl _, q, by simp, hk, hc⟩
          · exact hrest hmem
      · exact hrest (by simpa [presetInputArray, hk] using hmem)

theorem modifyInputAt_getElem? (f : UHoudiniInput → UHoudiniInput)
    (l : List (Option UHoudiniInput)) (position : Nat) (i : UHoudiniInput)
    (h : l[position]? = some (some i)) :
    (modifyInputAt f position l)[position]? = some (some (f i)) := by
  induction l generalizing position with
  | nil => simp at h
  | cons hd tl ih =>
    cases position with
    | zero =>
      simp only [List.getElem?_cons_zero, Option.some.injEq] at h
      subst h
      simp [modifyInputAt]
    | succ position =>
      simp only [List.getElem?_cons_succ] at h
      simp only [modifyInputAt, List.getElem?_cons_succ]
      exact ih position h

theorem applyInputPreset_of_valid (InputArray : List Nat) (l : List (Option UHoudiniInput))
    (Object : PresetObject) (n : Int) (position : Nat)
    (hlive : Object.pendingKill = false) (hn : 0 ≤ n)
    (hslot : InputArray[n.toNat]? = some position) :
    applyInputPreset InputArray l (some Object, n)
      = modifyInputAt (assignPresetObject Object) position l := by
  have hlt : n.toNat < InputArray.length := by
    rcases Nat.lt_or_ge n.toNat InputArray.length with h | h
    · exact h
    · rw [List.getElem?_eq_none h] at hslot
      cases hslot
  have hvalid : ¬ (n < 0 ∨ (InputArray.length : Int) ≤ n) := by
    omega
  simp only [applyInputPreset, hlive, Bool.false_eq_true, if_false, if_neg hvalid, hslot]

/-- The outcome of `ApplyInputPresets` on a component with presets and
without null Input, written as one record update. -/
theorem applyInputPresets_eq (s : UHoudiniAssetComponent)
    (hpresets : s.inputPresets ≠ []) (hnull : ∀ o ∈ s.inputs, o ≠ none) :
    ApplyInputPresets s = some
      { s with
        inputs := (s.inputPresets.foldl (applyInputPreset (presetInputArray s.inputs 0))
          s.inputs).map (Option.map updateInputType)
        inputPresets := [] } := by
  have hlen : ¬ s.inputPresets.length ≤ 0 := by
    intro h
    exact hpresets (List.length_eq_zero.1 (Nat.le_zero.1 h))
  have hrel := foldl_applyInputPreset_presetAssigned (presetInputArray s.inputs 0)
    s.inputPresets s.inputs
  have hno := forall₂_entryRel_no_null presetAssigned _ _ hrel hnull
  unfold ApplyInputPresets
  rw [if_neg hlen]
  simp only [updateInputTypes_of_no_null _ hno]

/-- Each valid pair of the preset map reaches the Input it targets: after the
second loop of `ApplyInputPresets` that Input holds the preset object. -/
theorem foldl_applyInputPreset_holds (InputArray : List Nat)
    (presets : List (Option PresetObject × Int)) (l : List (Option UHoudiniInput))
    (Object : PresetObject) (n : Int) (position : Nat) (i : UHoudiniInput)
    (hmem : (some Object, n) ∈ presets) (hlive : Object.pendingKill = false) (hn : 0 ≤ n)
    (hslot : InputArray[n.toNat]? = some position)
    (hentry : l[position]? = some (some i)) :
    ∃ j : UHoudiniInput,
      (presets.foldl (applyInputPreset InputArray) l)[position]? = some (some j)
      ∧ holdsPresetObject Object j := by
  obtain ⟨pre, post, hsplit⟩ := List.append_of_mem hmem
  rw [hsplit, List.foldl_append, List.foldl_cons]
  have hpre := foldl_applyInputPreset_entryRel presetRetained presetRetained_refl
    presetRetained_trans assignPresetObject_presetRetained InputArray pre l
  obtain ⟨i1, hi1, _⟩ := forall₂_entryRel_getElem? presetRetained _ _ hpre position i hentry
  have hstep := modifyInputAt_getElem? (assignPresetObject Object) _ position i1 hi1
  rw [← applyInputPreset_of_valid InputArray _ Object n position hlive hn hslot] at hstep
  have hpost := foldl_applyInputPreset_entryRel presetRetained presetRetained_refl
    presetRetained_trans assignPresetObject_presetRetained InputArray post
    (applyInputPreset InputArray (pre.foldl (applyInputPreset InputArray) l) (some Object, n))
  obtain ⟨j, hj, hkept⟩ := forall₂_entryRel_getElem? presetRetained _ _ hpost position _ hstep
  exact ⟨j, hj, holdsPresetObject_of_retained Object _ j
    (assignPresetObject_holds Object i1) hkept⟩

/-- C21: on a component without null Input, `ApplyInputPresets` completes and
consumes the preset map: the outcome differs from the component in its Inputs
and its preset map only, it has as many Inputs as before, every pair of the
map with a live object and a valid index has put its object into the Input it
names (a static mesh is among the Geometry objects, an actor among the World
objects, the Landscape or Asset slot is filled), and the map is left empty.
A second call right after it is a call without presets: it returns the
component as the first call left it, so no Input gets an object or another
type. -/
theorem applyInputPresets_consumed_once (s : UHoudiniAssetComponent)
    (hnull : ∀ o ∈ s.inputs, o ≠ none) :
    ∃ s' : UHoudiniAssetComponent, ApplyInputPresets s = some s'
      ∧ s' = { s with inputs := s'.inputs, inputPresets := [] }
      ∧ s'.inputs.length = s.inputs.length
      ∧ (∀ (Object : PresetObject) (n : Int) (position : Nat),
          (some Object, n) ∈ s.inputPresets → Object.pendingKill = false → 0 ≤ n →
          (presetInputArray s.inputs 0)[n.toNat]? = some position →
          ∃ j : UHoudiniInput, s'.inputs[position]? = some (some j)
            ∧ holdsPresetObject Object j)
      ∧ s'.inputPresets = []
      ∧ ApplyInputPresets s' = some s' := by
  by_cases hpresets : s.inputPresets = []
  · have hrun : ApplyInputPresets s = some s := by simp [ApplyInputPresets, hpresets]
    refine ⟨s, hrun, ?_, rfl, ?_, hpresets, hrun⟩
    · cases s
      simp only at hpresets
      subst hpresets
      rfl
    · intro Object n position hmem
      rw [hpresets] at hmem
      cases hmem
  · rw [applyInputPresets_eq s hpresets hnull]
    refine ⟨_, rfl, rfl, ?_, ?_, rfl, by simp [ApplyInputPresets]⟩
    · have hrel := foldl_applyInputPreset_presetAssigned (presetInputArray s.inputs 0)
        s.inputPresets s.inputs
      simp only [List.length_map]
      exact hrel.length_eq.symm
    · intro Object n position hmem hlive hn hslot
      obtain ⟨_, i, hentry, _⟩ :=
        presetInputArray_entry s.inputs 0 position (List.getElem?_mem hslot)
      rw [Nat.sub_zero] at hentry
      obtain ⟨j, hj, hholds⟩ := foldl_applyInputPreset_holds (presetInputArray s.inputs 0)
        s.inputPresets s.inputs Object n position i hmem hlive hn hslot hentry
      refine ⟨updateInputType j, ?_, holdsPresetObject_updateInputType Object j hholds⟩
      simp only [List.getElem?_map, hj, Option.map_some']

/-- Witness of C21 on a component with two empty Geometry Inputs and three
presets for the first one: the call puts the first landscape, both actors and
the static mesh into the first Input, which becomes a World Input, leaves the
second Input as it was and empties the map. -/
theorem applyInputPresets_consumed_once_witness :
    geometryInputsWithPresets.inputs = [some {}, some {}]
    ∧ geometryInputsWithPresets.inputPresets.length = 3
    ∧ ApplyInputPresets geometryInputsWithPresets
        = some { geometryInputsWithPresets with
                 inputs := [some firstInputAfterPresets, some {}]
                 inputPresets := [] }
    ∧ holdsPresetObject (meshPreset 32) firstInputAfterPresets
    ∧ ∃ s' : UHoudiniAssetComponent, ApplyInputPresets geometryInputsWithPresets = some s'
      ∧ s' = { geometryInputsWithPresets with inputs := s'.inputs, inputPresets := [] }
      ∧ s'.inputs.length = geometryInputsWithPresets.inputs.length
      ∧ (∀ (Object : PresetObject) (n : Int) (position : Nat),
          (some Object, n) ∈ geometryInputsWithPresets.inputPresets →
          Object.pendingKill = false → 0 ≤ n →
          (presetInputArray geometryInputsWithPresets.inputs 0)[n.toNat]? = some position →
          ∃ j : UHoudiniInput, s'.inputs[position]? = some (some j)
            ∧ holdsPresetObject Object j)
      ∧ s'.inputPresets = []
      ∧ ApplyInputPresets s' = some s' :=
  ⟨by decide, by decide, by decide,
   ⟨by decide, by decide, fun _ => List.mem_singleton.2 rfl, by decide⟩,
   applyInputPresets_consumed_once geometryInputsWithPresets (by decide)⟩

end UHoudiniAssetComponent

end Houdini
